import Mathlib

/-!
# Verification of the pyle compiler and virtual machine

Shallow embedding of the core of the `pyle` toolchain: the bytecode
compiler (`src/pyle/pyle_compiler.py`) and the stack virtual machine
(`src/pyle/pyle_vm.py`), together with the value model they share
(`src/pyle/pyle_bytecode.py`, `src/pyle/pyle_builtins.py`).

Conventions of the embedding:
* Python lists used as stacks (`self.stack`, `self.environments`,
  `self.frames`, the loop patch stacks) are modelled as Lean `List`s with
  the *top at the head*; `append`/`pop` at the Python end of the list
  correspond to `cons` / matching on the head.  Indices counted from the
  bottom (such as `CallFrame.stack_slot`) are kept as bottom-based counts
  and realised through `truncateTo`.
* Python `dict`s (the globals map, a single environment) are modelled as
  insertion-ordered association lists: assigning to an existing key
  updates in place, a new key is appended at the end.
* Host floats are modelled as rationals (`Rat`); none of the claims
  below exercises rounding, overflow or NaN behaviour.
* Runtime lists are modelled immutably.  `OP_INDEX_SET` rebuilds the list
  value it pushes; host-level aliasing between an environment binding and
  a stack value is not modelled, and no claim below depends on it.
* Host behaviour that the claims never reach (string `%`-formatting,
  slicing with a `Range` index, attribute lookup beyond `Range` fields,
  the `scan`/`perf_counter`/`importpy`/`get_attr` natives, calls with
  keyword arguments into host objects) is mapped to a distinguished
  `unmodelled` outcome which aborts the run; every theorem below is about
  runs or steps that stay inside the modelled fragment.
-/

namespace Pyle

/-- Runtime (and constant-pool) values.  Mirrors the Python value domain the
VM manipulates: `int`, `float`, `bool`, `str`, `None`, `list`,
`Range` (dataclass with three value fields), host iterators (modelled as
the list of values still to be produced), `PyleFunction` (a native
function is identified by its registry name) and the keyword-argument
dictionary built by `OP_BUILD_KWARGS`. -/
inductive Value where
  | int (n : Int)
  | float (q : Rat)
  | bool (b : Bool)
  | str (s : String)
  | none
  | list (elems : List Value)
  | range (start stop step : Value)
  | iterator (remaining : List Value)
  | fn (name : String) (arity : Int) (startIp : Option Nat) (native : Option String)
  | kwdict (entries : List (String × Value))
  deriving Repr

mutual

def Value.beq : Value → Value → Bool
  | .int a, .int b => a == b
  | .float a, .float b => a == b
  | .bool a, .bool b => a == b
  | .str a, .str b => a == b
  | .none, .none => true
  | .list a, .list b => Value.beqList a b
  | .range a b c, .range d e f => Value.beq a d && Value.beq b e && Value.beq c f
  | .iterator a, .iterator b => Value.beqList a b
  | .fn n1 a1 s1 v1, .fn n2 a2 s2 v2 => n1 == n2 && a1 == a2 && s1 == s2 && v1 == v2
  | .kwdict a, .kwdict b => Value.beqKw a b
  | _, _ => false

def Value.beqList : List Value → List Value → Bool
  | [], [] => true
  | x :: xs, y :: ys => Value.beq x y && Value.beqList xs ys
  | _, _ => false

def Value.beqKw : List (String × Value) → List (String × Value) → Bool
  | [], [] => true
  | (k1, v1) :: xs, (k2, v2) :: ys => k1 == k2 && Value.beq v1 v2 && Value.beqKw xs ys
  | _, _ => false

end

mutual

theorem Value.eq_of_beq : ∀ {a b : Value}, Value.beq a b = true → a = b
  | .int _, .int _, h => by
      simp only [Value.beq, beq_iff_eq] at h; exact congrArg Value.int h
  | .float _, .float _, h => by
      simp only [Value.beq, beq_iff_eq] at h; exact congrArg Value.float h
  | .bool _, .bool _, h => by
      simp only [Value.beq, beq_iff_eq] at h; exact congrArg Value.bool h
  | .str _, .str _, h => by
      simp only [Value.beq, beq_iff_eq] at h; exact congrArg Value.str h
  | .none, .none, _ => rfl
  | .list a, .list b, h => by
      simp only [Value.beq] at h; exact congrArg Value.list (Value.eqList_of_beq h)
  | .range a b c, .range d e f, h => by
      simp only [Value.beq, Bool.and_eq_true] at h
      rw [Value.eq_of_beq h.1.1, Value.eq_of_beq h.1.2, Value.eq_of_beq h.2]
  | .iterator a, .iterator b, h => by
      simp only [Value.beq] at h; exact congrArg Value.iterator (Value.eqList_of_beq h)
  | .fn _ _ _ _, .fn _ _ _ _, h => by
      simp only [Value.beq, Bool.and_eq_true, beq_iff_eq] at h
      rw [h.1.1.1, h.1.1.2, h.1.2, h.2]
  | .kwdict a, .kwdict b, h => by
      simp only [Value.beq] at h; exact congrArg Value.kwdict (Value.eqKw_of_beq h)

theorem Value.eqList_of_beq : ∀ {a b : List Value}, Value.beqList a b = true → a = b
  | [], [], _ => rfl
  | x :: xs, y :: ys, h => by
      simp only [Value.beqList, Bool.and_eq_true] at h
      rw [Value.eq_of_beq h.1, Value.eqList_of_beq h.2]

theorem Value.eqKw_of_beq : ∀ {a b : List (String × Value)}, Value.beqKw a b = true → a = b
  | [], [], _ => rfl
  | (k1, v1) :: xs, (k2, v2) :: ys, h => by
      simp only [Value.beqKw, Bool.and_eq_true, beq_iff_eq] at h
      rw [h.1.1, Value.eq_of_beq h.1.2, Value.eqKw_of_beq h.2]

end

mutual

theorem Value.beq_refl : ∀ (a : Value), Value.beq a a = true
  | .int _ => by simp [Value.beq]
  | .float _ => by simp [Value.beq]
  | .bool _ => by simp [Value.beq]
  | .str _ => by simp [Value.beq]
  | .none => rfl
  | .list a => by simp [Value.beq, Value.beqList_refl a]
  | .range a b c => by
      simp [Value.beq, Value.beq_refl a, Value.beq_refl b, Value.beq_refl c]
  | .iterator a => by simp [Value.beq, Value.beqList_refl a]
  | .fn _ _ _ _ => by simp [Value.beq]
  | .kwdict a => by simp [Value.beq, Value.beqKw_refl a]

theorem Value.beqList_refl : ∀ (a : List Value), Value.beqList a a = true
  | [] => rfl
  | x :: xs => by simp [Value.beqList, Value.beq_refl x, Value.beqList_refl xs]

theorem Value.beqKw_refl : ∀ (a : List (String × Value)), Value.beqKw a a = true
  | [] => rfl
  | (k, v) :: xs => by simp [Value.beqKw, Value.beq_refl v, Value.beqKw_refl xs]

end

instance : DecidableEq Value := fun a b =>
  if h : Value.beq a b = true then .isTrue (Value.eq_of_beq h)
  else .isFalse (fun he => h (he ▸ Value.beq_refl a))

/-- Canonical key realising Python `==` on `Value`: `int`, `float` and
`bool` collapse to one numeric key (in Python `1 == 1.0 == True`);
strings, `None`, lists (elementwise), `Range` (dataclass field equality)
and functions (dataclass field equality, a native function being the
identity of its registered host function) keep their structure.
Iterators compare by host identity in Python; they are modelled
structurally here, which is only observable if an iterator value reaches
`OP_EQUAL` — compiled chunks never do that (iterators are consumed by
`OP_ITER_NEXT_OR_JUMP`/`OP_POP` only).  Keyword dictionaries likewise
never reach a comparison in a compiled chunk. -/
inductive Key where
  | num (q : Rat)
  | str (s : String)
  | none
  | list (l : List Key)
  | range (a b c : Key)
  | iter (l : List Key)
  | fn (name : String) (arity : Int) (startIp : Option Nat) (native : Option String)
  | kw (l : List (String × Key))
  deriving Repr

mutual

def Key.beq : Key → Key → Bool
  | .num a, .num b => a == b
  | .str a, .str b => a == b
  | .none, .none => true
  | .list a, .list b => Key.beqList a b
  | .range a b c, .range d e f => Key.beq a d && Key.beq b e && Key.beq c f
  | .iter a, .iter b => Key.beqList a b
  | .fn n1 a1 s1 v1, .fn n2 a2 s2 v2 => n1 == n2 && a1 == a2 && s1 == s2 && v1 == v2
  | .kw a, .kw b => Key.beqKw a b
  | _, _ => false

def Key.beqList : List Key → List Key → Bool
  | [], [] => true
  | x :: xs, y :: ys => Key.beq x y && Key.beqList xs ys
  | _, _ => false

def Key.beqKw : List (String × Key) → List (String × Key) → Bool
  | [], [] => true
  | (k1, v1) :: xs, (k2, v2) :: ys => k1 == k2 && Key.beq v1 v2 && Key.beqKw xs ys
  | _, _ => false

end

mutual

theorem Key.keq_of_beq : ∀ {a b : Key}, Key.beq a b = true → a = b
  | .num _, .num _, h => by
      simp only [Key.beq] at h; exact congrArg Key.num (by exact_mod_cast of_decide_eq_true (by exact_mod_cast h))
  | .str _, .str _, h => by
      simp only [Key.beq, beq_iff_eq] at h; exact congrArg Key.str h
  | .none, .none, _ => rfl
  | .list a, .list b, h => by
      simp only [Key.beq] at h; exact congrArg Key.list (Key.keqList_of_beq h)
  | .range a b c, .range d e f, h => by
      simp only [Key.beq, Bool.and_eq_true] at h
      rw [Key.keq_of_beq h.1.1, Key.keq_of_beq h.1.2, Key.keq_of_beq h.2]
  | .iter a, .iter b, h => by
      simp only [Key.beq] at h; exact congrArg Key.iter (Key.keqList_of_beq h)
  | .fn _ _ _ _, .fn _ _ _ _, h => by
      simp only [Key.beq, Bool.and_eq_true, beq_iff_eq] at h
      rw [h.1.1.1, h.1.1.2, h.1.2, h.2]
  | .kw a, .kw b, h => by
      simp only [Key.beq] at h; exact congrArg Key.kw (Key.keqKw_of_beq h)

theorem Key.keqList_of_beq : ∀ {a b : List Key}, Key.beqList a b = true → a = b
  | [], [], _ => rfl
  | x :: xs, y :: ys, h => by
      simp only [Key.beqList, Bool.and_eq_true] at h
      rw [Key.keq_of_beq h.1, Key.keqList_of_beq h.2]

theorem Key.keqKw_of_beq : ∀ {a b : List (String × Key)}, Key.beqKw a b = true → a = b
  | [], [], _ => rfl
  | (k1, v1) :: xs, (k2, v2) :: ys, h => by
      simp only [Key.beqKw, Bool.and_eq_true, beq_iff_eq] at h
      rw [h.1.1, Key.keq_of_beq h.1.2, Key.keqKw_of_beq h.2]

end

mutual

theorem Key.kbeq_refl : ∀ (a : Key), Key.beq a a = true
  | .num _ => by simp [Key.beq]
  | .str _ => by simp [Key.beq]
  | .none => rfl
  | .list a => by simp [Key.beq, Key.kbeqList_refl a]
  | .range a b c => by simp [Key.beq, Key.kbeq_refl a, Key.kbeq_refl b, Key.kbeq_refl c]
  | .iter a => by simp [Key.beq, Key.kbeqList_refl a]
  | .fn _ _ _ _ => by simp [Key.beq]
  | .kw a => by simp [Key.beq, Key.kbeqKw_refl a]

theorem Key.kbeqList_refl : ∀ (a : List Key), Key.beqList a a = true
  | [] => rfl
  | x :: xs => by simp [Key.beqList, Key.kbeq_refl x, Key.kbeqList_refl xs]

theorem Key.kbeqKw_refl : ∀ (a : List (String × Key)), Key.beqKw a a = true
  | [] => rfl
  | (k, v) :: xs => by simp [Key.beqKw, Key.kbeq_refl v, Key.kbeqKw_refl xs]

end

instance : DecidableEq Key := fun a b =>
  if h : Key.beq a b = true then .isTrue (Key.keq_of_beq h)
  else .isFalse (fun he => h (he ▸ Key.kbeq_refl a))

mutual
/-- The key of a value; `pyEq` below compares keys. -/
def pyKey : Value → Key
  | .int n => .num n
  | .float q => .num q
  | .bool b => .num (if b then 1 else 0)
  | .str s => .str s
  | .none => .none
  | .list xs => .list (pyKeyList xs)
  | .range a b c => .range (pyKey a) (pyKey b) (pyKey c)
  | .iterator xs => .iter (pyKeyList xs)
  | .fn name arity startIp native => .fn name arity startIp native
  | .kwdict es => .kw (pyKeyPairs es)

def pyKeyList : List Value → List Key
  | [] => []
  | x :: xs => pyKey x :: pyKeyList xs

def pyKeyPairs : List (String × Value) → List (String × Key)
  | [] => []
  | (k, v) :: xs => (k, pyKey v) :: pyKeyPairs xs
end

/-- Python `==` on the modelled value domain (see `pyKey`). -/
def pyEq (a b : Value) : Bool := pyKey a == pyKey b

/-- Python truthiness `bool(v)`: `None`, `False`, numeric zero, the empty
string, the empty list and the empty dict are falsey; `Range`, iterator
and function objects are always truthy (no `__bool__`/`__len__`). -/
def truthy : Value → Bool
  | .none => false
  | .bool b => b
  | .int n => n ≠ 0
  | .float q => q ≠ 0
  | .str s => s ≠ ""
  | .list xs => !xs.isEmpty
  | .kwdict es => !es.isEmpty
  | .range _ _ _ => true
  | .iterator _ => true
  | .fn _ _ _ _ => true

/-- Numeric view used by the arithmetic opcodes: Python `bool` is a
subclass of `int` (`isinstance(True, int)` holds), so `True` acts as `1`.
Returns the rational value together with whether the operand was
`int`-like (`int`/`bool`) rather than `float`. -/
def asNum : Value → Option (Rat × Bool)
  | .int n => some (n, true)
  | .bool b => some ((if b then 1 else 0 : Rat), true)
  | .float q => some (q, false)
  | _ => Option.none

/-- Integer view used where Python requires an index or a `range` bound:
`int` and `bool` qualify, floats do not. -/
def asIntIdx : Value → Option Int
  | .int n => some n
  | .bool b => some (if b then 1 else 0)
  | _ => Option.none

example : pyEq (.int 1) (.float 1) = true := by decide
example : pyEq (.bool true) (.int 1) = true := by decide
example : pyEq (.str "1") (.int 1) = false := by decide
example : pyEq (.list [.int 1]) (.list [.float 1]) = true := by decide
example : truthy (.range (.int 0) (.int 0) (.int 1)) = true := by decide

/-! ## Bytecode (src/pyle/pyle_bytecode.py) -/

/-- The opcode enumeration, one constructor per member of `OpCode`. -/
inductive OpCode where
  | OP_CONST
  | OP_DEF_GLOBAL
  | OP_GET_GLOBAL
  | OP_SET_GLOBAL
  | OP_DEF_CONST_GLOBAL
  | OP_DEF_LOCAL
  | OP_GET_LOCAL
  | OP_SET_LOCAL
  | OP_DEF_CONST_LOCAL
  | OP_ADD
  | OP_SUBTRACT
  | OP_MULTIPLY
  | OP_DIVIDE
  | OP_MODULO
  | OP_NEGATE
  | OP_NOT
  | OP_EQUAL
  | OP_NOT_EQUAL
  | OP_GREATER
  | OP_GREATER_EQUAL
  | OP_LESS
  | OP_LESS_EQUAL
  | OP_AND
  | OP_OR
  | OP_TRUE
  | OP_FALSE
  | OP_NONE
  | OP_BUILD_RANGE
  | OP_ITER_NEW
  | OP_ITER_NEXT_OR_JUMP
  | OP_BUILD_LIST
  | OP_ENTER_SCOPE
  | OP_EXIT_SCOPE
  | OP_JUMP_IF_FALSE
  | OP_JUMP
  | OP_POP
  | OP_INDEX_GET
  | OP_INDEX_SET
  | OP_GET_ATTR
  | OP_CALL
  | OP_BUILD_KWARGS
  | OP_CALL_KW
  | OP_RETURN
  | OP_HALT
  deriving Repr, DecidableEq

/-- Instruction operands: absent, a single index / count, or (for
`OP_CALL_KW`) the pair `(num_args, num_kwargs)`. -/
inductive Operand where
  | none
  | num (n : Nat)
  | pair (a b : Nat)
  deriving Repr, DecidableEq

/-- `Instruction(opcode, operand)`.  The optional diagnostic token carried
by the Python dataclass is not part of the semantics and is not modelled
(the VM's `token_map` machinery is a stub in the source). -/
structure Instruction where
  opcode : OpCode
  operand : Operand
  deriving Repr, DecidableEq

/-- A runtime binding `Variable(var_name, value, is_const)`. -/
structure Variable where
  var_name : String
  value : Value
  is_const : Bool
  deriving Repr, DecidableEq

/-! ## Native registry (src/pyle/pyle_builtins.py)

`BUILTINS` maps names to `PyleFunction` objects whose `native_fn` is the
corresponding host function; the function value is modelled by recording
the registry name in the `native` field. -/

/-- The `BUILTINS` table, in dict insertion order. -/
def BUILTINS : List (String × Value) :=
  [ ("echo", .fn "echo" (-1) Option.none (some "echo")),
    ("len", .fn "len" 1 Option.none (some "len")),
    ("scan", .fn "scan" (-1) Option.none (some "scan")),
    ("perf_counter", .fn "perf_counter" 0 Option.none (some "perf_counter")),
    ("importpy", .fn "importpy" 1 Option.none (some "importpy")),
    ("get_attr", .fn "get_attr" 2 Option.none (some "get_attr")) ]

/-- The names of the native registry (`name in BUILTINS` tests). -/
def builtinNames : List String := BUILTINS.map Prod.fst

/-! ## AST (src/pyle/pyle_ast.py)

One constructor per AST dataclass the compiler accepts.  Tokens are kept
only where they influence code generation: a `Block` records whether its
`token` is present (`visit_Block` opens a scope exactly then), and
operator tokens are abstracted to their kind.  Number literals carry the
`int | float` payload of `Number.value`. -/

/-- `Number.value : int | float`. -/
inductive Num where
  | int (n : Int)
  | float (q : Rat)
  deriving Repr, DecidableEq

def Num.toValue : Num → Value
  | .int n => .int n
  | .float q => .float q

/-- Binary arithmetic token kinds (`PLUS`, `MINUS`, `MUL`, `DIV`, `MOD`). -/
inductive BinKind where
  | plus | minus | mul | div | mod
  deriving Repr, DecidableEq

/-- Comparison token kinds. -/
inductive CmpKind where
  | eq | neq | gt | gte | lt | lte
  deriving Repr, DecidableEq

/-- Logical keyword (`and` / `or`). -/
inductive LogKind where
  | andK | orK
  deriving Repr, DecidableEq

/-- Unary operator (`-` / `not`). -/
inductive UnKind where
  | minus | notK
  deriving Repr, DecidableEq

inductive Ast where
  | number (value : Num)
  | stringLit (value : String)
  | boolean (value : Bool)
  | unaryOp (op : UnKind) (operand : Ast)
  | binaryOp (left : Ast) (op : BinKind) (right : Ast)
  | logicalOp (left : Ast) (op : LogKind) (right : Ast)
  | comparisonOp (left : Ast) (op : CmpKind) (right : Ast)
  | varDeclareStmt (name : String) (initializer : Option Ast) (is_const : Bool)
  | assignStmt (name : String) (value : Ast)
  | variableExpr (name : String)
  | ifStmt (condition : Ast) (then_branch : Ast) (else_branch : Option Ast)
  | block (hasToken : Bool) (statements : List Ast)
  | whileStmt (condition : Ast) (body : Ast)
  | forInStmt (loop_variable : String) (iterable : Ast) (body : Ast)
  | breakStmt
  | continueStmt
  | rangeSpecifier (start stop : Ast) (step : Option Ast)
  | arrayLiteral (elements : List Ast)
  | functionDefStmt (name : String) (params : List String) (body : Ast)
  | functionExpr (params : List String) (body : Ast)
  | callExpr (callee : Ast) (arguments : List Ast) (keywords : List (String × Ast))
  | returnStmt (value : Option Ast)
  | indexExpr (collection : Ast) (index : Ast)
  | assignIndexStmt (collection : Ast) (index : Ast) (value : Ast)
  | dotExpr (object : Ast) (attr : String)
  deriving Repr

/-- `isinstance(node, Expr)`: exactly the AST classes deriving from
`Expr`.  Note that `RangeSpecifier` and `Block` derive from `ASTNode`
directly, and the `*Stmt` classes from `Stmt`, so they are not `Expr`s. -/
def Ast.isExpr : Ast → Bool
  | .number _ | .stringLit _ | .boolean _ | .unaryOp _ _ | .binaryOp _ _ _
  | .logicalOp _ _ _ | .comparisonOp _ _ _ | .variableExpr _ | .arrayLiteral _
  | .functionExpr _ _ | .callExpr _ _ _ | .indexExpr _ _ | .dotExpr _ _ => true
  | _ => false

/-- `OPERATION_INTS` for binary arithmetic token kinds. -/
def binOpCode : BinKind → OpCode
  | .plus => .OP_ADD
  | .minus => .OP_SUBTRACT
  | .mul => .OP_MULTIPLY
  | .div => .OP_DIVIDE
  | .mod => .OP_MODULO

/-- `OPERATION_INTS` for comparison token kinds. -/
def cmpOpCode : CmpKind → OpCode
  | .eq => .OP_EQUAL
  | .neq => .OP_NOT_EQUAL
  | .gt => .OP_GREATER
  | .gte => .OP_GREATER_EQUAL
  | .lt => .OP_LESS
  | .lte => .OP_LESS_EQUAL

/-- `OPERATION_INTS` for the logical keywords. -/
def logOpCode : LogKind → OpCode
  | .andK => .OP_AND
  | .orK => .OP_OR

/-! ## Compiler (src/pyle/pyle_compiler.py) -/

/-- The mutable compiler fields.  The Python `token_map` is diagnostic
only and not modelled.  The patch stacks follow the top-at-head list
convention. -/
structure CState where
  bytecode_chunk : List Instruction
  constants : List Value
  scope_depth : Nat
  loop_level : Nat
  loop_start_patches : List (List Nat)
  loop_end_patches : List (List Nat)
  deriving Repr, DecidableEq

/-- Whether a value is a Python `list` (`isinstance(value, list)`). -/
def Value.isList : Value → Bool
  | .list _ => true
  | _ => false

/-- `Compiler.add_constant` on the constants pool.  The Python body first
scans for a structurally equal `list` entry when `value` is a list, then
falls back to `constants.index(value)` (Python `==`, i.e. `pyEq`), and
appends on `ValueError`. -/
def add_constant (constants : List Value) (value : Value) : Nat × List Value :=
  let listHit : Option Nat :=
    match value with
    | .list _ => constants.findIdx? (fun c => c.isList && pyEq c value)
    | _ => Option.none
  match listHit with
  | some i => (i, constants)
  | Option.none =>
    match constants.findIdx? (fun c => pyEq c value) with
    | some i => (i, constants)
    | Option.none => (constants.length, constants ++ [value])

/-- `add_constant` acting on the compiler state. -/
def addConst (s : CState) (value : Value) : Nat × CState :=
  ((add_constant s.constants value).1,
   { s with constants := (add_constant s.constants value).2 })

/-- `Compiler.emit_instruction`: append and return the instruction index. -/
def emit_instruction (s : CState) (opcode : OpCode) (operand : Operand) : Nat × CState :=
  (s.bytecode_chunk.length,
   { s with bytecode_chunk := s.bytecode_chunk ++ [⟨opcode, operand⟩] })

/-- `emit_instruction` when the returned index is unused. -/
def emitOp (s : CState) (opcode : OpCode) (operand : Operand) : CState :=
  (emit_instruction s opcode operand).2

/-- `Compiler.patch_jump`: bounds-checked write of an absolute target into
an already-emitted instruction; `none` target means "current end of
chunk". -/
def patch_jump (s : CState) (instruction_index : Nat) (jump_target_ip : Option Nat) :
    Except String CState :=
  match s.bytecode_chunk.get? instruction_index with
  | some ins =>
    let target := jump_target_ip.getD s.bytecode_chunk.length
    .ok { s with bytecode_chunk :=
            s.bytecode_chunk.set instruction_index { ins with operand := .num target } }
  | Option.none => .error "patch_jump: instruction_index out of bounds"

/-- The raw `self.bytecode_chunk[i].operand = target` writes used for loop
patch lists.  Indices recorded by `emit_instruction` are always in
bounds, so the out-of-bounds case (a host `IndexError`) is a no-op here. -/
def setOperand (s : CState) (i : Nat) (target : Nat) : CState :=
  match s.bytecode_chunk.get? i with
  | some ins =>
    { s with bytecode_chunk := s.bytecode_chunk.set i { ins with operand := .num target } }
  | Option.none => s

/-- Patch every recorded index in a loop patch list to `target`. -/
def patchList (s : CState) (idxs : List Nat) (target : Nat) : CState :=
  idxs.foldl (fun st i => setOperand st i target) s

/-- `self.loop_*_patches[-1].append(jump_idx)`. -/
def pushPatch : List (List Nat) → Nat → List (List Nat)
  | t :: rest, i => (t ++ [i]) :: rest
  | [], _ => []

/-- The parameter-binding loop of function compilation: for each
parameter (already reversed by the caller) add its name to the pool and
emit `OP_DEF_LOCAL`. -/
def defParams (s : CState) (params_reversed : List String) : CState :=
  params_reversed.foldl (fun st p =>
    let (param_name_idx, st) := addConst st (.str p)
    emitOp st .OP_DEF_LOCAL (.num param_name_idx)) s

mutual

/-- `Compiler._compile_node`: dispatch to the `visit_*` method named by
the node class; each match arm below is the corresponding `visit_*`
method of `src/pyle/pyle_compiler.py` inlined. -/
def compileNode : Ast → CState → Except String CState
  | .number value, s =>
      let (constant_index, s) := addConst s value.toValue
      .ok (emitOp s .OP_CONST (.num constant_index))
  | .stringLit v, s =>
      let (constant_index, s) := addConst s (.str v)
      .ok (emitOp s .OP_CONST (.num constant_index))
  | .boolean b, s =>
      .ok (if b then emitOp s .OP_TRUE .none else emitOp s .OP_FALSE .none)
  | .unaryOp op operand, s => do
      let s ← compileNode operand s
      match op with
      | .minus => .ok (emitOp s .OP_NEGATE .none)
      | .notK => .ok (emitOp s .OP_NOT .none)
  | .binaryOp l op r, s => do
      let s ← compileNode l s
      let s ← compileNode r s
      .ok (emitOp s (binOpCode op) .none)
  | .logicalOp l op r, s =>
      match op with
      | .orK => do
          -- the source's visit_LogicalOp compiles node.left twice here
          let s ← compileNode l s
          let s ← compileNode l s
          let s ← compileNode r s
          .ok (emitOp s (logOpCode .orK) .none)
      | .andK => do
          let s ← compileNode l s
          let s ← compileNode r s
          .ok (emitOp s (logOpCode .andK) .none)
  | .comparisonOp l op r, s => do
      let s ← compileNode l s
      let s ← compileNode r s
      .ok (emitOp s (cmpOpCode op) .none)
  | .varDeclareStmt name init is_const, s => do
      let s ← match init with
              | some e => compileNode e s
              | Option.none =>
                  let (i, s) := addConst s Value.none
                  .ok (emitOp s .OP_CONST (.num i))
      let (name_idx, s) := addConst s (.str name)
      if s.scope_depth > 0 then
        .ok (emitOp s (if is_const then .OP_DEF_CONST_LOCAL else .OP_DEF_LOCAL) (.num name_idx))
      else
        -- note: the second OP_DEF_GLOBAL is emitted for const and
        -- non-const declarations alike (it sits outside the ternary)
        let s := emitOp s (if is_const then .OP_DEF_CONST_GLOBAL else .OP_DEF_GLOBAL) (.num name_idx)
        .ok (emitOp s .OP_DEF_GLOBAL (.num name_idx))
  | .assignStmt name value, s => do
      let s ← compileNode value s
      let (name_idx, s) := addConst s (.str name)
      if s.scope_depth > 0 then
        .ok (emitOp s .OP_SET_LOCAL (.num name_idx))
      else
        .ok (emitOp s .OP_SET_GLOBAL (.num name_idx))
  | .variableExpr name, s =>
      let (name_idx, s) := addConst s (.str name)
      if s.scope_depth > 0 && !(builtinNames.contains name) then
        .ok (emitOp s .OP_GET_LOCAL (.num name_idx))
      else
        .ok (emitOp s .OP_GET_GLOBAL (.num name_idx))
  | .ifStmt cond then_branch else_branch, s => do
      let s ← compileNode cond s
      let (jump_if_false_idx, s) := emit_instruction s .OP_JUMP_IF_FALSE (.num 99999)
      let s ← compileNode then_branch s
      match else_branch with
      | Option.none => patch_jump s jump_if_false_idx Option.none
      | some els => do
          let (jump_over_else_idx, s) := emit_instruction s .OP_JUMP (.num 99999)
          let s ← patch_jump s jump_if_false_idx Option.none
          let s ← compileNode els s
          patch_jump s jump_over_else_idx Option.none
  | .block hasToken stmts, s =>
      if hasToken then do
        let s := { s with scope_depth := s.scope_depth + 1 }
        let s := emitOp s .OP_ENTER_SCOPE .none
        let s ← compileStmts stmts s
        let s := emitOp s .OP_EXIT_SCOPE .none
        .ok { s with scope_depth := s.scope_depth - 1 }
      else
        compileStmts stmts s
  | .whileStmt cond body, s => do
      let s := { s with loop_level := s.loop_level + 1,
                        loop_start_patches := [] :: s.loop_start_patches,
                        loop_end_patches := [] :: s.loop_end_patches }
      let loop_start_ip := s.bytecode_chunk.length
      let s ← compileNode cond s
      let (exit_loop_jump_idx, s) := emit_instruction s .OP_JUMP_IF_FALSE (.num 99999)
      let s ← compileNode body s
      let s := patchList s (s.loop_start_patches.headD []) loop_start_ip
      let s := emitOp s .OP_JUMP (.num loop_start_ip)
      let s ← patch_jump s exit_loop_jump_idx Option.none
      let loop_end_target_ip :=
        match s.bytecode_chunk.get? exit_loop_jump_idx with
        | some ⟨_, .num t⟩ => t
        | _ => 0  -- unreachable: the instruction was just patched
      let s := patchList s (s.loop_end_patches.headD []) loop_end_target_ip
      .ok { s with loop_start_patches := s.loop_start_patches.tail,
                   loop_end_patches := s.loop_end_patches.tail,
                   loop_level := s.loop_level - 1 }
  | .forInStmt loop_variable iterable body, s => do
      let s := { s with loop_level := s.loop_level + 1,
                        loop_end_patches := [] :: s.loop_end_patches,
                        loop_start_patches := [] :: s.loop_start_patches }
      let s := { s with scope_depth := s.scope_depth + 1 }
      let s := emitOp s .OP_ENTER_SCOPE .none
      let s ← compileNode iterable s
      let s := emitOp s .OP_ITER_NEW .none
      let (name_idx, s) := addConst s (.str loop_variable)
      let (none_idx, s) := addConst s Value.none
      let s := emitOp s .OP_CONST (.num none_idx)
      let s := emitOp s .OP_DEF_LOCAL (.num name_idx)
      let loop_iteration_start_ip := s.bytecode_chunk.length
      let (jump_if_exhausted_idx, s) := emit_instruction s .OP_ITER_NEXT_OR_JUMP (.num 99999)
      let s := emitOp s .OP_SET_LOCAL (.num name_idx)
      let s ← compileNode body s
      let s := emitOp s .OP_JUMP (.num loop_iteration_start_ip)
      let break_handler_ip := s.bytecode_chunk.length
      let s := emitOp s .OP_POP .none
      let s := patchList s (s.loop_end_patches.headD []) break_handler_ip
      let after_loop_ip := s.bytecode_chunk.length
      let s ← patch_jump s jump_if_exhausted_idx (some after_loop_ip)
      let s := patchList s (s.loop_start_patches.headD []) loop_iteration_start_ip
      let s := emitOp s .OP_EXIT_SCOPE .none
      let s := { s with scope_depth := s.scope_depth - 1 }
      .ok { s with loop_start_patches := s.loop_start_patches.tail,
                   loop_end_patches := s.loop_end_patches.tail,
                   loop_level := s.loop_level - 1 }
  | .breakStmt, s =>
      if s.loop_level = 0 then .error "CompileError: break outside loop"
      else
        let (jump_idx, s) := emit_instruction s .OP_JUMP (.num 99999)
        .ok { s with loop_end_patches := pushPatch s.loop_end_patches jump_idx }
  | .continueStmt, s =>
      if s.loop_level = 0 then .error "CompileError: continue outside loop"
      else
        let (jump_idx, s) := emit_instruction s .OP_JUMP (.num 99999)
        .ok { s with loop_start_patches := pushPatch s.loop_start_patches jump_idx }
  | .rangeSpecifier start stop step, s => do
      let s ← compileNode start s
      let s ← compileNode stop s
      let s ← match step with
              | some st => compileNode st s
              | Option.none =>
                  let (i, s) := addConst s (.int 1)
                  .ok (emitOp s .OP_CONST (.num i))
      .ok (emitOp s .OP_BUILD_RANGE .none)
  | .arrayLiteral elements, s => do
      let s ← compileMany elements s
      .ok (emitOp s .OP_BUILD_LIST (.num elements.length))
  | .functionDefStmt name params body, s => do
      let (jump_over_body_idx, s) := emit_instruction s .OP_JUMP (.num 99999)
      let function_start_ip := s.bytecode_chunk.length
      let enclosing_scope_depth := s.scope_depth
      let s := { s with scope_depth := s.scope_depth + 1 }
      let s := emitOp s .OP_ENTER_SCOPE .none
      let s := defParams s params.reverse
      let s ← compileNode body s
      let s := emitOp s .OP_EXIT_SCOPE .none
      let (none_idx, s) := addConst s Value.none
      let s := emitOp s .OP_CONST (.num none_idx)
      let s := emitOp s .OP_RETURN .none
      let s := { s with scope_depth := enclosing_scope_depth }
      let s ← patch_jump s jump_over_body_idx Option.none
      let func_obj := Value.fn name (params.length : Int) (some function_start_ip) Option.none
      let (func_const_idx, s) := addConst s func_obj
      let s := emitOp s .OP_CONST (.num func_const_idx)
      if s.scope_depth > 0 then
        let (ni, s) := addConst s (.str name)
        .ok (emitOp s .OP_DEF_LOCAL (.num ni))
      else
        let (ni, s) := addConst s (.str name)
        .ok (emitOp s .OP_DEF_GLOBAL (.num ni))
  | .functionExpr params body, s => do
      let (jump_over_body_idx, s) := emit_instruction s .OP_JUMP (.num 99999)
      let function_start_ip := s.bytecode_chunk.length
      let enclosing_scope_depth := s.scope_depth
      let s := { s with scope_depth := s.scope_depth + 1 }
      let s := emitOp s .OP_ENTER_SCOPE .none
      let s := defParams s params.reverse
      let s ← compileNode body s
      let s := emitOp s .OP_EXIT_SCOPE .none
      let (none_idx, s) := addConst s Value.none
      let s := emitOp s .OP_CONST (.num none_idx)
      let s := emitOp s .OP_RETURN .none
      let s := { s with scope_depth := enclosing_scope_depth }
      let s ← patch_jump s jump_over_body_idx Option.none
      let func_obj := Value.fn "<lambda>" (params.length : Int) (some function_start_ip) Option.none
      let (func_const_idx, s) := addConst s func_obj
      .ok (emitOp s .OP_CONST (.num func_const_idx))
  | .callExpr callee arguments keywords, s => do
      let s ← compileNode callee s
      let s ← compileMany arguments s
      let s ← compileKwValues keywords s
      if keywords.isEmpty then
        .ok (emitOp s .OP_CALL (.num arguments.length))
      else
        let kw_names := Value.list (keywords.map (fun kv => Value.str kv.1))
        let (kw_names_idx, s) := addConst s kw_names
        let s := emitOp s .OP_CONST (.num kw_names_idx)
        let s := emitOp s .OP_BUILD_KWARGS (.num keywords.length)
        .ok (emitOp s .OP_CALL_KW (.pair arguments.length keywords.length))
  | .returnStmt value, s => do
      let s ← match value with
              | some v => compileNode v s
              | Option.none =>
                  let (i, s) := addConst s Value.none
                  .ok (emitOp s .OP_CONST (.num i))
      .ok (emitOp s .OP_RETURN .none)
  | .indexExpr collection index, s => do
      let s ← compileNode collection s
      let s ← compileNode index s
      .ok (emitOp s .OP_INDEX_GET .none)
  | .assignIndexStmt collection index value, s => do
      let s ← compileNode collection s
      let s ← compileNode index s
      let s ← compileNode value s
      .ok (emitOp s .OP_INDEX_SET .none)
  | .dotExpr object attr, s => do
      let s ← compileNode object s
      let (attr_name_idx, s) := addConst s (.str attr)
      .ok (emitOp s .OP_GET_ATTR (.num attr_name_idx))

/-- The statement loop of `visit_Block`: after a statement that is an
`Expr`, emit `OP_POP`. -/
def compileStmts : List Ast → CState → Except String CState
  | [], s => .ok s
  | stmt :: rest, s => do
      let s ← compileNode stmt s
      let s := if stmt.isExpr then emitOp s .OP_POP .none else s
      compileStmts rest s

/-- Sequential compilation of expression lists (array elements, call
arguments). -/
def compileMany : List Ast → CState → Except String CState
  | [], s => .ok s
  | e :: rest, s => do
      let s ← compileNode e s
      compileMany rest s

/-- `for kw in node.keywords: self._compile_node(kw.value)`. -/
def compileKwValues : List (String × Ast) → CState → Except String CState
  | [], s => .ok s
  | (_, v) :: rest, s => do
      let s ← compileNode v s
      compileKwValues rest s

end

/-- `Compiler._initialize_builtins`: for each registry entry, intern the
function object and the name and emit `OP_CONST fn; OP_DEF_GLOBAL name`. -/
def init_builtins (s : CState) : CState :=
  BUILTINS.foldl (fun st nf =>
    let (fn_idx, st) := addConst st nf.2
    let (name_idx, st) := addConst st (.str nf.1)
    let st := emitOp st .OP_CONST (.num fn_idx)
    emitOp st .OP_DEF_GLOBAL (.num name_idx)) s

/-- The freshly reset compiler state at the top of `Compiler.compile`. -/
def emptyCState : CState :=
  { bytecode_chunk := [], constants := [], scope_depth := 0,
    loop_level := 0, loop_start_patches := [], loop_end_patches := [] }

/-- `Compiler.compile`: reset, emit the native prelude, wrap the program
in the top-level scope and append the `CONST None; RETURN` epilogue. -/
def compile (node : Ast) : Except String (List Instruction × List Value) := do
  let s := init_builtins emptyCState
  let s := emitOp s .OP_ENTER_SCOPE .none
  let s := { s with scope_depth := 1 }
  let s ← compileNode node s
  let s := emitOp s .OP_EXIT_SCOPE .none
  let s := { s with scope_depth := 0 }
  let (none_idx, s) := addConst s Value.none
  let s := emitOp s .OP_CONST (.num none_idx)
  let s := emitOp s .OP_RETURN .none
  .ok (s.bytecode_chunk, s.constants)

/-! ## Host-level value operations used by the VM loop

The arithmetic opcodes other than `OP_ADD` and `OP_NEGATE` apply the host
operator directly; a host `TypeError` escaping `_run` is modelled as a
distinct `thrown` outcome (a structured `Err` is something else — see
`RunEnd`). -/

/-- Integer-like view (`int` and `bool`, Python's `bool` being an `int`
subclass). -/
def asNumInt : Value → Option Int
  | .int n => some n
  | .bool b => some (if b then 1 else 0)
  | _ => Option.none

/-- Numeric binary operation: `int op int → int` (counting `bool` as
`int`), any `float` makes the result `float`; `none` if an operand is
non-numeric. -/
def arithNum (left right : Value) (fi : Int → Int → Int) (fq : Rat → Rat → Rat) :
    Option Value :=
  match asNumInt left, asNumInt right with
  | some a, some b => some (.int (fi a b))
  | _, _ =>
    match asNum left, asNum right with
    | some (a, _), some (b, _) => some (.float (fq a b))
    | _, _ => Option.none

/-- Result of a raw host operation: a value, a host exception that will
propagate out of `_run`, or behaviour outside the modelled fragment. -/
inductive HRes where
  | ok (v : Value)
  | typeErr (msg : String)
  | unmod (what : String)
  deriving Repr, DecidableEq

/-- `s * n` string repetition (Python returns `""` for `n ≤ 0`). -/
def repeatStr (s : String) (n : Int) : String :=
  String.join (List.replicate n.toNat s)

/-- `l * n` list repetition. -/
def repeatList (l : List Value) (n : Int) : List Value :=
  (List.replicate n.toNat l).flatten

/-- Host `left - right`: numbers only, anything else raises `TypeError`. -/
def pySub (left right : Value) : HRes :=
  match arithNum left right (· - ·) (· - ·) with
  | some v => .ok v
  | Option.none => .typeErr "TypeError: unsupported operand type(s) for -"

/-- Host `left * right`: numbers, or sequence repetition
(`str * int`, `int * str`, `list * int`, `int * list`). -/
def pyMul (left right : Value) : HRes :=
  match arithNum left right (· * ·) (· * ·) with
  | some v => .ok v
  | Option.none =>
    match left, right with
    | .str a, _ =>
      match asNumInt right with
      | some n => .ok (.str (repeatStr a n))
      | Option.none => .typeErr "TypeError: cannot multiply sequence by non-int"
    | _, .str b =>
      match asNumInt left with
      | some n => .ok (.str (repeatStr b n))
      | Option.none => .typeErr "TypeError: cannot multiply sequence by non-int"
    | .list a, _ =>
      match asNumInt right with
      | some n => .ok (.list (repeatList a n))
      | Option.none => .typeErr "TypeError: cannot multiply sequence by non-int"
    | _, .list b =>
      match asNumInt left with
      | some n => .ok (.list (repeatList b n))
      | Option.none => .typeErr "TypeError: cannot multiply sequence by non-int"
    | _, _ => .typeErr "TypeError: unsupported operand type(s) for *"

/-- Host `left / right` (the VM has already ruled out `right == 0`):
Python 3 true division always yields a `float`. -/
def pyDiv (left right : Value) : HRes :=
  match asNum left, asNum right with
  | some (a, _), some (b, _) => .ok (.float (a / b))
  | _, _ => .typeErr "TypeError: unsupported operand type(s) for /"

/-- Floor modulo on rationals, matching Python `%` (sign of the divisor). -/
def qfmod (a b : Rat) : Rat := a - b * ⌊a / b⌋

/-- Host `left % right` (the VM has already ruled out `right == 0`).
`int % int` uses floor modulo (`Int.fmod`); mixed numeric operands give a
`float`.  `str % x` is host printf-style formatting, outside the modelled
fragment. -/
def pyMod (left right : Value) : HRes :=
  match asNumInt left, asNumInt right with
  | some a, some b => .ok (.int (Int.fmod a b))
  | _, _ =>
    match asNum left, asNum right with
    | some (a, _), some (b, _) => .ok (.float (qfmod a b))
    | _, _ =>
      match left with
      | .str _ => .unmod "string %-formatting"
      | _ => .typeErr "TypeError: unsupported operand type(s) for %"

/-- Three-way comparison outcome. -/
inductive COrd where
  | lt | eq | gt
  deriving Repr, DecidableEq

mutual

/-- Host ordering comparison (`<`, `>`, `<=`, `>=`): numbers by value
(`bool` counting as `int`), strings lexicographically by code point,
lists by skipping the `==`-equal prefix and comparing the first
differing pair; any other combination raises `TypeError` (`none`). -/
def pyCmp : Value → Value → Option COrd
  | a, b =>
    match asNum a, asNum b with
    | some (x, _), some (y, _) =>
        some (if x < y then .lt else if x = y then .eq else .gt)
    | _, _ =>
      match a, b with
      | .str s, .str t => some (if s < t then .lt else if s = t then .eq else .gt)
      | .list xs, .list ys => pyCmpList xs ys
      | _, _ => Option.none

def pyCmpList : List Value → List Value → Option COrd
  | [], [] => some .eq
  | [], _ :: _ => some .lt
  | _ :: _, [] => some .gt
  | x :: xs, y :: ys =>
      if pyEq x y then pyCmpList xs ys else pyCmp x y

end

/-- The values produced by `range(start, stop, step)` for `step ≠ 0`. -/
def rangeList (a b c : Int) : List Value :=
  if c > 0 then (List.range ((b - a + c - 1) / c).toNat).map (fun i => .int (a + c * i))
  else if c < 0 then (List.range ((a - b - c - 1) / (-c)).toNat).map (fun i => .int (a + c * i))
  else []

/-- Outcome of host `iter(v)`. -/
inductive IterRes where
  | ok (items : List Value)
  | notIterable
  | hostThrow (msg : String)
  deriving Repr, DecidableEq

/-- Host `iter(v)`: lists, strings (characters as 1-character strings),
iterators (`iter(it) is it`), dicts (keys) and `Range` objects.
`Range.__iter__` builds `range(start, end, step)`, which raises
`TypeError` for non-integer fields (caught by `OP_ITER_NEW`) and
`ValueError` for a zero step (NOT caught — only `TypeError` is). -/
def iterItems : Value → IterRes
  | .list xs => .ok xs
  | .str s => .ok (s.toList.map (fun ch => .str (String.mk [ch])))
  | .iterator xs => .ok xs
  | .kwdict es => .ok (es.map (fun kv => .str kv.1))
  | .range a b c =>
      match asNumInt a, asNumInt b, asNumInt c with
      | some x, some y, some z =>
          if z = 0 then .hostThrow "ValueError: range() arg 3 must not be zero"
          else .ok (rangeList x y z)
      | _, _, _ => .notIterable
  | _ => .notIterable

/-! ## Virtual machine (src/pyle/pyle_vm.py) -/

/-- `CallFrame(return_ip, stack_slot, env_depth)`.  `stack_slot` is the
bottom-based index of the callee on the operand stack (what the spec
calls `stack_base`), `env_depth` the environment-stack size at call
time. -/
structure CallFrame where
  return_ip : Nat
  stack_slot : Nat
  env_depth : Nat
  deriving Repr, DecidableEq

/-- A single scope's `dict[str, Variable]`, as an insertion-ordered
association list. -/
abbrev Env := List (String × Variable)

/-- Dict lookup. -/
def lookupVar (store : Env) (name : String) : Option Variable :=
  (store.find? (fun kv => kv.1 == name)).map Prod.snd

/-- `PyleVM._set_variable`: dict assignment — update in place if the key
is present, else append. -/
def setVar (store : Env) (var_name : String) (value : Value) (is_const : Bool) : Env :=
  if store.any (fun kv => kv.1 == var_name) then
    store.map (fun kv =>
      if kv.1 == var_name then (var_name, ⟨var_name, value, is_const⟩) else kv)
  else store ++ [(var_name, ⟨var_name, value, is_const⟩)]

/-- Walk the environment stack innermost-first (`reversed(environments)`
in Python, head-first here). -/
def lookupEnvs : List Env → String → Option Variable
  | [], _ => Option.none
  | e :: rest, n =>
    match lookupVar e n with
    | some v => some v
    | Option.none => lookupEnvs rest n

/-- Outcome of the `OP_SET_LOCAL` walk. -/
inductive SetRes where
  | done (envs : List Env)
  | constErr
  | notFound
  deriving Repr

/-- Assign in the innermost scope that binds the name
(`is_const` rejected, `is_const := False` on the overwrite). -/
def setInEnvs : List Env → String → Value → SetRes
  | [], _, _ => .notFound
  | e :: rest, n, v =>
    match lookupVar e n with
    | some var =>
        if var.is_const then .constErr else .done (setVar e n v false :: rest)
    | Option.none =>
      match setInEnvs rest n v with
      | .done rest' => .done (e :: rest')
      | .constErr => .constErr
      | .notFound => .notFound

/-- `self.stack[:k]` for a bottom-based count `k`, on a top-at-head list:
keep the bottom `k` entries.  For `k ≥ length` this keeps everything —
exactly the `while len(...) > k: pop()` loop of `OP_RETURN`. -/
def truncateTo (k : Nat) (l : List α) : List α := l.drop (l.length - k)

/-- The VM state (`PyleVM` fields). -/
structure VmState where
  bytecode_chunk : List Instruction
  constants : List Value
  ip : Nat
  stack : List Value
  globals : Env
  environments : List Env
  frames : List CallFrame
  deriving Repr, DecidableEq

/-- How a `_run` invocation can end: `ok`/`err` are the structured
`Result.ok` / `Result.err(PyleRuntimeError ...)` values; `thrown` is a
host exception escaping `_run`; `unmod` aborts on host behaviour outside
the modelled fragment (no claim depends on such a state). -/
inductive RunEnd where
  | ok (v : Value)
  | err (msg : String)
  | thrown (msg : String)
  | unmod (what : String)
  deriving Repr, DecidableEq

/-- One dispatch iteration: continue with a new state, or stop. -/
inductive StepRes where
  | next (s : VmState)
  | done (r : RunEnd) (final : VmState)
  deriving Repr, DecidableEq

/-- `constants[operand]`. -/
def constAt (s : VmState) (operand : Operand) : Option Value :=
  match operand with
  | .num n => s.constants.get? n
  | _ => Option.none

/-- A name operand: `constants[operand]`, required to be a string (the
compiler only ever emits string name constants). -/
def nameAt (s : VmState) (operand : Operand) : Option String :=
  match constAt s operand with
  | some (.str nm) => some nm
  | _ => Option.none

/-- Result of `collection[index]` under `try/except (TypeError,
IndexError, KeyError)`: every host indexing failure is caught and
surfaces as a structured `Err`. -/
inductive IdxRes where
  | ok (v : Value)
  | caught (msg : String)
  | unmod (what : String)
  deriving Repr, DecidableEq

/-- Python sequence index resolution with negative-index support. -/
def seqIdx (len : Nat) (i : Int) : Option Nat :=
  let j := if i < 0 then i + len else i
  if 0 ≤ j ∧ j < len then some j.toNat else Option.none

/-- `collection[index]` for `OP_INDEX_GET` (the `isinstance(index, Range)`
slicing branch is host slicing, not modelled). -/
def pyIndexGet (collection index : Value) : IdxRes :=
  match index with
  | .range _ _ _ => .unmod "slice indexing"
  | _ =>
    match collection with
    | .list xs =>
      match asNumInt index with
      | some i =>
        match seqIdx xs.length i with
        | some j => .ok (xs.getD j .none)
        | Option.none => .caught "IndexError: list index out of range"
      | Option.none => .caught "TypeError: list indices must be integers"
    | .str t =>
      match asNumInt index with
      | some i =>
        match seqIdx t.length i with
        | some j => .ok (.str (String.mk [t.toList.getD j ' ']))
        | Option.none => .caught "IndexError: string index out of range"
      | Option.none => .caught "TypeError: string indices must be integers"
    | .kwdict es =>
      match index with
      | .str k =>
        match (es.find? (fun kv => kv.1 == k)).map Prod.snd with
        | some v => .ok v
        | Option.none => .caught "KeyError"
      | _ => .caught "KeyError"
    | _ => .caught "TypeError: object is not subscriptable"

/-- `collection[index] = value` for `OP_INDEX_SET` (list collections
only; `TypeError`/`IndexError` caught). -/
def pyIndexSet (xs : List Value) (index value : Value) : IdxRes :=
  match asNumInt index with
  | some i =>
    match seqIdx xs.length i with
    | some j => .ok (.list (xs.set j value))
    | Option.none => .caught "IndexError: list assignment index out of range"
  | Option.none => .caught "TypeError: list indices must be integers"

/-- Host `getattr`: only the `Range` dataclass fields are modelled; any
other attribute access is host behaviour outside the fragment. -/
def getAttr (obj : Value) (attr : String) : IdxRes :=
  match obj with
  | .range a b c =>
      if attr = "start" then .ok a
      else if attr = "end" then .ok b
      else if attr = "step" then .ok c
      else .unmod "host attribute lookup"
  | _ => .unmod "host attribute lookup"

/-- Outcome of a registered native function call (run under
`try/except`, so a raise becomes a structured `Err`). -/
inductive NativeRes where
  | ok (v : Value)
  | raised (msg : String)
  | unmod (what : String)
  deriving Repr, DecidableEq

/-- The native implementations (src/pyle/pyle_builtins.py): `echo` prints
(output is not observed here) and returns `None`; `len` measures lists,
strings and dicts and raises on anything else; the host-interop and I/O
natives are outside the modelled fragment. -/
def callNative (name : String) (args : List Value) : NativeRes :=
  match name, args with
  | "echo", _ => .ok .none
  | "len", [.list xs] => .ok (.int xs.length)
  | "len", [.str t] => .ok (.int t.length)
  | "len", [.kwdict es] => .ok (.int es.length)
  | "len", _ => .raised "TypeError: object has no len()"
  | "scan", _ => .unmod "scan (stdin)"
  | "perf_counter", _ => .unmod "perf_counter (clock)"
  | "importpy", _ => .unmod "importpy (host import)"
  | "get_attr", _ => .unmod "get_attr (host getattr)"
  | _, _ => .raised "unknown native"

/-- `dict` insertion (update-or-append), for `dict(zip(names, values))`. -/
def dictInsert (d : List (String × Value)) (k : String) (v : Value) :
    List (String × Value) :=
  if d.any (fun kv => kv.1 == k) then
    d.map (fun kv => if kv.1 == k then (k, v) else kv)
  else d ++ [(k, v)]

/-- One iteration of the `while True` dispatch loop of `PyleVM._run`:
fetch the instruction at `ip` (falling out of the loop when `ip` is past
the end), increment `ip`, then execute.  The stack is top-at-head; the
structured `Result.err` returns of the source become `done (.err _)`,
uncaught host exceptions become `done (.thrown _)`. -/
def step (s0 : VmState) : StepRes :=
  match s0.bytecode_chunk.get? s0.ip with
  | Option.none =>
      -- ip out of bounds: break, then return ok(stack[-1] if stack else None)
      .done (.ok (match s0.stack with | v :: _ => v | [] => .none)) s0
  | some instr =>
    let s := { s0 with ip := s0.ip + 1 }
    let operand := instr.operand
    match instr.opcode with
    | .OP_CONST =>
      match constAt s operand with
      | some v => .next { s with stack := v :: s.stack }
      | Option.none => .done (.thrown "IndexError: bad constant index") s
    | .OP_DEF_GLOBAL =>
      match nameAt s operand with
      | some var_name =>
        match s.stack with
        | v :: rest =>
            .next { s with stack := rest, globals := setVar s.globals var_name v false }
        | [] => .done (.err ("Stack underflow for OP_DEF_GLOBAL '" ++ var_name ++ "'.")) s
      | Option.none => .done (.unmod "non-string name constant") s
    | .OP_GET_GLOBAL =>
      match nameAt s operand with
      | some var_name =>
        match lookupVar s.globals var_name with
        | some var => .next { s with stack := var.value :: s.stack }
        | Option.none =>
            .done (.err ("Undefined global variable '" ++ var_name ++ "'.")) s
      | Option.none => .done (.unmod "non-string name constant") s
    | .OP_SET_GLOBAL =>
      match nameAt s operand with
      | some var_name =>
        match lookupVar s.globals var_name with
        | some var =>
          match s.stack with
          | v :: rest =>
              if var.is_const then
                .done (.err ("Cannot assign to const global variable '" ++ var_name ++ "'.")) s
              else
                .next { s with stack := rest, globals := setVar s.globals var_name v false }
          | [] => .done (.err ("Stack underflow for OP_SET_GLOBAL '" ++ var_name ++ "'.")) s
        | Option.none =>
            .done (.err ("Cannot assign to undefined global variable '" ++ var_name ++ "'.")) s
      | Option.none => .done (.unmod "non-string name constant") s
    | .OP_DEF_CONST_GLOBAL =>
      match nameAt s operand with
      | some var_name =>
        match s.stack with
        | v :: rest =>
            .next { s with stack := rest, globals := setVar s.globals var_name v true }
        | [] => .done (.err ("Stack underflow for OP_DEF_GLOBAL '" ++ var_name ++ "'.")) s
      | Option.none => .done (.unmod "non-string name constant") s
    | .OP_ADD =>
      match s.stack with
      | right :: left :: rest =>
        match arithNum left right (· + ·) (· + ·) with
        | some v => .next { s with stack := v :: rest }
        | Option.none =>
          match left, right with
          | .str a, .str b => .next { s with stack := .str (a ++ b) :: rest }
          | .list a, .list b => .next { s with stack := .list (a ++ b) :: rest }
          | _, _ => .done (.err "Unsupported operand types for +") s
      | _ => .done (.err "Stack underflow for OP_ADD.") s
    | .OP_SUBTRACT =>
      match s.stack with
      | right :: left :: rest =>
        match pySub left right with
        | .ok v => .next { s with stack := v :: rest }
        | .typeErr msg => .done (.thrown msg) s
        | .unmod what => .done (.unmod what) s
      | _ => .done (.err "Stack underflow for OP_SUBTRACT.") s
    | .OP_MULTIPLY =>
      match s.stack with
      | right :: left :: rest =>
        match pyMul left right with
        | .ok v => .next { s with stack := v :: rest }
        | .typeErr msg => .done (.thrown msg) s
        | .unmod what => .done (.unmod what) s
      | _ => .done (.err "Stack underflow for OP_MULTIPLY.") s
    | .OP_DIVIDE =>
      match s.stack with
      | right :: left :: rest =>
        if pyEq right (.int 0) then .done (.err "Division by zero.") s
        else
          match pyDiv left right with
          | .ok v => .next { s with stack := v :: rest }
          | .typeErr msg => .done (.thrown msg) s
          | .unmod what => .done (.unmod what) s
      | _ => .done (.err "Stack underflow for OP_DIVIDE.") s
    | .OP_MODULO =>
      match s.stack with
      | right :: left :: rest =>
        if pyEq right (.int 0) then .done (.err "Modulo by zero.") s
        else
          match pyMod left right with
          | .ok v => .next { s with stack := v :: rest }
          | .typeErr msg => .done (.thrown msg) s
          | .unmod what => .done (.unmod what) s
      | _ => .done (.err "Stack underflow for OP_MODULO.") s
    | .OP_NEGATE =>
      match s.stack with
      | value :: rest =>
        match value with
        | .int n => .next { s with stack := .int (-n) :: rest }
        | .bool b => .next { s with stack := .int (-(if b then 1 else 0)) :: rest }
        | .float q => .next { s with stack := .float (-q) :: rest }
        | _ => .done (.err "Operand for '-' must be a number.") s
      | [] => .done (.err "Stack underflow for OP_NEGATE.") s
    | .OP_NOT =>
      match s.stack with
      | value :: rest => .next { s with stack := .bool (!truthy value) :: rest }
      | [] => .done (.err "Stack underflow for OP_NOT.") s
    | .OP_EQUAL =>
      match s.stack with
      | right :: left :: rest => .next { s with stack := .bool (pyEq left right) :: rest }
      | _ => .done (.err "Stack underflow for OP_EQUAL.") s
    | .OP_NOT_EQUAL =>
      match s.stack with
      | right :: left :: rest => .next { s with stack := .bool (!pyEq left right) :: rest }
      | _ => .done (.err "Stack underflow for OP_NOT_EQUAL.") s
    | .OP_GREATER =>
      match s.stack with
      | right :: left :: rest =>
        match pyCmp left right with
        | some o => .next { s with stack := .bool (o == .gt) :: rest }
        | Option.none => .done (.thrown "TypeError: unorderable types") s
      | _ => .done (.err "Stack underflow for OP_GREATER.") s
    | .OP_GREATER_EQUAL =>
      match s.stack with
      | right :: left :: rest =>
        match pyCmp left right with
        | some o => .next { s with stack := .bool (o != .lt) :: rest }
        | Option.none => .done (.thrown "TypeError: unorderable types") s
      | _ => .done (.err "Stack underflow for OP_GREATER_EQUAL.") s
    | .OP_LESS =>
      match s.stack with
      | right :: left :: rest =>
        match pyCmp left right with
        | some o => .next { s with stack := .bool (o == .lt) :: rest }
        | Option.none => .done (.thrown "TypeError: unorderable types") s
      | _ => .done (.err "Stack underflow for OP_LESS.") s
    | .OP_LESS_EQUAL =>
      match s.stack with
      | right :: left :: rest =>
        match pyCmp left right with
        | some o => .next { s with stack := .bool (o != .gt) :: rest }
        | Option.none => .done (.thrown "TypeError: unorderable types") s
      | _ => .done (.err "Stack underflow for OP_LESS_EQUAL.") s
    | .OP_AND =>
      match s.stack with
      | right :: left :: rest =>
          -- Python `left and right` returns an operand, not a Bool
          .next { s with stack := (if truthy left then right else left) :: rest }
      | _ => .done (.err "Stack underflow for OP_AND.") s
    | .OP_OR =>
      match s.stack with
      | right :: left :: rest =>
          .next { s with stack := (if truthy left then left else right) :: rest }
      | _ => .done (.err "Stack underflow for OP_OR.") s
    | .OP_TRUE => .next { s with stack := .bool true :: s.stack }
    | .OP_FALSE => .next { s with stack := .bool false :: s.stack }
    | .OP_NONE => .next { s with stack := .none :: s.stack }
    | .OP_BUILD_RANGE =>
      match s.stack with
      | stepv :: endv :: startv :: rest =>
          .next { s with stack := .range startv endv stepv :: rest }
      | _ => .done (.err "Stack underflow for OP_BUILD_RANGE.") s
    | .OP_ITER_NEW =>
      match s.stack with
      | iterable :: rest =>
        match iterItems iterable with
        | .ok items => .next { s with stack := .iterator items :: rest }
        | .notIterable => .done (.err "Type is not iterable.") s
        | .hostThrow msg => .done (.thrown msg) s
      | [] => .done (.err "Stack underflow for OP_ITER_NEW.") s
    | .OP_ITER_NEXT_OR_JUMP =>
      match s.stack with
      | top :: rest =>
        match top with
        | .iterator (x :: xs) =>
            .next { s with stack := x :: .iterator xs :: rest }
        | .iterator [] =>
          match operand with
          | .num j => .next { s with stack := rest, ip := j }
          | _ => .done (.thrown "TypeError: bad jump operand") s
        | _ => .done (.err "Cannot iterate non-iterator type.") s
      | [] => .done (.err "Stack underflow for OP_ITER_NEXT_OR_JUMP.") s
    | .OP_BUILD_LIST =>
      match operand with
      | .num num_elements =>
          if s.stack.length < num_elements then
            .done (.err "Stack underflow for OP_BUILD_LIST.") s
          else
            let elements := (s.stack.take num_elements).reverse
            .next { s with stack := Value.list elements :: s.stack.drop num_elements }
      | _ => .done (.thrown "TypeError: bad operand") s
    | .OP_INDEX_GET =>
      match s.stack with
      | index :: collection :: rest =>
        match pyIndexGet collection index with
        | .ok v => .next { s with stack := v :: rest }
        | .caught e => .done (.err ("Indexing error: " ++ e)) s
        | .unmod what => .done (.unmod what) s
      | _ => .done (.err "Stack underflow for OP_INDEX_GET.") s
    | .OP_INDEX_SET =>
      match s.stack with
      | value :: index :: collection :: rest =>
        match collection with
        | .list xs =>
          match pyIndexSet xs index value with
          | .ok _ => .next { s with stack := value :: rest }
          | .caught e => .done (.err ("Index assignment error: " ++ e)) s
          | .unmod what => .done (.unmod what) s
        | _ => .done (.err "Index assignment not supported on this type.") s
      | _ => .done (.err "Stack underflow for OP_INDEX_SET.") s
    | .OP_GET_ATTR =>
      match s.stack with
      | obj :: rest =>
        match nameAt s operand with
        | some attr_name =>
          match getAttr obj attr_name with
          | .ok v => .next { s with stack := v :: rest }
          | .caught e => .done (.err ("Attribute error: " ++ e)) s
          | .unmod what => .done (.unmod what) s
        | Option.none => .done (.unmod "non-string attribute constant") s
      | [] => .done (.err "Stack underflow for OP_GET_ATTR.") s
    | .OP_ENTER_SCOPE => .next { s with environments := [] :: s.environments }
    | .OP_EXIT_SCOPE =>
      match s.environments with
      | _ :: rest => .next { s with environments := rest }
      | [] => .done (.err "VM error: Attempted to exit scope when no local scope active.") s
    | .OP_DEF_LOCAL =>
      match nameAt s operand with
      | some var_name =>
        match s.environments with
        | scope :: envRest =>
          match s.stack with
          | v :: rest =>
              .next { s with stack := rest,
                             environments := setVar scope var_name v false :: envRest }
          | [] => .done (.err ("Stack underflow defining local '" ++ var_name ++ "'.")) s
        | [] => .done (.err ("VM error: No active local scope to define '" ++ var_name ++ "'.")) s
      | Option.none => .done (.unmod "non-string name constant") s
    | .OP_DEF_CONST_LOCAL =>
      match nameAt s operand with
      | some var_name =>
        match s.environments with
        | scope :: envRest =>
          match s.stack with
          | v :: rest =>
              .next { s with stack := rest,
                             environments := setVar scope var_name v true :: envRest }
          | [] => .done (.err ("Stack underflow defining local '" ++ var_name ++ "'.")) s
        | [] => .done (.err ("VM error: No active local scope to define '" ++ var_name ++ "'.")) s
      | Option.none => .done (.unmod "non-string name constant") s
    | .OP_GET_LOCAL =>
      match nameAt s operand with
      | some var_name =>
        match lookupEnvs s.environments var_name with
        | some var => .next { s with stack := var.value :: s.stack }
        | Option.none => .done (.err ("Undefined local variable '" ++ var_name ++ "'.")) s
      | Option.none => .done (.unmod "non-string name constant") s
    | .OP_SET_LOCAL =>
      match nameAt s operand with
      | some var_name =>
        match s.stack with
        | val_to_assign :: rest =>
          match setInEnvs s.environments var_name val_to_assign with
          | .done envs' => .next { s with stack := rest, environments := envs' }
          | .constErr =>
              .done (.err ("Cannot Assign const local variable '" ++ var_name ++ "'.")) s
          | .notFound =>
              .done (.err ("Cannot assign to undefined local variable '" ++ var_name ++ "'.")) s
        | [] => .done (.err ("Stack underflow setting local '" ++ var_name ++ "'.")) s
      | Option.none => .done (.unmod "non-string name constant") s
    | .OP_JUMP_IF_FALSE =>
      match s.stack with
      | condition_value :: rest =>
        match operand with
        | .num j =>
            if !truthy condition_value then .next { s with stack := rest, ip := j }
            else .next { s with stack := rest }
        | _ => .done (.thrown "TypeError: bad jump operand") s
      | [] => .done (.err "Stack underflow for OP_JUMP_IF_FALSE.") s
    | .OP_JUMP =>
      match operand with
      | .num j => .next { s with ip := j }
      | _ => .done (.thrown "TypeError: bad jump operand") s
    | .OP_POP =>
      match s.stack with
      | _ :: rest => .next { s with stack := rest }
      | [] => .done (.err "Stack underflow for OP_POP.") s
    | .OP_CALL =>
      match operand with
      | .num num_args =>
        if s.stack.length < num_args + 1 then
          .done (.err "Stack underflow for OP_CALL.") s
        else
          match s.stack.get? num_args with
          | some (.fn fname farity fstart fnative) =>
            match fnative with
            | some native_name =>
                if 0 ≤ farity && (num_args : Int) ≠ farity then
                  .done (.err ("Native function '" ++ fname ++ "' wrong arity.")) s
                else
                  match callNative native_name ((s.stack.take num_args).reverse) with
                  | .ok v => .next { s with stack := v :: s.stack.drop (num_args + 1) }
                  | .raised msg =>
                      .done (.err ("Error in native function '" ++ fname ++ "': " ++ msg)) s
                  | .unmod what => .done (.unmod what) s
            | Option.none =>
              match fstart with
              | Option.none =>
                  .done (.err ("Pyle function '" ++ fname ++ "' has no bytecode start IP.")) s
              | some start_ip =>
                if (num_args : Int) ≠ farity then
                  .done (.err ("Function '" ++ fname ++ "' wrong arity.")) s
                else
                  .next { s with
                    frames := ⟨s.ip, s.stack.length - 1 - num_args, s.environments.length⟩
                              :: s.frames,
                    ip := start_ip }
          | some _ => .done (.err "Cannot call non-function type.") s
          | Option.none => .done (.err "Stack underflow for OP_CALL.") s
      | _ => .done (.thrown "TypeError: bad operand") s
    | .OP_BUILD_KWARGS =>
      match operand with
      | .num num_kwargs =>
        if s.stack.length < num_kwargs + 1 then
          .done (.err "Stack underflow for OP_BUILD_KWARGS.") s
        else
          match s.stack with
          | kw_names :: rest =>
            match kw_names with
            | .list namevs =>
                let names := namevs.filterMap (fun v =>
                  match v with | .str k => some k | _ => Option.none)
                if names.length = namevs.length then
                  let kw_values := (rest.take num_kwargs).reverse
                  let kwargs := (names.zip kw_values).foldl
                    (fun d kv => dictInsert d kv.1 kv.2) []
                  .next { s with stack := .kwdict kwargs :: rest.drop num_kwargs }
                else .done (.unmod "non-string keyword name") s
            | _ => .done (.thrown "TypeError: zip argument") s
          | [] => .done (.err "Stack underflow for OP_BUILD_KWARGS.") s
      | _ => .done (.thrown "TypeError: bad operand") s
    | .OP_CALL_KW =>
      match operand with
      | .pair num_args _num_kwargs =>
        if s.stack.length < num_args + 2 then
          .done (.err "Stack underflow for OP_CALL_KW.") s
        else
          -- only raw host callables accept **kwargs; every modelled value
          -- (including PyleFunction objects, which have no __call__)
          -- raises TypeError, caught and wrapped into Err
          .done (.err "Error in function call with kwargs: object is not callable") s
      | _ => .done (.thrown "TypeError: bad operand") s
    | .OP_RETURN =>
      match s.stack with
      | return_value :: rest =>
        match s.frames with
        | [] => .done (.ok return_value) { s with stack := rest }
        | frame :: fs =>
            .next { s with
              ip := frame.return_ip,
              environments := truncateTo frame.env_depth s.environments,
              stack := return_value :: truncateTo frame.stack_slot rest,
              frames := fs }
      | [] => .done (.err "Stack underflow for OP_RETURN (no return value).") s
    | .OP_HALT =>
        .done (.ok (match s.stack with | v :: _ => v | [] => .none)) s

/-- The fuel-indexed iteration of `step` (`_run` loops until a terminal
outcome; the fuel only serves totality and every concrete theorem below
supplies enough of it). -/
inductive RunRes where
  | fin (r : RunEnd) (final : VmState)
  | fuel (s : VmState)
  deriving Repr, DecidableEq

def run : Nat → VmState → RunRes
  | 0, s => .fuel s
  | n + 1, s =>
    match step s with
    | .next s' => run n s'
    | .done r f => .fin r f

/-- `PyleVM.interpret`: reset the machine and run the chunk. -/
def initState (chunk : List Instruction) (constants : List Value) : VmState :=
  { bytecode_chunk := chunk, constants := constants, ip := 0,
    stack := [], globals := [], environments := [], frames := [] }

/-- `interpret` with the given fuel. -/
def interpret (fuel : Nat) (chunk : List Instruction) (constants : List Value) : RunRes :=
  run fuel (initState chunk constants)

/-! ## Whole-pipeline helpers for concrete scenarios -/

/-- Compile a program and run it to completion (`none` when compilation
fails or the fuel runs out). -/
def compileRun (fuel : Nat) (prog : Ast) : Option (RunEnd × VmState) :=
  match compile prog with
  | .ok (c, k) =>
    match interpret fuel c k with
    | .fin r f => some (r, f)
    | .fuel _ => Option.none
  | .error _ => Option.none

/-- Compile a program and stop after exactly `steps` dispatch iterations
(`none` when compilation fails or the run ends earlier). -/
def midRun (steps : Nat) (prog : Ast) : Option VmState :=
  match compile prog with
  | .ok (c, k) =>
    match run steps (initState c k) with
    | .fuel s => some s
    | .fin _ _ => Option.none
  | .error _ => Option.none

/-! ## Concrete programs used by the claims -/

/-- Scenario S1: `let x = 2 + 3 * 4;` followed by the expression
statement `x` (the program root is a token-less `Block`). -/
def s1prog : Ast := .block false [
  .varDeclareStmt "x" (some (.binaryOp (.number (.int 2)) .plus
      (.binaryOp (.number (.int 3)) .mul (.number (.int 4))))) false,
  .variableExpr "x"]

/-- `let y = true or false;`. -/
def orProg : Ast := .block false [
  .varDeclareStmt "y" (some (.logicalOp (.boolean true) .orK (.boolean false))) false]

/-- `let a = [1, 2]; a[0] = 10;`. -/
def indexAssignProg : Ast := .block false [
  .varDeclareStmt "a" (some (.arrayLiteral [.number (.int 1), .number (.int 2)])) false,
  .assignIndexStmt (.variableExpr "a") (.number (.int 0)) (.number (.int 10))]

/-- Is a value a `Range` object? -/
def Value.isRange : Value → Bool
  | .range _ _ _ => true
  | _ => false

/-! ## Structural facts about the compiler

`chunkOps` projects the opcode stream; `Ext s s'` says the chunk grew
only by opcodes that are not global-definition opcodes (operand patching
rewrites operands, never opcodes); `Step1` packages the invariant
preserved by every compilation step: the scope depth is restored, and —
when the step started at depth ≥ 1, as every node compiled by
`Compiler.compile` does — no `OP_DEF_GLOBAL`/`OP_DEF_CONST_GLOBAL` is
emitted. -/

/-- The opcode stream of the chunk under construction. -/
def chunkOps (s : CState) : List OpCode := s.bytecode_chunk.map Instruction.opcode

/-- Global-definition opcodes. -/
def isGlobalDef : OpCode → Bool
  | .OP_DEF_GLOBAL => true
  | .OP_DEF_CONST_GLOBAL => true
  | _ => false

/-- The chunk grew only by non-global-definition opcodes. -/
def Ext (s s' : CState) : Prop :=
  ∃ new, chunkOps s' = chunkOps s ++ new ∧ ∀ op ∈ new, isGlobalDef op = false

/-- Depth restored, and no global definition emitted from depth ≥ 1. -/
def Step1 (s s' : CState) : Prop :=
  s'.scope_depth = s.scope_depth ∧ (1 ≤ s.scope_depth → Ext s s')

theorem Ext.refl (s : CState) : Ext s s := ⟨[], by simp, by simp⟩

theorem Ext.trans {s₁ s₂ s₃ : CState} (h₁ : Ext s₁ s₂) (h₂ : Ext s₂ s₃) : Ext s₁ s₃ := by
  obtain ⟨n₁, e₁, g₁⟩ := h₁
  obtain ⟨n₂, e₂, g₂⟩ := h₂
  refine ⟨n₁ ++ n₂, by simp [e₂, e₁], ?_⟩
  intro op hop
  rcases List.mem_append.mp hop with h | h
  · exact g₁ op h
  · exact g₂ op h

theorem step1_refl (s : CState) : Step1 s s := ⟨rfl, fun _ => Ext.refl s⟩

theorem step1_trans {s₁ s₂ s₃ : CState} (h₁ : Step1 s₁ s₂) (h₂ : Step1 s₂ s₃) :
    Step1 s₁ s₃ := by
  refine ⟨h₂.1.trans h₁.1, fun hd => (h₁.2 hd).trans (h₂.2 ?_)⟩
  rw [h₁.1]; exact hd

theorem emitOp_chunk (s : CState) (op : OpCode) (arg : Operand) :
    (emitOp s op arg).bytecode_chunk = s.bytecode_chunk ++ [⟨op, arg⟩] := rfl

theorem emitOp_depth (s : CState) (op : OpCode) (arg : Operand) :
    (emitOp s op arg).scope_depth = s.scope_depth := rfl

theorem chunkOps_emitOp (s : CState) (op : OpCode) (arg : Operand) :
    chunkOps (emitOp s op arg) = chunkOps s ++ [op] := by
  simp [chunkOps, emitOp, emit_instruction]

theorem step1_emit_good (op : OpCode) (s : CState) (arg : Operand)
    (h : isGlobalDef op = false) : Step1 s (emitOp s op arg) :=
  ⟨rfl, fun _ => ⟨[op], chunkOps_emitOp s op arg, by simpa using h⟩⟩

theorem step1_emit_depth0 {s : CState} (op : OpCode) (arg : Operand)
    (h : s.scope_depth = 0) : Step1 s (emitOp s op arg) :=
  ⟨rfl, fun hd => by omega⟩

theorem addConst_chunk (s : CState) (v : Value) :
    ((addConst s v).2).bytecode_chunk = s.bytecode_chunk := rfl

theorem addConst_depth (s : CState) (v : Value) :
    ((addConst s v).2).scope_depth = s.scope_depth := rfl

theorem step1_of_eq {s s' : CState} (hc : s'.bytecode_chunk = s.bytecode_chunk)
    (hd : s'.scope_depth = s.scope_depth) : Step1 s s' :=
  ⟨hd, fun _ => ⟨[], by simp [chunkOps, hc], by simp⟩⟩

theorem step1_addConst (s : CState) (v : Value) : Step1 s (addConst s v).2 :=
  step1_of_eq rfl rfl

theorem chunkOps_constUpd (s : CState) (cs : List Value) :
    chunkOps { s with constants := cs } = chunkOps s := rfl

theorem step1_constUpd_emit (s : CState) (cs : List Value) (op : OpCode) (arg : Operand)
    (h : isGlobalDef op = false) : Step1 s (emitOp { s with constants := cs } op arg) :=
  ⟨rfl, fun _ => ⟨[op], by simp [chunkOps, emitOp, emit_instruction], by simpa using h⟩⟩

theorem ext_append_one (s : CState) (ins : Instruction)
    (h : isGlobalDef ins.opcode = false) :
    Ext s { s with bytecode_chunk := s.bytecode_chunk ++ [ins] } :=
  ⟨[ins.opcode], by simp [chunkOps], by simpa using h⟩

theorem step1_append_one (s : CState) (ins : Instruction)
    (h : isGlobalDef ins.opcode = false) :
    Step1 s { s with bytecode_chunk := s.bytecode_chunk ++ [ins] } :=
  ⟨rfl, fun _ => ext_append_one s ins h⟩

theorem chunkOps_append_one (s : CState) (ins : Instruction) :
    chunkOps { s with bytecode_chunk := s.bytecode_chunk ++ [ins] } =
      chunkOps s ++ [ins.opcode] := by
  simp [chunkOps]

theorem chunkOps_depthUpd (s : CState) (d : Nat) :
    chunkOps { s with scope_depth := d } = chunkOps s := rfl

theorem chunkOps_loopsUpd (s : CState) (a : Nat) (b c : List (List Nat)) :
    chunkOps { s with loop_level := a, loop_start_patches := b, loop_end_patches := c } =
      chunkOps s := rfl

theorem chunkOps_mk_fields (s : CState) (cs : List Value) (d a : Nat)
    (b c : List (List Nat)) :
    chunkOps { bytecode_chunk := s.bytecode_chunk, constants := cs, scope_depth := d,
               loop_level := a, loop_start_patches := b, loop_end_patches := c } =
      chunkOps s := rfl

theorem chunkOps_mk_append (s : CState) (ins : Instruction) (cs : List Value) (d a : Nat)
    (b c : List (List Nat)) :
    chunkOps { bytecode_chunk := s.bytecode_chunk ++ [ins], constants := cs,
               scope_depth := d, loop_level := a, loop_start_patches := b,
               loop_end_patches := c } =
      chunkOps s ++ [ins.opcode] := by
  simp [chunkOps]

theorem chunkUpd_depth (s : CState) (l : List Instruction) :
    ({ s with bytecode_chunk := l }).scope_depth = s.scope_depth := rfl

theorem constUpd_depth (s : CState) (cs : List Value) :
    ({ s with constants := cs }).scope_depth = s.scope_depth := rfl

theorem loopsUpd_depth (s : CState) (a : Nat) (b c : List (List Nat)) :
    ({ s with loop_level := a, loop_start_patches := b,
              loop_end_patches := c }).scope_depth = s.scope_depth := rfl

theorem goodOps_append {A B : List OpCode}
    (hA : ∀ op ∈ A, isGlobalDef op = false) (hB : ∀ op ∈ B, isGlobalDef op = false) :
    ∀ op ∈ A ++ B, isGlobalDef op = false := by
  intro op hop
  rcases List.mem_append.mp hop with h | h
  · exact hA op h
  · exact hB op h

theorem goodOps_cons {a : OpCode} {A : List OpCode}
    (ha : isGlobalDef a = false) (hA : ∀ op ∈ A, isGlobalDef op = false) :
    ∀ op ∈ a :: A, isGlobalDef op = false := by
  intro op hop
  rcases List.mem_cons.mp hop with rfl | h
  · exact ha
  · exact hA op h

theorem map_set_same {α β : Type} (f : α → β) :
    ∀ (l : List α) (i : Nat) (x y : α), l.get? i = some x → f y = f x →
      (l.set i y).map f = l.map f
  | [], _, _, _, h, _ => by cases h
  | a :: l, 0, x, y, h, hf => by
      simp only [List.get?] at h
      cases h
      simp [List.set, hf]
  | a :: l, i + 1, x, y, h, hf => by
      simp only [List.get?] at h
      simp [List.set, map_set_same f l i x y h hf]

theorem setOperand_chunkOps (s : CState) (i target : Nat) :
    chunkOps (setOperand s i target) = chunkOps s := by
  unfold setOperand
  cases h : s.bytecode_chunk.get? i with
  | none => rfl
  | some ins =>
      simp only [chunkOps]
      exact map_set_same Instruction.opcode s.bytecode_chunk i ins _ h rfl

theorem setOperand_depth (s : CState) (i target : Nat) :
    (setOperand s i target).scope_depth = s.scope_depth := by
  unfold setOperand
  cases h : s.bytecode_chunk.get? i <;> rfl

theorem setOperand_constants (s : CState) (i target : Nat) :
    (setOperand s i target).constants = s.constants := by
  unfold setOperand
  cases h : s.bytecode_chunk.get? i <;> rfl

theorem step1_patchList (idxs : List Nat) :
    ∀ (s : CState) (target : Nat), Step1 s (patchList s idxs target) := by
  induction idxs with
  | nil => intro s target; exact step1_refl s
  | cons i rest ih =>
      intro s target
      have h1 : Step1 s (setOperand s i target) :=
        ⟨setOperand_depth s i target,
         fun _ => ⟨[], by simp [setOperand_chunkOps], by simp⟩⟩
      exact step1_trans h1 (by simpa [patchList] using ih (setOperand s i target) target)

theorem patch_jump_parts {s s' : CState} {i : Nat} {t : Option Nat}
    (h : patch_jump s i t = .ok s') :
    s'.scope_depth = s.scope_depth ∧ chunkOps s' = chunkOps s ∧ s'.constants = s.constants := by
  unfold patch_jump at h
  cases hg : s.bytecode_chunk.get? i with
  | none => rw [hg] at h; cases h
  | some ins =>
      rw [hg] at h
      cases h
      refine ⟨rfl, ?_, rfl⟩
      simp only [chunkOps]
      exact map_set_same Instruction.opcode s.bytecode_chunk i ins _ hg rfl

theorem patch_jump_cases {s s' : CState} {i : Nat} {t : Option Nat}
    (h : patch_jump s i t = .ok s') : Step1 s s' :=
  ⟨(patch_jump_parts h).1, fun _ => ⟨[], by simp [(patch_jump_parts h).2.1], by simp⟩⟩

theorem step1_defParams (ps : List String) :
    ∀ s : CState, Step1 s (defParams s ps) := by
  induction ps with
  | nil => intro s; exact step1_refl s
  | cons p rest ih =>
      intro s
      have h1 : Step1 s (emitOp (addConst s (.str p)).2 .OP_DEF_LOCAL
          (.num (addConst s (.str p)).1)) :=
        step1_trans (step1_addConst s _) (step1_emit_good _ _ _ rfl)
      exact step1_trans h1 (by simpa [defParams] using ih _)

theorem defParams_depth (ps : List String) (s : CState) :
    (defParams s ps).scope_depth = s.scope_depth :=
  (step1_defParams ps s).1

theorem ext_of_eq {s s' : CState} (hc : s'.bytecode_chunk = s.bytecode_chunk) : Ext s s' :=
  ⟨[], by simp [chunkOps, hc], by simp⟩

theorem ext_emit_good (op : OpCode) (s : CState) (arg : Operand)
    (h : isGlobalDef op = false) : Ext s (emitOp s op arg) :=
  ⟨[op], chunkOps_emitOp s op arg, by simpa using h⟩

theorem ext_addConst (s : CState) (v : Value) : Ext s (addConst s v).2 := ext_of_eq rfl

theorem ext_of_chunkOps_eq {s s' : CState} (hc : chunkOps s' = chunkOps s) : Ext s s' :=
  ⟨[], by simp [hc], by simp⟩

theorem patchList_chunkOps (idxs : List Nat) :
    ∀ (s : CState) (target : Nat), chunkOps (patchList s idxs target) = chunkOps s := by
  induction idxs with
  | nil => intro s target; rfl
  | cons i rest ih =>
      intro s target
      show chunkOps (patchList (setOperand s i target) rest target) = chunkOps s
      rw [ih, setOperand_chunkOps]

theorem ext_patchList (idxs : List Nat) (s : CState) (target : Nat) :
    Ext s (patchList s idxs target) :=
  ext_of_chunkOps_eq (patchList_chunkOps idxs s target)

theorem ext_defParams (ps : List String) :
    ∀ s : CState, Ext s (defParams s ps) := by
  induction ps with
  | nil => intro s; exact Ext.refl s
  | cons p rest ih =>
      intro s
      have h1 : Ext s (emitOp (addConst s (.str p)).2 .OP_DEF_LOCAL
          (.num (addConst s (.str p)).1)) :=
        (ext_addConst s _).trans (ext_emit_good _ _ _ rfl)
      exact h1.trans (by simpa [defParams] using ih _)

theorem ext_patch_jump {s s' : CState} {i : Nat} {t : Option Nat}
    (h : patch_jump s i t = .ok s') : Ext s s' :=
  ext_of_chunkOps_eq (patch_jump_parts h).2.1

theorem patchList_depth (idxs : List Nat) (s : CState) (target : Nat) :
    (patchList s idxs target).scope_depth = s.scope_depth :=
  (step1_patchList idxs s target).1

/-! ### Unfolding equations for the compiler

The mutual recursion makes the automatically generated equation lemmas
impractical; each equation below restates one `visit_*` arm and holds by
`rfl`. -/

theorem ebind_ok {α β : Type} (a : α) (f : α → Except String β) :
    (Except.ok a >>= f) = f a := rfl

theorem ebind_err {α β : Type} (e : String) (f : α → Except String β) :
    ((Except.error e : Except String α) >>= f) = .error e := rfl

theorem bind_ok_iff {α β : Type} (e : Except String α) (f : α → Except String β) (b : β) :
    (e >>= f) = .ok b ↔ ∃ a, e = .ok a ∧ f a = .ok b := by
  cases e with
  | error msg => simp [ebind_err]
  | ok a => simp [ebind_ok]

theorem compileNode_number (v : Num) (s : CState) : compileNode (.number v) s =
    .ok (emitOp (addConst s v.toValue).2 .OP_CONST (.num (addConst s v.toValue).1)) := rfl

theorem compileNode_stringLit (v : String) (s : CState) : compileNode (.stringLit v) s =
    .ok (emitOp (addConst s (.str v)).2 .OP_CONST (.num (addConst s (.str v)).1)) := rfl

theorem compileNode_boolean (b : Bool) (s : CState) : compileNode (.boolean b) s =
    .ok (if b then emitOp s .OP_TRUE .none else emitOp s .OP_FALSE .none) := rfl

theorem compileNode_unary_minus (e : Ast) (s : CState) :
    compileNode (.unaryOp .minus e) s = (do
      let s1 ← compileNode e s
      .ok (emitOp s1 .OP_NEGATE .none)) := rfl

theorem compileNode_unary_not (e : Ast) (s : CState) :
    compileNode (.unaryOp .notK e) s = (do
      let s1 ← compileNode e s
      .ok (emitOp s1 .OP_NOT .none)) := rfl

theorem compileNode_binaryOp (l : Ast) (op : BinKind) (r : Ast) (s : CState) :
    compileNode (.binaryOp l op r) s = (do
      let s1 ← compileNode l s
      let s2 ← compileNode r s1
      .ok (emitOp s2 (binOpCode op) .none)) := rfl

theorem compileNode_logical_or (l r : Ast) (s : CState) :
    compileNode (.logicalOp l .orK r) s = (do
      let s1 ← compileNode l s
      let s2 ← compileNode l s1
      let s3 ← compileNode r s2
      .ok (emitOp s3 (logOpCode .orK) .none)) := rfl

theorem compileNode_logical_and (l r : Ast) (s : CState) :
    compileNode (.logicalOp l .andK r) s = (do
      let s1 ← compileNode l s
      let s2 ← compileNode r s1
      .ok (emitOp s2 (logOpCode .andK) .none)) := rfl

theorem compileNode_comparisonOp (l : Ast) (op : CmpKind) (r : Ast) (s : CState) :
    compileNode (.comparisonOp l op r) s = (do
      let s1 ← compileNode l s
      let s2 ← compileNode r s1
      .ok (emitOp s2 (cmpOpCode op) .none)) := rfl

theorem compileNode_varDeclare_some (name : String) (e : Ast) (is_const : Bool)
    (s : CState) :
    compileNode (.varDeclareStmt name (some e) is_const) s = (do
      let s1 ← compileNode e s
      let (name_idx, s2) := addConst s1 (.str name)
      if s2.scope_depth > 0 then
        .ok (emitOp s2 (if is_const then .OP_DEF_CONST_LOCAL else .OP_DEF_LOCAL)
          (.num name_idx))
      else
        let s3 := emitOp s2 (if is_const then .OP_DEF_CONST_GLOBAL else .OP_DEF_GLOBAL)
          (.num name_idx)
        .ok (emitOp s3 .OP_DEF_GLOBAL (.num name_idx))) := rfl

theorem compileNode_varDeclare_none (name : String) (is_const : Bool) (s : CState) :
    compileNode (.varDeclareStmt name Option.none is_const) s =
      (let s1 := emitOp (addConst s Value.none).2 .OP_CONST (.num (addConst s Value.none).1)
       let (name_idx, s2) := addConst s1 (.str name)
       if s2.scope_depth > 0 then
         .ok (emitOp s2 (if is_const then .OP_DEF_CONST_LOCAL else .OP_DEF_LOCAL)
           (.num name_idx))
       else
         let s3 := emitOp s2 (if is_const then .OP_DEF_CONST_GLOBAL else .OP_DEF_GLOBAL)
           (.num name_idx)
         .ok (emitOp s3 .OP_DEF_GLOBAL (.num name_idx))) := rfl

theorem compileNode_assignStmt (name : String) (value : Ast) (s : CState) :
    compileNode (.assignStmt name value) s = (do
      let s1 ← compileNode value s
      let (name_idx, s2) := addConst s1 (.str name)
      if s2.scope_depth > 0 then .ok (emitOp s2 .OP_SET_LOCAL (.num name_idx))
      else .ok (emitOp s2 .OP_SET_GLOBAL (.num name_idx))) := rfl

theorem compileNode_variableExpr (name : String) (s : CState) :
    compileNode (.variableExpr name) s =
      (let (name_idx, s1) := addConst s (.str name)
       if s1.scope_depth > 0 && !(builtinNames.contains name) then
         .ok (emitOp s1 .OP_GET_LOCAL (.num name_idx))
       else
         .ok (emitOp s1 .OP_GET_GLOBAL (.num name_idx))) := rfl

theorem compileNode_ifStmt (cond then_branch : Ast) (else_branch : Option Ast) (s : CState) :
    compileNode (.ifStmt cond then_branch else_branch) s = (do
      let s1 ← compileNode cond s
      let (jump_if_false_idx, s2) := emit_instruction s1 .OP_JUMP_IF_FALSE (.num 99999)
      let s3 ← compileNode then_branch s2
      match else_branch with
      | Option.none => patch_jump s3 jump_if_false_idx Option.none
      | some els => do
          let (jump_over_else_idx, s4) := emit_instruction s3 .OP_JUMP (.num 99999)
          let s5 ← patch_jump s4 jump_if_false_idx Option.none
          let s6 ← compileNode els s5
          patch_jump s6 jump_over_else_idx Option.none) := by
  cases else_branch <;> rfl

theorem compileNode_block (ht : Bool) (stmts : List Ast) (s : CState) :
    compileNode (.block ht stmts) s =
      (if ht then do
        let s1 := emitOp { s with scope_depth := s.scope_depth + 1 } .OP_ENTER_SCOPE .none
        let s2 ← compileStmts stmts s1
        let s3 := emitOp s2 .OP_EXIT_SCOPE .none
        .ok { s3 with scope_depth := s3.scope_depth - 1 }
      else compileStmts stmts s) := rfl

theorem compileNode_whileStmt (cond body : Ast) (s : CState) :
    compileNode (.whileStmt cond body) s = (do
      let s0 := { s with loop_level := s.loop_level + 1,
                         loop_start_patches := [] :: s.loop_start_patches,
                         loop_end_patches := [] :: s.loop_end_patches }
      let loop_start_ip := s0.bytecode_chunk.length
      let s1 ← compileNode cond s0
      let (exit_loop_jump_idx, s2) := emit_instruction s1 .OP_JUMP_IF_FALSE (.num 99999)
      let s3 ← compileNode body s2
      let s4 := patchList s3 (s3.loop_start_patches.headD []) loop_start_ip
      let s5 := emitOp s4 .OP_JUMP (.num loop_start_ip)
      let s6 ← patch_jump s5 exit_loop_jump_idx Option.none
      let loop_end_target_ip :=
        match s6.bytecode_chunk.get? exit_loop_jump_idx with
        | some ⟨_, .num t⟩ => t
        | _ => 0
      let s7 := patchList s6 (s6.loop_end_patches.headD []) loop_end_target_ip
      .ok { s7 with loop_start_patches := s7.loop_start_patches.tail,
                    loop_end_patches := s7.loop_end_patches.tail,
                    loop_level := s7.loop_level - 1 }) := rfl

theorem compileNode_forInStmt (loop_variable : String) (iterable body : Ast) (s : CState) :
    compileNode (.forInStmt loop_variable iterable body) s = (do
      let s0 := { s with loop_level := s.loop_level + 1,
                         loop_end_patches := [] :: s.loop_end_patches,
                         loop_start_patches := [] :: s.loop_start_patches }
      let s1 := { s0 with scope_depth := s0.scope_depth + 1 }
      let s2 := emitOp s1 .OP_ENTER_SCOPE .none
      let s3 ← compileNode iterable s2
      let s4 := emitOp s3 .OP_ITER_NEW .none
      let (name_idx, s5) := addConst s4 (.str loop_variable)
      let (none_idx, s6) := addConst s5 Value.none
      let s7 := emitOp s6 .OP_CONST (.num none_idx)
      let s8 := emitOp s7 .OP_DEF_LOCAL (.num name_idx)
      let loop_iteration_start_ip := s8.bytecode_chunk.length
      let (jump_if_exhausted_idx, s9) := emit_instruction s8 .OP_ITER_NEXT_OR_JUMP (.num 99999)
      let s10 := emitOp s9 .OP_SET_LOCAL (.num name_idx)
      let s11 ← compileNode body s10
      let s12 := emitOp s11 .OP_JUMP (.num loop_iteration_start_ip)
      let break_handler_ip := s12.bytecode_chunk.length
      let s13 := emitOp s12 .OP_POP .none
      let s14 := patchList s13 (s13.loop_end_patches.headD []) break_handler_ip
      let after_loop_ip := s14.bytecode_chunk.length
      let s15 ← patch_jump s14 jump_if_exhausted_idx (some after_loop_ip)
      let s16 := patchList s15 (s15.loop_start_patches.headD []) loop_iteration_start_ip
      let s17 := emitOp s16 .OP_EXIT_SCOPE .none
      let s18 := { s17 with scope_depth := s17.scope_depth - 1 }
      .ok { s18 with loop_start_patches := s18.loop_start_patches.tail,
                     loop_end_patches := s18.loop_end_patches.tail,
                     loop_level := s18.loop_level - 1 }) := rfl

theorem compileNode_breakStmt (s : CState) :
    compileNode .breakStmt s =
      (if s.loop_level = 0 then .error "CompileError: break outside loop"
       else
         let (jump_idx, s1) := emit_instruction s .OP_JUMP (.num 99999)
         .ok { s1 with loop_end_patches := pushPatch s1.loop_end_patches jump_idx }) := rfl

theorem compileNode_continueStmt (s : CState) :
    compileNode .continueStmt s =
      (if s.loop_level = 0 then .error "CompileError: continue outside loop"
       else
         let (jump_idx, s1) := emit_instruction s .OP_JUMP (.num 99999)
         .ok { s1 with loop_start_patches := pushPatch s1.loop_start_patches jump_idx }) := rfl

theorem compileNode_rangeSpecifier_some (start stop st : Ast) (s : CState) :
    compileNode (.rangeSpecifier start stop (some st)) s = (do
      let s1 ← compileNode start s
      let s2 ← compileNode stop s1
      let s3 ← compileNode st s2
      .ok (emitOp s3 .OP_BUILD_RANGE .none)) := rfl

theorem compileNode_rangeSpecifier_none (start stop : Ast) (s : CState) :
    compileNode (.rangeSpecifier start stop Option.none) s = (do
      let s1 ← compileNode start s
      let s2 ← compileNode stop s1
      let s3 := emitOp (addConst s2 (.int 1)).2 .OP_CONST (.num (addConst s2 (.int 1)).1)
      .ok (emitOp s3 .OP_BUILD_RANGE .none)) := rfl

theorem compileNode_arrayLiteral (elements : List Ast) (s : CState) :
    compileNode (.arrayLiteral elements) s = (do
      let s1 ← compileMany elements s
      .ok (emitOp s1 .OP_BUILD_LIST (.num elements.length))) := rfl

theorem compileNode_functionDefStmt (name : String) (params : List String) (body : Ast)
    (s : CState) :
    compileNode (.functionDefStmt name params body) s = (do
      let (jump_over_body_idx, s1) := emit_instruction s .OP_JUMP (.num 99999)
      let function_start_ip := s1.bytecode_chunk.length
      let enclosing_scope_depth := s1.scope_depth
      let s2 := { s1 with scope_depth := s1.scope_depth + 1 }
      let s3 := emitOp s2 .OP_ENTER_SCOPE .none
      let s4 := defParams s3 params.reverse
      let s5 ← compileNode body s4
      let s6 := emitOp s5 .OP_EXIT_SCOPE .none
      let (none_idx, s7) := addConst s6 Value.none
      let s8 := emitOp s7 .OP_CONST (.num none_idx)
      let s9 := emitOp s8 .OP_RETURN .none
      let s10 := { s9 with scope_depth := enclosing_scope_depth }
      let s11 ← patch_jump s10 jump_over_body_idx Option.none
      let func_obj := Value.fn name (params.length : Int) (some function_start_ip) Option.none
      let (func_const_idx, s12) := addConst s11 func_obj
      let s13 := emitOp s12 .OP_CONST (.num func_const_idx)
      if s13.scope_depth > 0 then
        let (ni, s14) := addConst s13 (.str name)
        .ok (emitOp s14 .OP_DEF_LOCAL (.num ni))
      else
        let (ni, s14) := addConst s13 (.str name)
        .ok (emitOp s14 .OP_DEF_GLOBAL (.num ni))) := rfl

theorem compileNode_functionExpr (params : List String) (body : Ast) (s : CState) :
    compileNode (.functionExpr params body) s = (do
      let (jump_over_body_idx, s1) := emit_instruction s .OP_JUMP (.num 99999)
      let function_start_ip := s1.bytecode_chunk.length
      let enclosing_scope_depth := s1.scope_depth
      let s2 := { s1 with scope_depth := s1.scope_depth + 1 }
      let s3 := emitOp s2 .OP_ENTER_SCOPE .none
      let s4 := defParams s3 params.reverse
      let s5 ← compileNode body s4
      let s6 := emitOp s5 .OP_EXIT_SCOPE .none
      let (none_idx, s7) := addConst s6 Value.none
      let s8 := emitOp s7 .OP_CONST (.num none_idx)
      let s9 := emitOp s8 .OP_RETURN .none
      let s10 := { s9 with scope_depth := enclosing_scope_depth }
      let s11 ← patch_jump s10 jump_over_body_idx Option.none
      let func_obj := Value.fn "<lambda>" (params.length : Int) (some function_start_ip)
        Option.none
      let (func_const_idx, s12) := addConst s11 func_obj
      .ok (emitOp s12 .OP_CONST (.num func_const_idx))) := rfl

theorem compileNode_callExpr (callee : Ast) (arguments : List Ast)
    (keywords : List (String × Ast)) (s : CState) :
    compileNode (.callExpr callee arguments keywords) s = (do
      let s1 ← compileNode callee s
      let s2 ← compileMany arguments s1
      let s3 ← compileKwValues keywords s2
      if keywords.isEmpty then
        .ok (emitOp s3 .OP_CALL (.num arguments.length))
      else
        let kw_names := Value.list (keywords.map (fun kv => Value.str kv.1))
        let (kw_names_idx, s4) := addConst s3 kw_names
        let s5 := emitOp s4 .OP_CONST (.num kw_names_idx)
        let s6 := emitOp s5 .OP_BUILD_KWARGS (.num keywords.length)
        .ok (emitOp s6 .OP_CALL_KW (.pair arguments.length keywords.length))) := rfl

theorem compileNode_returnStmt_some (v : Ast) (s : CState) :
    compileNode (.returnStmt (some v)) s = (do
      let s1 ← compileNode v s
      .ok (emitOp s1 .OP_RETURN .none)) := rfl

theorem compileNode_returnStmt_none (s : CState) :
    compileNode (.returnStmt Option.none) s =
      (let s1 := emitOp (addConst s Value.none).2 .OP_CONST (.num (addConst s Value.none).1)
       .ok (emitOp s1 .OP_RETURN .none)) := rfl

theorem compileNode_indexExpr (collection index : Ast) (s : CState) :
    compileNode (.indexExpr collection index) s = (do
      let s1 ← compileNode collection s
      let s2 ← compileNode index s1
      .ok (emitOp s2 .OP_INDEX_GET .none)) := rfl

theorem compileNode_assignIndexStmt (collection index value : Ast) (s : CState) :
    compileNode (.assignIndexStmt collection index value) s = (do
      let s1 ← compileNode collection s
      let s2 ← compileNode index s1
      let s3 ← compileNode value s2
      .ok (emitOp s3 .OP_INDEX_SET .none)) := rfl

theorem compileNode_dotExpr (object : Ast) (attr : String) (s : CState) :
    compileNode (.dotExpr object attr) s = (do
      let s1 ← compileNode object s
      let (attr_name_idx, s2) := addConst s1 (.str attr)
      .ok (emitOp s2 .OP_GET_ATTR (.num attr_name_idx))) := rfl

theorem compileStmts_nil (s : CState) : compileStmts [] s = .ok s := rfl

theorem compileStmts_cons (stmt : Ast) (rest : List Ast) (s : CState) :
    compileStmts (stmt :: rest) s = (do
      let s1 ← compileNode stmt s
      compileStmts rest (if stmt.isExpr then emitOp s1 .OP_POP .none else s1)) := rfl

theorem compileMany_nil (s : CState) : compileMany [] s = .ok s := rfl

theorem compileMany_cons (e : Ast) (rest : List Ast) (s : CState) :
    compileMany (e :: rest) s = (do
      let s1 ← compileNode e s
      compileMany rest s1) := rfl

theorem compileKwValues_nil (s : CState) : compileKwValues [] s = .ok s := rfl

theorem compileKwValues_cons (k : String) (v : Ast) (rest : List (String × Ast)) (s : CState) :
    compileKwValues ((k, v) :: rest) s = (do
      let s1 ← compileNode v s
      compileKwValues rest s1) := rfl

/-! ### Every node compiled from depth ≥ 1 keeps the depth and emits no global definition -/


set_option maxHeartbeats 1600000

theorem depthUpd_depth (s : CState) (d : Nat) :
    ({ s with scope_depth := d }).scope_depth = d := rfl

theorem compile_ext_main :
    ∀ n : Nat,
      (∀ a : Ast, sizeOf a ≤ n → ∀ s s', compileNode a s = .ok s' → Step1 s s') ∧
      (∀ l : List Ast, sizeOf l ≤ n → ∀ s s', compileStmts l s = .ok s' → Step1 s s') ∧
      (∀ l : List Ast, sizeOf l ≤ n → ∀ s s', compileMany l s = .ok s' → Step1 s s') ∧
      (∀ l : List (String × Ast), sizeOf l ≤ n → ∀ s s',
          compileKwValues l s = .ok s' → Step1 s s') := by
  intro n
  induction n using Nat.strong_induction_on with
  | _ n ih =>
    have IHa : ∀ a : Ast, sizeOf a < n → ∀ s s', compileNode a s = .ok s' → Step1 s s' :=
      fun a h => (ih (sizeOf a) h).1 a (Nat.le_refl _)
    have IHs : ∀ l : List Ast, sizeOf l < n → ∀ s s', compileStmts l s = .ok s' → Step1 s s' :=
      fun l h => (ih (sizeOf l) h).2.1 l (Nat.le_refl _)
    have IHm : ∀ l : List Ast, sizeOf l < n → ∀ s s', compileMany l s = .ok s' → Step1 s s' :=
      fun l h => (ih (sizeOf l) h).2.2.1 l (Nat.le_refl _)
    have IHk : ∀ l : List (String × Ast), sizeOf l < n → ∀ s s',
        compileKwValues l s = .ok s' → Step1 s s' :=
      fun l h => (ih (sizeOf l) h).2.2.2 l (Nat.le_refl _)
    refine ⟨?_, ?_, ?_, ?_⟩
    · intro a hsize s s' h
      cases a with
      | number v =>
          rw [compileNode_number] at h
          cases h
          exact step1_trans (step1_addConst s _) (step1_emit_good _ _ _ rfl)
      | stringLit v =>
          rw [compileNode_stringLit] at h
          cases h
          exact step1_trans (step1_addConst s _) (step1_emit_good _ _ _ rfl)
      | boolean b =>
          rw [compileNode_boolean] at h
          cases h
          cases b
          · exact step1_emit_good _ _ _ rfl
          · exact step1_emit_good _ _ _ rfl
      | unaryOp op e =>
          simp at hsize
          cases op
          · rw [compileNode_unary_minus, bind_ok_iff] at h
            obtain ⟨s1, h1, h⟩ := h
            cases h
            exact step1_trans (IHa e (by omega) s s1 h1) (step1_emit_good _ _ _ rfl)
          · rw [compileNode_unary_not, bind_ok_iff] at h
            obtain ⟨s1, h1, h⟩ := h
            cases h
            exact step1_trans (IHa e (by omega) s s1 h1) (step1_emit_good _ _ _ rfl)
      | binaryOp l op r =>
          simp at hsize
          rw [compileNode_binaryOp, bind_ok_iff] at h
          obtain ⟨s1, h1, h⟩ := h
          rw [bind_ok_iff] at h
          obtain ⟨s2, h2, h⟩ := h
          cases h
          exact step1_trans (IHa l (by omega) s s1 h1)
            (step1_trans (IHa r (by omega) s1 s2 h2)
              (step1_emit_good _ _ _ (by cases op <;> rfl)))
      | logicalOp l op r =>
          simp at hsize
          cases op
          · rw [compileNode_logical_and, bind_ok_iff] at h
            obtain ⟨s1, h1, h⟩ := h
            rw [bind_ok_iff] at h
            obtain ⟨s2, h2, h⟩ := h
            cases h
            exact step1_trans (IHa l (by omega) s s1 h1)
              (step1_trans (IHa r (by omega) s1 s2 h2) (step1_emit_good _ _ _ rfl))
          · rw [compileNode_logical_or, bind_ok_iff] at h
            obtain ⟨s1, h1, h⟩ := h
            rw [bind_ok_iff] at h
            obtain ⟨s2, h2, h⟩ := h
            rw [bind_ok_iff] at h
            obtain ⟨s3, h3, h⟩ := h
            cases h
            exact step1_trans (IHa l (by omega) s s1 h1)
              (step1_trans (IHa l (by omega) s1 s2 h2)
                (step1_trans (IHa r (by omega) s2 s3 h3) (step1_emit_good _ _ _ rfl)))
      | comparisonOp l op r =>
          simp at hsize
          rw [compileNode_comparisonOp, bind_ok_iff] at h
          obtain ⟨s1, h1, h⟩ := h
          rw [bind_ok_iff] at h
          obtain ⟨s2, h2, h⟩ := h
          cases h
          exact step1_trans (IHa l (by omega) s s1 h1)
            (step1_trans (IHa r (by omega) s1 s2 h2)
              (step1_emit_good _ _ _ (by cases op <;> rfl)))
      | varDeclareStmt name init is_const =>
          simp at hsize
          cases init with
          | some e =>
              simp at hsize
              rw [compileNode_varDeclare_some, bind_ok_iff] at h
              obtain ⟨s1, h1, h⟩ := h
              have hs1 : Step1 s s1 := IHa e (by omega) s s1 h1
              simp only [addConst] at h
              split at h
              · cases h
                exact step1_trans hs1
                  (step1_constUpd_emit _ _ _ _ (by cases is_const <;> rfl))
              · cases h
                rename_i hdep
                refine ⟨?_, ?_⟩
                · simp [emitOp_depth, constUpd_depth, hs1.1]
                · intro hd
                  exfalso
                  have hdep2 : ¬ s1.scope_depth > 0 := by
                    simpa [constUpd_depth] using hdep
                  have h1d := hs1.1
                  omega
          | none =>
              rw [compileNode_varDeclare_none] at h
              simp only [addConst] at h
              split at h
              · cases h
                exact step1_trans (step1_constUpd_emit _ _ .OP_CONST _ rfl)
                  (step1_constUpd_emit _ _ _ _ (by cases is_const <;> rfl))
              · cases h
                rename_i hdep
                refine ⟨?_, ?_⟩
                · simp [emitOp_depth, constUpd_depth]
                · intro hd
                  exfalso
                  have hdep2 : ¬ s.scope_depth > 0 := by
                    simpa [constUpd_depth, emitOp_depth] using hdep
                  omega
      | assignStmt name value =>
          simp at hsize
          rw [compileNode_assignStmt, bind_ok_iff] at h
          obtain ⟨s1, h1, h⟩ := h
          simp only [addConst] at h
          split at h
          · cases h
            exact step1_trans (IHa value (by omega) s s1 h1)
              (step1_constUpd_emit _ _ _ _ rfl)
          · cases h
            exact step1_trans (IHa value (by omega) s s1 h1)
              (step1_constUpd_emit _ _ _ _ rfl)
      | variableExpr name =>
          rw [compileNode_variableExpr] at h
          simp only [addConst] at h
          split at h
          · cases h
            exact step1_constUpd_emit _ _ _ _ rfl
          · cases h
            exact step1_constUpd_emit _ _ _ _ rfl
      | ifStmt cond then_branch else_branch =>
          simp at hsize
          rw [compileNode_ifStmt, bind_ok_iff] at h
          obtain ⟨s1, h1, h⟩ := h
          simp only [emit_instruction] at h
          rw [bind_ok_iff] at h
          obtain ⟨s3, h3, h⟩ := h
          have hcond := IHa cond (by omega) s s1 h1
          have hthen := IHa then_branch (by omega) _ s3 h3
          have base : Step1 s s3 :=
            step1_trans hcond (step1_trans (step1_append_one s1 (Instruction.mk .OP_JUMP_IF_FALSE (.num 99999)) rfl) hthen)
          cases else_branch with
          | none => exact step1_trans base (patch_jump_cases h)
          | some els =>
              simp at hsize
              simp only [emit_instruction] at h
              rw [bind_ok_iff] at h
              obtain ⟨s5, h5, h⟩ := h
              rw [bind_ok_iff] at h
              obtain ⟨s6, h6, h⟩ := h
              have hels := IHa els (by omega) s5 s6 h6
              exact step1_trans base
                (step1_trans (step1_append_one s3 (Instruction.mk .OP_JUMP (.num 99999)) rfl)
                  (step1_trans (patch_jump_cases h5)
                    (step1_trans hels (patch_jump_cases h))))
      | block ht stmts =>
          simp at hsize
          rw [compileNode_block] at h
          cases ht with
          | false =>
              simp only [Bool.false_eq_true, if_false] at h
              exact IHs stmts (by omega) s s' h
          | true =>
              simp only [if_true] at h
              rw [bind_ok_iff] at h
              obtain ⟨s2, h2, h⟩ := h
              cases h
              have hs2 := IHs stmts (by omega) _ s2 h2
              have hdep2 : s2.scope_depth = s.scope_depth + 1 := by
                rw [hs2.1]; rfl
              refine ⟨?_, ?_⟩
              · simp [emitOp_depth, hdep2]
              · intro hd
                obtain ⟨new, he, hg⟩ := hs2.2 (by simp [emitOp_depth, depthUpd_depth])
                refine ⟨.OP_ENTER_SCOPE :: (new ++ [.OP_EXIT_SCOPE]), ?_, ?_⟩
                · simp only [chunkOps_depthUpd, chunkOps_emitOp, he]
                  simp [chunkOps_emitOp]
                · exact goodOps_cons rfl (goodOps_append hg (by decide))
      | whileStmt cond body =>
          simp at hsize
          rw [compileNode_whileStmt, bind_ok_iff] at h
          obtain ⟨s1, h1, h⟩ := h
          simp only [emit_instruction] at h
          rw [bind_ok_iff] at h
          obtain ⟨s3, h3, h⟩ := h
          rw [bind_ok_iff] at h
          obtain ⟨s6, h6, h⟩ := h
          cases h
          have hcond := IHa cond (by omega) _ s1 h1
          have hbody := IHa body (by omega) _ s3 h3
          have hpatch := patch_jump_cases h6
          refine step1_trans ?_ (step1_trans hcond
            (step1_trans ?_ (step1_trans hbody
              (step1_trans ?_ (step1_trans hpatch ?_)))))
          · exact step1_of_eq rfl rfl
          · exact step1_append_one s1 (Instruction.mk .OP_JUMP_IF_FALSE (.num 99999)) rfl
          · exact step1_trans (step1_patchList _ _ _) (step1_emit_good .OP_JUMP _ _ rfl)
          · exact step1_trans (step1_patchList _ _ _) (step1_of_eq rfl rfl)
      | forInStmt loop_variable iterable body =>
          simp at hsize
          rw [compileNode_forInStmt, bind_ok_iff] at h
          obtain ⟨s3, h3, h⟩ := h
          simp only [addConst, emit_instruction] at h
          rw [bind_ok_iff] at h
          obtain ⟨s11, h11, h⟩ := h
          rw [bind_ok_iff] at h
          obtain ⟨s15, h15, h⟩ := h
          cases h
          have hiter := IHa iterable (by omega) _ s3 h3
          have hbody := IHa body (by omega) _ s11 h11
          have hpj := patch_jump_parts h15
          have hiterd : s3.scope_depth = s.scope_depth + 1 := by
            rw [hiter.1]; rfl
          refine ⟨?_, ?_⟩
          · simp [loopsUpd_depth, emitOp_depth, patchList_depth, hpj.1, hbody.1,
              chunkUpd_depth, constUpd_depth, hiterd]
          · intro hd
            obtain ⟨newI, heI, hgI⟩ := hiter.2 (by simp [emitOp_depth, depthUpd_depth])
            obtain ⟨newB, heB, hgB⟩ := hbody.2 (by
              simp [emitOp_depth, chunkUpd_depth, constUpd_depth, hiterd])
            refine ⟨.OP_ENTER_SCOPE :: (newI ++
              ([.OP_ITER_NEW, .OP_CONST, .OP_DEF_LOCAL, .OP_ITER_NEXT_OR_JUMP,
                .OP_SET_LOCAL] ++ (newB ++ [.OP_JUMP, .OP_POP, .OP_EXIT_SCOPE]))), ?_, ?_⟩
            · simp only [chunkOps_mk_fields, chunkOps_mk_append, chunkOps_emitOp,
                patchList_chunkOps, hpj.2.1, chunkOps_append_one, chunkOps_constUpd,
                chunkOps_depthUpd, chunkOps_loopsUpd, heB, heI]
              try simp
            · exact goodOps_cons rfl (goodOps_append hgI
                (goodOps_append (by decide) (goodOps_append hgB (by decide))))
      | breakStmt =>
          rw [compileNode_breakStmt] at h
          split at h
          · cases h
          · cases h
            exact step1_trans (step1_append_one s (Instruction.mk .OP_JUMP (.num 99999)) rfl) (step1_of_eq rfl rfl)
      | continueStmt =>
          rw [compileNode_continueStmt] at h
          split at h
          · cases h
          · cases h
            exact step1_trans (step1_append_one s (Instruction.mk .OP_JUMP (.num 99999)) rfl) (step1_of_eq rfl rfl)
      | rangeSpecifier start stop step =>
          simp at hsize
          cases step with
          | some st =>
              simp at hsize
              rw [compileNode_rangeSpecifier_some, bind_ok_iff] at h
              obtain ⟨s1, h1, h⟩ := h
              rw [bind_ok_iff] at h
              obtain ⟨s2, h2, h⟩ := h
              rw [bind_ok_iff] at h
              obtain ⟨s3, h3, h⟩ := h
              cases h
              exact step1_trans (IHa start (by omega) s s1 h1)
                (step1_trans (IHa stop (by omega) s1 s2 h2)
                  (step1_trans (IHa st (by omega) s2 s3 h3)
                    (step1_emit_good _ _ _ rfl)))
          | none =>
              rw [compileNode_rangeSpecifier_none, bind_ok_iff] at h
              obtain ⟨s1, h1, h⟩ := h
              rw [bind_ok_iff] at h
              obtain ⟨s2, h2, h⟩ := h
              cases h
              exact step1_trans (IHa start (by omega) s s1 h1)
                (step1_trans (IHa stop (by omega) s1 s2 h2)
                  (step1_trans (step1_addConst s2 _)
                    (step1_trans (step1_emit_good .OP_CONST _ _ rfl)
                      (step1_emit_good _ _ _ rfl))))
      | arrayLiteral elements =>
          simp at hsize
          rw [compileNode_arrayLiteral, bind_ok_iff] at h
          obtain ⟨s1, h1, h⟩ := h
          cases h
          exact step1_trans (IHm elements (by omega) s s1 h1) (step1_emit_good _ _ _ rfl)
      | functionDefStmt name params body =>
          simp at hsize
          rw [compileNode_functionDefStmt] at h
          simp only [emit_instruction, addConst] at h
          rw [bind_ok_iff] at h
          obtain ⟨s5, h5, h⟩ := h
          rw [bind_ok_iff] at h
          obtain ⟨s11, h11, h⟩ := h
          have hbody := IHa body (by omega) _ s5 h5
          have hpj := patch_jump_parts h11
          have hb4d : (defParams (emitOp { s with bytecode_chunk := s.bytecode_chunk ++ [Instruction.mk .OP_JUMP (.num 99999)], scope_depth := s.scope_depth + 1 } .OP_ENTER_SCOPE .none)
              params.reverse).scope_depth = s.scope_depth + 1 := by
            simp [defParams_depth, emitOp_depth, depthUpd_depth, chunkUpd_depth]
          have hs5d : s5.scope_depth = s.scope_depth + 1 := by
            rw [hbody.1]; exact hb4d
          split at h
          · cases h
            rename_i hdep
            refine ⟨?_, ?_⟩
            · simp [emitOp_depth, constUpd_depth, hpj.1, depthUpd_depth, chunkUpd_depth]
            · intro hd
              obtain ⟨newP, heP, hgP⟩ := ext_defParams params.reverse
                (emitOp { s with bytecode_chunk := s.bytecode_chunk ++ [Instruction.mk .OP_JUMP (.num 99999)], scope_depth := s.scope_depth + 1 } .OP_ENTER_SCOPE .none)
              obtain ⟨newB, heB, hgB⟩ := hbody.2 (by rw [hb4d]; omega)
              refine ⟨.OP_JUMP :: .OP_ENTER_SCOPE :: (newP ++ (newB ++
                [.OP_EXIT_SCOPE, .OP_CONST, .OP_RETURN, .OP_CONST, .OP_DEF_LOCAL])), ?_, ?_⟩
              · simp only [chunkOps_mk_fields, chunkOps_mk_append, chunkOps_constUpd,
                  chunkOps_emitOp, chunkOps_depthUpd, hpj.2.1, heB, heP,
                  chunkOps_append_one]
                try simp
              · exact goodOps_cons rfl (goodOps_cons rfl
                  (goodOps_append hgP (goodOps_append hgB (by decide))))
          · cases h
            rename_i hdep
            refine ⟨?_, ?_⟩
            · simp [emitOp_depth, constUpd_depth, hpj.1, depthUpd_depth, chunkUpd_depth]
            · intro hd
              exfalso
              simp only [emitOp_depth, constUpd_depth, hpj.1, depthUpd_depth,
                chunkUpd_depth] at hdep
              omega
      | functionExpr params body =>
          simp at hsize
          rw [compileNode_functionExpr] at h
          simp only [emit_instruction, addConst] at h
          rw [bind_ok_iff] at h
          obtain ⟨s5, h5, h⟩ := h
          rw [bind_ok_iff] at h
          obtain ⟨s11, h11, h⟩ := h
          cases h
          have hbody := IHa body (by omega) _ s5 h5
          have hpj := patch_jump_parts h11
          have hb4d : (defParams (emitOp { s with bytecode_chunk := s.bytecode_chunk ++ [Instruction.mk .OP_JUMP (.num 99999)], scope_depth := s.scope_depth + 1 } .OP_ENTER_SCOPE .none)
              params.reverse).scope_depth = s.scope_depth + 1 := by
            simp [defParams_depth, emitOp_depth, depthUpd_depth, chunkUpd_depth]
          refine ⟨?_, ?_⟩
          · simp [emitOp_depth, constUpd_depth, hpj.1, depthUpd_depth, chunkUpd_depth]
          · intro hd
            obtain ⟨newP, heP, hgP⟩ := ext_defParams params.reverse
              (emitOp { s with bytecode_chunk := s.bytecode_chunk ++ [Instruction.mk .OP_JUMP (.num 99999)], scope_depth := s.scope_depth + 1 } .OP_ENTER_SCOPE .none)
            obtain ⟨newB, heB, hgB⟩ := hbody.2 (by rw [hb4d]; omega)
            refine ⟨.OP_JUMP :: .OP_ENTER_SCOPE :: (newP ++ (newB ++
              [.OP_EXIT_SCOPE, .OP_CONST, .OP_RETURN, .OP_CONST])), ?_, ?_⟩
            · simp only [chunkOps_mk_fields, chunkOps_mk_append, chunkOps_constUpd,
                chunkOps_emitOp, chunkOps_depthUpd, hpj.2.1, heB, heP,
                chunkOps_append_one]
              try simp
            · exact goodOps_cons rfl (goodOps_cons rfl
                (goodOps_append hgP (goodOps_append hgB (by decide))))
      | callExpr callee arguments keywords =>
          simp at hsize
          rw [compileNode_callExpr, bind_ok_iff] at h
          obtain ⟨s1, h1, h⟩ := h
          rw [bind_ok_iff] at h
          obtain ⟨s2, h2, h⟩ := h
          rw [bind_ok_iff] at h
          obtain ⟨s3, h3, h⟩ := h
          have base : Step1 s s3 :=
            step1_trans (IHa callee (by omega) s s1 h1)
              (step1_trans (IHm arguments (by omega) s1 s2 h2)
                (IHk keywords (by omega) s2 s3 h3))
          split at h
          · cases h
            exact step1_trans base (step1_emit_good _ _ _ rfl)
          · simp only [addConst] at h
            cases h
            exact step1_trans base
              (step1_trans (step1_constUpd_emit _ _ .OP_CONST _ rfl)
                (step1_trans (step1_emit_good .OP_BUILD_KWARGS _ _ rfl)
                  (step1_emit_good _ _ _ rfl)))
      | returnStmt value =>
          cases value with
          | some v =>
              simp at hsize
              rw [compileNode_returnStmt_some, bind_ok_iff] at h
              obtain ⟨s1, h1, h⟩ := h
              cases h
              exact step1_trans (IHa v (by omega) s s1 h1) (step1_emit_good _ _ _ rfl)
          | none =>
              rw [compileNode_returnStmt_none] at h
              cases h
              exact step1_trans (step1_addConst s _)
                (step1_trans (step1_emit_good .OP_CONST _ _ rfl)
                  (step1_emit_good _ _ _ rfl))
      | indexExpr collection index =>
          simp at hsize
          rw [compileNode_indexExpr, bind_ok_iff] at h
          obtain ⟨s1, h1, h⟩ := h
          rw [bind_ok_iff] at h
          obtain ⟨s2, h2, h⟩ := h
          cases h
          exact step1_trans (IHa collection (by omega) s s1 h1)
            (step1_trans (IHa index (by omega) s1 s2 h2) (step1_emit_good _ _ _ rfl))
      | assignIndexStmt collection index value =>
          simp at hsize
          rw [compileNode_assignIndexStmt, bind_ok_iff] at h
          obtain ⟨s1, h1, h⟩ := h
          rw [bind_ok_iff] at h
          obtain ⟨s2, h2, h⟩ := h
          rw [bind_ok_iff] at h
          obtain ⟨s3, h3, h⟩ := h
          cases h
          exact step1_trans (IHa collection (by omega) s s1 h1)
            (step1_trans (IHa index (by omega) s1 s2 h2)
              (step1_trans (IHa value (by omega) s2 s3 h3) (step1_emit_good _ _ _ rfl)))
      | dotExpr object attr =>
          simp at hsize
          rw [compileNode_dotExpr, bind_ok_iff] at h
          obtain ⟨s1, h1, h⟩ := h
          simp only [addConst] at h
          cases h
          exact step1_trans (IHa object (by omega) s s1 h1)
            (step1_constUpd_emit _ _ _ _ rfl)
    · intro l hsize s s' h
      cases l with
      | nil => rw [compileStmts_nil] at h; cases h; exact step1_refl s
      | cons stmt rest =>
          simp at hsize
          rw [compileStmts_cons, bind_ok_iff] at h
          obtain ⟨s1, h1, h⟩ := h
          have hstep : Step1 s s1 := IHa stmt (by omega) s s1 h1
          have hrest := IHs rest (by omega) _ s' h
          cases hpop : stmt.isExpr with
          | false =>
              rw [hpop] at hrest
              simp at hrest
              exact step1_trans hstep hrest
          | true =>
              rw [hpop] at hrest
              simp at hrest
              exact step1_trans hstep
                (step1_trans (step1_emit_good .OP_POP s1 .none rfl) hrest)
    · intro l hsize s s' h
      cases l with
      | nil => rw [compileMany_nil] at h; cases h; exact step1_refl s
      | cons e rest =>
          simp at hsize
          rw [compileMany_cons, bind_ok_iff] at h
          obtain ⟨s1, h1, h⟩ := h
          exact step1_trans (IHa e (by omega) s s1 h1) (IHm rest (by omega) s1 s' h)
    · intro l hsize s s' h
      cases l with
      | nil => rw [compileKwValues_nil] at h; cases h; exact step1_refl s
      | cons kv rest =>
          obtain ⟨k, v⟩ := kv
          simp at hsize
          rw [compileKwValues_cons, bind_ok_iff] at h
          obtain ⟨s1, h1, h⟩ := h
          exact step1_trans (IHa v (by omega) s s1 h1) (IHk rest (by omega) s1 s' h)


/-- Corollary of the main induction for a single node. -/
theorem compileNode_step1 {a : Ast} {s s' : CState} (h : compileNode a s = .ok s') :
    Step1 s s' :=
  (compile_ext_main (sizeOf a)).1 a (Nat.le_refl _) s s' h

/-- Compiling any node preserves the compiler's scope depth. -/
theorem compileNode_depth {a : Ast} {s s' : CState} (h : compileNode a s = .ok s') :
    s'.scope_depth = s.scope_depth :=
  (compileNode_step1 h).1

/-! ## Claim theorems -/

/-- C1 (counterexample): compiling and running the S1 program
(`let x = 2 + 3 * 4;` then the expression statement `x`) does NOT yield
final value 14: the run ends `Ok(None)`, because `visit_Block` emits
`OP_POP` after the expression statement and the top-level epilogue
returns the `None` constant. -/
theorem claim1_counterexample :
    (compileRun 100 s1prog).map Prod.fst = some (RunEnd.ok Value.none) ∧
    RunEnd.ok Value.none ≠ RunEnd.ok (Value.int 14) := by
  refine ⟨by decide, by decide⟩

/-- C2: `visit_LogicalOp` compiles the left operand of `or` twice: for
`true or false` it emits `[OP_TRUE, OP_TRUE, OP_FALSE, OP_OR]` rather
than the spec's `[OP_TRUE, OP_FALSE, OP_OR]`, and consequently the
statement `let y = true or false;` completes `Ok` with a stray value
left on the operand stack — violating the spec's own stack-discipline
invariant.  The duplicated `self._compile_node(node.left)` line is a
slip in the source. -/
theorem claim2_or_left_compiled_twice :
    compileNode (.logicalOp (.boolean true) .orK (.boolean false)) emptyCState =
      .ok { emptyCState with bytecode_chunk :=
        [Instruction.mk .OP_TRUE .none, Instruction.mk .OP_TRUE .none,
         Instruction.mk .OP_FALSE .none, Instruction.mk .OP_OR .none] } ∧
    (compileRun 100 orProg).map (fun rf => (rf.1, rf.2.stack)) =
      some (RunEnd.ok Value.none, [Value.bool true]) := by
  refine ⟨by rfl, by rfl⟩

/-- C3 (counterexample): the program `let a = [1, 2]; a[0] = 10;` is
well-typed and `interpret` returns `Ok`, yet the operand stack afterwards
is `[10]`, not empty: `AssignIndexStmt` derives from `Stmt`, not `Expr`,
so `visit_Block` emits no `OP_POP` after it, while `OP_INDEX_SET` pushes
the assigned value. -/
theorem claim3_counterexample :
    (compileRun 100 indexAssignProg).map
        (fun rf => (rf.1, rf.2.stack, rf.2.environments, rf.2.frames)) =
      some (RunEnd.ok Value.none, [Value.int 10], [], []) ∧
    ([Value.int 10] : List Value) ≠ [] := by
  refine ⟨by rfl, by decide⟩

/-- C3 (amended): the compiler emits `OP_POP` after a block statement
exactly when the statement is an `Expr` node; an index-assignment
statement is a `Stmt`, receives no `OP_POP`, and its compiled code ends
with `OP_INDEX_SET`, which leaves the assigned value on the operand
stack.  Consequently the claimed invariant fails on concrete runs:
`let a = [1, 2]; a[0] = 10;` completes `Ok` with the value 10 still on
the operand stack (its environment and call-frame stacks do end empty),
whereas the S1 program completes `Ok` with all three stacks empty.  No
program-wide all-empty-after-`Ok` invariant is asserted here: it does
not hold of the source in general (the `or` miscompilation of C2 also
strands a value on an `Ok` run). -/
theorem claim3_amended :
    (∀ (stmt : Ast) (rest : List Ast) (s : CState), stmt.isExpr = true →
      compileStmts (stmt :: rest) s =
        (compileNode stmt s) >>= fun s1 => compileStmts rest (emitOp s1 .OP_POP .none)) ∧
    (∀ (c i v : Ast) (s s' : CState),
      compileNode (.assignIndexStmt c i v) s = .ok s' →
      Ast.isExpr (.assignIndexStmt c i v) = false ∧
      ∃ pre, s'.bytecode_chunk = pre ++ [Instruction.mk .OP_INDEX_SET .none]) ∧
    ((compileRun 100 indexAssignProg).map
        (fun rf => (rf.1, rf.2.stack, rf.2.environments, rf.2.frames)) =
      some (RunEnd.ok Value.none, [Value.int 10], [], [])) ∧
    ((compileRun 100 s1prog).map
        (fun rf => (rf.1, rf.2.stack, rf.2.environments, rf.2.frames)) =
      some (RunEnd.ok Value.none, [], [], [])) := by
  refine ⟨?_, ?_, by rfl, by rfl⟩
  · intro stmt rest s hx
    rw [compileStmts_cons]
    simp [hx]
  · intro c i v s s' h
    refine ⟨rfl, ?_⟩
    rw [compileNode_assignIndexStmt, bind_ok_iff] at h
    obtain ⟨s1, h1, h⟩ := h
    rw [bind_ok_iff] at h
    obtain ⟨s2, h2, h⟩ := h
    rw [bind_ok_iff] at h
    obtain ⟨s3, h3, h⟩ := h
    cases h
    exact ⟨s3.bytecode_chunk, rfl⟩

/-- The compiler state produced by compiling `a[0] = 10;` at the fresh
compiler state, used to instantiate the C3 amended theorem. -/
def c3ws : CState :=
  { bytecode_chunk := [Instruction.mk .OP_GET_GLOBAL (.num 0),
      Instruction.mk .OP_CONST (.num 1), Instruction.mk .OP_CONST (.num 2),
      Instruction.mk .OP_INDEX_SET .none],
    constants := [.str "a", .int 0, .int 10], scope_depth := 0, loop_level := 0,
    loop_start_patches := [], loop_end_patches := [] }

/-- C3 (witness): the amended statement instantiated — the `OP_POP` rule
at a concrete expression statement, and the index-assignment shape at
the concrete statement `a[0] = 10`. -/
theorem claim3_witness :
    (Ast.isExpr (.variableExpr "x") = true ∧
      compileStmts [.variableExpr "x"] emptyCState =
        (compileNode (.variableExpr "x") emptyCState) >>= fun s1 =>
          compileStmts [] (emitOp s1 .OP_POP .none)) ∧
    (compileNode (.assignIndexStmt (.variableExpr "a") (.number (.int 0))
        (.number (.int 10))) emptyCState = .ok c3ws ∧
      (Ast.isExpr (.assignIndexStmt (.variableExpr "a") (.number (.int 0))
        (.number (.int 10))) = false ∧
       ∃ pre, c3ws.bytecode_chunk = pre ++ [Instruction.mk .OP_INDEX_SET .none])) :=
  ⟨⟨rfl, claim3_amended.1 (.variableExpr "x") [] emptyCState rfl⟩,
   rfl, claim3_amended.2.1 (.variableExpr "a") (.number (.int 0)) (.number (.int 10))
     emptyCState c3ws rfl⟩

/-- C4 (counterexample): executing `ITER_NEW` on the string `"ab"` — a
value that is neither a `List` nor a `Range` — pushes an iterator and
raises no error, because the VM calls host `iter()` and Python strings
are iterable. -/
theorem claim4_counterexample :
    step { bytecode_chunk := [Instruction.mk .OP_ITER_NEW .none], constants := [],
           ip := 0, stack := [.str "ab"], globals := [], environments := [],
           frames := [] } =
      .next { bytecode_chunk := [Instruction.mk .OP_ITER_NEW .none], constants := [],
              ip := 1, stack := [.iterator [.str "a", .str "b"]], globals := [],
              environments := [], frames := [] } ∧
    Value.isList (.str "ab") = false ∧ Value.isRange (.str "ab") = false := by
  refine ⟨by decide, by decide, by decide⟩

/-- C4 (amended): `ITER_NEW` pops the value `v` and pushes an iterator
over it whenever host `iter(v)` succeeds — for a List, a String
(yielding its characters), an existing iterator, a keyword dict
(yielding its keys), or a Range with integer fields and nonzero step.
For `Int`, `Float`, `Bool`, `None` and function values (and a Range
with non-integer fields) it yields the structured runtime type error;
a Range with zero step raises an uncaught host `ValueError`. -/
theorem claim4_amended (s : VmState) (v : Value) (rest : List Value) (arg : Operand)
    (hfetch : s.bytecode_chunk[s.ip]? = some (Instruction.mk .OP_ITER_NEW arg))
    (hstack : s.stack = v :: rest) :
    (step s = (match iterItems v with
      | .ok items => .next { s with ip := s.ip + 1, stack := .iterator items :: rest }
      | .notIterable => .done (.err "Type is not iterable.") { s with ip := s.ip + 1 }
      | .hostThrow msg => .done (.thrown msg) { s with ip := s.ip + 1 })) ∧
    (∀ xs, iterItems (.list xs) = .ok xs) ∧
    (∀ t, iterItems (.str t) = .ok (t.toList.map (fun ch => .str (String.mk [ch])))) ∧
    (∀ xs, iterItems (.iterator xs) = .ok xs) ∧
    (∀ a b c : Int, c ≠ 0 → iterItems (.range (.int a) (.int b) (.int c)) =
      .ok (rangeList a b c)) ∧
    (∀ a b : Int, iterItems (.range (.int a) (.int b) (.int 0)) =
      .hostThrow "ValueError: range() arg 3 must not be zero") ∧
    (∀ n : Int, iterItems (.int n) = .notIterable) ∧
    (∀ q : Rat, iterItems (.float q) = .notIterable) ∧
    (∀ b : Bool, iterItems (.bool b) = .notIterable) ∧
    (iterItems .none = .notIterable) ∧
    (∀ nm ar st na, iterItems (.fn nm ar st na) = .notIterable) := by
  refine ⟨?_, by intro xs; rfl, by intro t; rfl, by intro xs; rfl, ?_, ?_,
    by intro n; rfl, by intro q; rfl, by intro b; rfl, rfl, by intro nm ar st na; rfl⟩
  · cases hit : iterItems v with
    | ok items => simp [step, hfetch, hstack, hit]
    | notIterable => simp [step, hfetch, hstack, hit]
    | hostThrow msg => simp [step, hfetch, hstack, hit]
  · intro a b c hc
    simp [iterItems, asNumInt, hc]
  · intro a b
    simp [iterItems, asNumInt]

/-- C4 (witness): the amended theorem applied to a concrete `ITER_NEW`
step over the list `[1]`. -/
theorem claim4_witness :
    step { bytecode_chunk := [Instruction.mk .OP_ITER_NEW .none], constants := [],
           ip := 0, stack := [.list [.int 1]], globals := [], environments := [],
           frames := [] } =
      .next { bytecode_chunk := [Instruction.mk .OP_ITER_NEW .none], constants := [],
              ip := 1, stack := [.iterator [.int 1]], globals := [],
              environments := [], frames := [] } := by
  have h := (claim4_amended
    { bytecode_chunk := [Instruction.mk .OP_ITER_NEW .none], constants := [],
      ip := 0, stack := [.list [.int 1]], globals := [], environments := [],
      frames := [] } (.list [.int 1]) [] .none (by decide) (by decide)).1
  simpa using h

/-- C5 (counterexample): a `const` declaration compiled at scope depth 0
does NOT emit `OP_DEF_CONST_GLOBAL` as its only defining opcode: the
trailing `OP_DEF_GLOBAL` of `visit_VarDeclareStmt` sits outside the
const/non-const ternary, so `const k = 7;` compiles to
`[OP_CONST, OP_DEF_CONST_GLOBAL, OP_DEF_GLOBAL]`. -/
theorem claim5_counterexample :
    (compileNode (.varDeclareStmt "k" (some (.number (.int 7))) true) emptyCState).map
        (fun st => st.bytecode_chunk.map Instruction.opcode) =
      .ok [.OP_CONST, .OP_DEF_CONST_GLOBAL, .OP_DEF_GLOBAL] ∧
    OpCode.OP_DEF_GLOBAL ∈
      [OpCode.OP_CONST, OpCode.OP_DEF_CONST_GLOBAL, OpCode.OP_DEF_GLOBAL] := by
  refine ⟨by rfl, by decide⟩

/-- C5 (amended): when a variable declaration with an initializer is
compiled at scope depth 0, a non-const declaration emits `OP_DEF_GLOBAL`
twice back-to-back, and a const declaration emits `OP_DEF_CONST_GLOBAL`
followed by the same trailing `OP_DEF_GLOBAL` (both with the interned
name index). -/
theorem claim5_amended (s s' : CState) (name : String) (init : Ast) (is_const : Bool)
    (hd : s.scope_depth = 0)
    (h : compileNode (.varDeclareStmt name (some init) is_const) s = .ok s') :
    ∃ s1 idx, compileNode init s = .ok s1 ∧
      s'.bytecode_chunk = s1.bytecode_chunk ++
        [Instruction.mk (if is_const then .OP_DEF_CONST_GLOBAL else .OP_DEF_GLOBAL)
           (.num idx),
         Instruction.mk .OP_DEF_GLOBAL (.num idx)] := by
  rw [compileNode_varDeclare_some, bind_ok_iff] at h
  obtain ⟨s1, h1, h⟩ := h
  have hd1 : s1.scope_depth = 0 := (compileNode_depth h1).trans hd
  simp only [addConst] at h
  split at h
  · rename_i hdep
    exfalso
    omega
  · cases h
    refine ⟨s1, (add_constant s1.constants (.str name)).1, h1, ?_⟩
    simp [emitOp, emit_instruction]

/-- The compiler state produced by compiling `const k = 7;` at the fresh
compiler state, used to instantiate the C5 amended theorem. -/
def c5ws : CState :=
  { bytecode_chunk := [Instruction.mk .OP_CONST (.num 0),
      Instruction.mk .OP_DEF_CONST_GLOBAL (.num 1),
      Instruction.mk .OP_DEF_GLOBAL (.num 1)],
    constants := [.int 7, .str "k"], scope_depth := 0, loop_level := 0,
    loop_start_patches := [], loop_end_patches := [] }

/-- C5 (witness): the amended theorem applied to `const k = 7;` at the
fresh compiler state. -/
theorem claim5_witness :
    compileNode (.varDeclareStmt "k" (some (.number (.int 7))) true)
        emptyCState = .ok c5ws ∧
    ∃ s1 idx, compileNode (.number (.int 7)) emptyCState = .ok s1 ∧
      c5ws.bytecode_chunk = s1.bytecode_chunk ++
        [Instruction.mk .OP_DEF_CONST_GLOBAL (.num idx),
         Instruction.mk .OP_DEF_GLOBAL (.num idx)] :=
  ⟨rfl, claim5_amended emptyCState c5ws "k" (.number (.int 7)) true rfl rfl⟩

/-- C6: executing `OP_RETURN` with a non-empty call-frame stack pops the
top value as the return value, pops the frame, sets `ip` to the frame's
`return_ip`, pops environments until their count equals the frame's
`env_depth` (when at least `env_depth` environments were live), truncates
the operand stack to the frame's bottom-based `stack_slot`
(the spec's `stack_base`), and pushes the return value on top. -/
theorem claim6_return (s : VmState) (v : Value) (rest : List Value) (f : CallFrame)
    (fs : List CallFrame) (arg : Operand)
    (hfetch : s.bytecode_chunk[s.ip]? = some (Instruction.mk .OP_RETURN arg))
    (hstack : s.stack = v :: rest) (hframes : s.frames = f :: fs) :
    step s = .next { s with
      ip := f.return_ip,
      environments := truncateTo f.env_depth s.environments,
      stack := v :: truncateTo f.stack_slot rest,
      frames := fs } ∧
    (f.env_depth ≤ s.environments.length →
      (truncateTo f.env_depth s.environments).length = f.env_depth) ∧
    (f.stack_slot ≤ rest.length →
      (truncateTo f.stack_slot rest).length = f.stack_slot) := by
  refine ⟨?_, ?_, ?_⟩
  · simp [step, hfetch, hstack, hframes]
  · intro hle
    simp [truncateTo]
    omega
  · intro hle
    simp [truncateTo]
    omega

/-- C6 (witness): a concrete `OP_RETURN` step from a one-frame state:
the return value 7 is pushed back after the caller state is restored. -/
theorem claim6_witness :
    step { bytecode_chunk := [Instruction.mk .OP_RETURN .none], constants := [],
           ip := 0, stack := [.int 7, .int 9, .int 8],
           globals := [], environments := [[], []],
           frames := [⟨5, 1, 1⟩] } =
      .next { bytecode_chunk := [Instruction.mk .OP_RETURN .none], constants := [],
              ip := 5, stack := [.int 7, .int 8], globals := [],
              environments := [[]], frames := [] } ∧
    (truncateTo 1 ([[], []] : List Env)).length = 1 := by
  have h := claim6_return
    { bytecode_chunk := [Instruction.mk .OP_RETURN .none], constants := [],
      ip := 0, stack := [.int 7, .int 9, .int 8], globals := [],
      environments := [[], []], frames := [⟨5, 1, 1⟩] }
    (.int 7) [.int 9, .int 8] ⟨5, 1, 1⟩ [] .none (by decide) (by decide) (by decide)
  exact ⟨by simpa using h.1, h.2.1 (by decide)⟩

/-- A value with no numeric view has no integer-like view either. -/
theorem asNumInt_eq_none {v : Value} (h : asNum v = Option.none) :
    asNumInt v = Option.none := by
  cases v <;> simp_all [asNum, asNumInt]

/-- Host subtraction on any pair with a non-numeric operand raises
`TypeError` (shared helper for the C8 clauses). -/
theorem pySub_none (a b : Value)
    (h : asNum a = Option.none ∨ asNum b = Option.none) :
    pySub a b = .typeErr "TypeError: unsupported operand type(s) for -" := by
  rcases h with h | h <;> cases a <;> cases b <;>
    simp_all [pySub, arithNum, asNum, asNumInt]

/-- C8 (counterexample): `2 - "x"` does NOT produce a structured `Err`:
`OP_SUBTRACT` calls host `-` whose `TypeError` escapes `_run` (the
`thrown` outcome), and `"ab" * 2` does not require numeric operands at
all — `OP_MULTIPLY` succeeds with sequence repetition `"abab"`. -/
theorem claim8_counterexample :
    step { bytecode_chunk := [Instruction.mk .OP_SUBTRACT .none], constants := [],
           ip := 0, stack := [.str "x", .int 2], globals := [], environments := [],
           frames := [] } =
      .done (.thrown "TypeError: unsupported operand type(s) for -")
        { bytecode_chunk := [Instruction.mk .OP_SUBTRACT .none], constants := [],
          ip := 1, stack := [.str "x", .int 2], globals := [], environments := [],
          frames := [] } ∧
    step { bytecode_chunk := [Instruction.mk .OP_MULTIPLY .none], constants := [],
           ip := 0, stack := [.int 2, .str "ab"], globals := [], environments := [],
           frames := [] } =
      .next { bytecode_chunk := [Instruction.mk .OP_MULTIPLY .none], constants := [],
              ip := 1, stack := [.str "abab"], globals := [], environments := [],
              frames := [] } := by
  refine ⟨by decide, by decide⟩

/-- C8 (amended): `NEGATE` checks its operand and yields a structured
`Err` on non-numbers; `SUBTRACT` with a non-numeric operand instead
raises a host `TypeError` that escapes the interpreter loop (`thrown`,
not `Err`); `MULTIPLY` also accepts `str * int` sequence repetition;
`DIVIDE` on numeric operands with a right operand not `==`-equal to 0
always yields a `float`; and `DIVIDE` or `MODULO` with a right operand
`==`-equal to 0 (so also `0.0` and `False`) is a structured `Err`. -/
theorem claim8_amended :
    (∀ (s : VmState) (v : Value) (rest : List Value) (arg : Operand),
      s.bytecode_chunk[s.ip]? = some (Instruction.mk .OP_NEGATE arg) →
      s.stack = v :: rest → asNum v = Option.none →
      step s = .done (.err "Operand for '-' must be a number.")
        { s with ip := s.ip + 1 }) ∧
    (∀ a b : Value, (asNum a = Option.none ∨ asNum b = Option.none) →
      pySub a b = .typeErr "TypeError: unsupported operand type(s) for -") ∧
    (∀ (s : VmState) (l r : Value) (rest : List Value) (arg : Operand),
      s.bytecode_chunk[s.ip]? = some (Instruction.mk .OP_SUBTRACT arg) →
      s.stack = r :: l :: rest →
      (asNum l = Option.none ∨ asNum r = Option.none) →
      step s = .done (.thrown "TypeError: unsupported operand type(s) for -")
        { s with ip := s.ip + 1 }) ∧
    (∀ (s : VmState) (t : String) (n : Int) (rest : List Value) (arg : Operand),
      s.bytecode_chunk[s.ip]? = some (Instruction.mk .OP_MULTIPLY arg) →
      s.stack = .int n :: .str t :: rest →
      step s = .next { s with ip := s.ip + 1,
                              stack := .str (repeatStr t n) :: rest }) ∧
    (∀ (s : VmState) (l r : Value) (x y : Rat) (xi yi : Bool) (rest : List Value)
        (arg : Operand),
      s.bytecode_chunk[s.ip]? = some (Instruction.mk .OP_DIVIDE arg) →
      s.stack = r :: l :: rest → asNum l = some (x, xi) → asNum r = some (y, yi) →
      pyEq r (.int 0) = false →
      step s = .next { s with ip := s.ip + 1, stack := .float (x / y) :: rest }) ∧
    (∀ (s : VmState) (l r : Value) (rest : List Value) (arg : Operand),
      s.bytecode_chunk[s.ip]? = some (Instruction.mk .OP_DIVIDE arg) →
      s.stack = r :: l :: rest → pyEq r (.int 0) = true →
      step s = .done (.err "Division by zero.") { s with ip := s.ip + 1 }) ∧
    (∀ (s : VmState) (l r : Value) (rest : List Value) (arg : Operand),
      s.bytecode_chunk[s.ip]? = some (Instruction.mk .OP_MODULO arg) →
      s.stack = r :: l :: rest → pyEq r (.int 0) = true →
      step s = .done (.err "Modulo by zero.") { s with ip := s.ip + 1 }) := by
  refine ⟨?_, pySub_none, ?_, ?_, ?_, ?_, ?_⟩
  · intro s v rest arg hfetch hstack hnum
    cases v with
    | int n => simp [asNum] at hnum
    | float q => simp [asNum] at hnum
    | bool b => simp [asNum] at hnum
    | str t => simp [step, hfetch, hstack]
    | none => simp [step, hfetch, hstack]
    | list xs => simp [step, hfetch, hstack]
    | range a b c => simp [step, hfetch, hstack]
    | iterator xs => simp [step, hfetch, hstack]
    | fn nm ar st na => simp [step, hfetch, hstack]
    | kwdict es => simp [step, hfetch, hstack]
  · intro s l r rest arg hfetch hstack hn
    simp [step, hfetch, hstack, pySub_none l r hn]
  · intro s t n rest arg hfetch hstack
    simp [step, hfetch, hstack, pyMul, arithNum, asNumInt, asNum]
  · intro s l r x y xi yi rest arg hfetch hstack ha hb hz
    simp [step, hfetch, hstack, hz, pyDiv, ha, hb]
  · intro s l r rest arg hfetch hstack hz
    simp [step, hfetch, hstack, hz]
  · intro s l r rest arg hfetch hstack hz
    simp [step, hfetch, hstack, hz]

/-- Values equal under `pyEq` have equal `Key`s. -/
theorem pyKey_eq_of_pyEq {v w : Value} (h : pyEq v w = true) : pyKey v = pyKey w :=
  of_decide_eq_true h

/-- `pyEq` is a congruence in its right argument. -/
theorem pyEq_congr_right {v w : Value} (h : pyEq v w = true) (c : Value) :
    pyEq c v = pyEq c w := by
  show (pyKey c == pyKey v) = (pyKey c == pyKey w)
  rw [pyKey_eq_of_pyEq h]

/-- Only a list compares `==`-equal to a list (Python `[..] == v` holds
for list `v` only), so `add_constant`'s list pre-scan finds the same first
index as a plain equality scan. -/
theorem isList_of_pyEq_list {c : Value} {xs : List Value}
    (h : pyEq c (.list xs) = true) : c.isList = true := by
  have hk : pyKey c = Key.list (pyKeyList xs) := pyKey_eq_of_pyEq h
  cases c <;> simp_all [pyKey, Value.isList]

/-- The two-stage `add_constant` (list pre-scan, then `list.index`)
coincides with a single first-`==`-equal-index scan. -/
theorem add_constant_simple (cs : List Value) (v : Value) :
    add_constant cs v = (match cs.findIdx? (fun c => pyEq c v) with
      | some i => (i, cs)
      | Option.none => (cs.length, cs ++ [v])) := by
  cases v with
  | list xs =>
    have hp : (fun c => c.isList && pyEq c (Value.list xs)) =
        (fun c => pyEq c (Value.list xs)) := by
      funext c
      cases hc : pyEq c (Value.list xs) with
      | true => simp [isList_of_pyEq_list hc, hc]
      | false => simp [hc]
    cases hidx : cs.findIdx? (fun c => pyEq c (Value.list xs)) with
    | some i => simp [add_constant, hp, hidx]
    | none => simp [add_constant, hp, hidx]
  | int n => rfl
  | float q => rfl
  | bool b => rfl
  | str t => rfl
  | none => rfl
  | range a b c => rfl
  | iterator l => rfl
  | fn nm ar st na => rfl
  | kwdict es => rfl

theorem findIdx?_start_append {α : Type} (p : α → Bool) (l : List α) (v : α)
    (post : List α) (hv : p v = true) :
    ∀ i, l.findIdx? p i = Option.none →
      (l ++ v :: post).findIdx? p i = some (i + l.length) := by
  induction l with
  | nil =>
    intro i _
    simp [List.findIdx?_cons, hv]
  | cons x xs ih =>
    intro i hl
    rw [List.findIdx?_cons] at hl
    rw [List.cons_append, List.findIdx?_cons]
    cases hx : p x with
    | true => simp [hx] at hl
    | false =>
      simp only [hx, if_false] at hl ⊢
      rw [ih (i + 1) hl]
      simp
      omega

/-- Appending an element satisfying `p` behind a `p`-free prefix puts the
first `p`-hit at the prefix's length. -/
theorem findIdx?_append_first {α : Type} {p : α → Bool} {l : List α}
    (hl : l.findIdx? p = Option.none) {v : α} (hv : p v = true) (post : List α) :
    (l ++ v :: post).findIdx? p = some l.length := by
  have h := findIdx?_start_append p l v post hv 0 hl
  simpa using h

/-- C7: `add_constant` is idempotent — it returns the index of the first
existing pool entry `==`-equal to the value if one exists (pool
unchanged) and otherwise appends, and two calls with `==`-equal values
return the same index and leave the pool identical (in particular at the
same length). -/
theorem claim7_add_constant_idempotent :
    (∀ (cs : List Value) (v : Value) (i : Nat),
      cs.findIdx? (fun c => pyEq c v) = some i →
      add_constant cs v = (i, cs)) ∧
    (∀ (cs : List Value) (v : Value),
      cs.findIdx? (fun c => pyEq c v) = Option.none →
      add_constant cs v = (cs.length, cs ++ [v])) ∧
    (∀ (cs : List Value) (v w : Value), pyEq v w = true →
      add_constant (add_constant cs v).2 w =
        ((add_constant cs v).1, (add_constant cs v).2)) := by
  refine ⟨?_, ?_, ?_⟩
  · intro cs v i h
    rw [add_constant_simple, h]
  · intro cs v h
    rw [add_constant_simple, h]
  · intro cs v w hvw
    have hp : (fun c => pyEq c w) = (fun c => pyEq c v) :=
      funext fun c => (pyEq_congr_right hvw c).symm
    cases hidx : cs.findIdx? (fun c => pyEq c v) with
    | some i =>
      have h1 : add_constant cs v = (i, cs) := by rw [add_constant_simple, hidx]
      have h2 : add_constant cs w = (i, cs) := by rw [add_constant_simple, hp, hidx]
      rw [h1]
      exact h2
    | none =>
      have h1 : add_constant cs v = (cs.length, cs ++ [v]) := by
        rw [add_constant_simple, hidx]
      have hcs : cs.findIdx? (fun c => pyEq c w) = Option.none := by rw [hp, hidx]
      have hidx2 : (cs ++ [v]).findIdx? (fun c => pyEq c w) = some cs.length :=
        findIdx?_append_first hcs hvw []
      have h2 : add_constant (cs ++ [v]) w = (cs.length, cs ++ [v]) := by
        rw [add_constant_simple, hidx2]
      rw [h1]
      exact h2

/-- C7 (witness): the three clauses at concrete pools — a hit returns the
existing index, a miss appends, and a repeated insertion of `5` returns
the first call's index with the pool unchanged. -/
theorem claim7_witness :
    add_constant [Value.str "x", Value.int 5] (Value.int 5) =
      (1, [Value.str "x", Value.int 5]) ∧
    add_constant [Value.str "x"] (Value.int 5) =
      (1, [Value.str "x", Value.int 5]) ∧
    add_constant (add_constant [Value.str "x"] (Value.int 5)).2 (Value.int 5) =
      ((add_constant [Value.str "x"] (Value.int 5)).1,
       (add_constant [Value.str "x"] (Value.int 5)).2) :=
  ⟨claim7_add_constant_idempotent.1 _ _ 1 (by decide),
   claim7_add_constant_idempotent.2.1 _ _ (by decide),
   claim7_add_constant_idempotent.2.2 _ _ _ (by decide)⟩

/-- C10: constant deduplication identifies numerically equal constants of
different types — `1 == 1.0 == True` in the value model, so when the
first pool entry `==`-equal to `1` is the integer `1`, `add_constant`
of `1.0` (and of `True`) returns that integer entry's index and appends
nothing; compiling `let a = 1; let b = 1.0;` makes both `OP_CONST`
instructions reference constant index 0, the integer `1`, and the pool
holds no float. -/
theorem claim10_numeric_collapse :
    (pyEq (Value.int 1) (Value.float 1) = true ∧
     pyEq (Value.int 1) (Value.bool true) = true) ∧
    (∀ (pre post : List Value),
      pre.findIdx? (fun c => pyEq c (Value.int 1)) = Option.none →
      add_constant (pre ++ Value.int 1 :: post) (Value.float 1) =
        (pre.length, pre ++ Value.int 1 :: post) ∧
      add_constant (pre ++ Value.int 1 :: post) (Value.bool true) =
        (pre.length, pre ++ Value.int 1 :: post)) ∧
    ((compileStmts [.varDeclareStmt "a" (some (.number (.int 1))) false,
                    .varDeclareStmt "b" (some (.number (.float 1))) false]
        emptyCState).map (fun st => (st.bytecode_chunk, st.constants)) =
      .ok ([Instruction.mk .OP_CONST (.num 0),
            Instruction.mk .OP_DEF_GLOBAL (.num 1),
            Instruction.mk .OP_DEF_GLOBAL (.num 1),
            Instruction.mk .OP_CONST (.num 0),
            Instruction.mk .OP_DEF_GLOBAL (.num 2),
            Instruction.mk .OP_DEF_GLOBAL (.num 2)],
           [Value.int 1, Value.str "a", Value.str "b"])) := by
  refine ⟨⟨by decide, by decide⟩, ?_, by rfl⟩
  intro pre post hpre
  have h1 : pyEq (Value.int 1) (Value.float 1) = true := by decide
  have h2 : pyEq (Value.int 1) (Value.bool true) = true := by decide
  constructor
  · have hp : (fun c => pyEq c (Value.float 1)) =
        (fun c => pyEq c (Value.int 1)) :=
      funext fun c => (pyEq_congr_right h1 c).symm
    have hidx : (pre ++ Value.int 1 :: post).findIdx?
        (fun c => pyEq c (Value.float 1)) = some pre.length := by
      rw [hp]
      exact findIdx?_append_first hpre (by decide) post
    rw [add_constant_simple, hidx]
  · have hp : (fun c => pyEq c (Value.bool true)) =
        (fun c => pyEq c (Value.int 1)) :=
      funext fun c => (pyEq_congr_right h2 c).symm
    have hidx : (pre ++ Value.int 1 :: post).findIdx?
        (fun c => pyEq c (Value.bool true)) = some pre.length := by
      rw [hp]
      exact findIdx?_append_first hpre (by decide) post
    rw [add_constant_simple, hidx]

/-- C10 (witness): with pool `["a", 1]`, inserting `1.0` or `True`
returns index 1 and leaves the pool unchanged. -/
theorem claim10_witness :
    add_constant [Value.str "a", Value.int 1] (Value.float 1) =
      (1, [Value.str "a", Value.int 1]) ∧
    add_constant [Value.str "a", Value.int 1] (Value.bool true) =
      (1, [Value.str "a", Value.int 1]) := by
  have h := claim10_numeric_collapse.2.1 [Value.str "a"] [] (by decide)
  simpa using h


/-! ## Chunk-prefix and patch-integrity preservation (towards C9) -/

/-- Pointwise extension of loop-patch frame stacks: every frame may gain
new trailing entries, all of them at least `n`. -/
inductive FramesExt (n : Nat) : List (List Nat) → List (List Nat) → Prop where
  | nil : FramesExt n [] []
  | cons {f add : List Nat} {fs fs' : List (List Nat)} :
      (∀ i ∈ add, n ≤ i) → FramesExt n fs fs' →
      FramesExt n (f :: fs) ((f ++ add) :: fs')

theorem framesExt_refl (n : Nat) : ∀ l, FramesExt n l l
  | [] => .nil
  | f :: fs => by
      have h := @FramesExt.cons n f [] fs fs (by simp) (framesExt_refl n fs)
      simpa using h

theorem framesExt_trans {n m : Nat} (hnm : n ≤ m) :
    ∀ {l1 l2 l3 : List (List Nat)},
      FramesExt n l1 l2 → FramesExt m l2 l3 → FramesExt n l1 l3 := by
  intro l1 l2 l3 h1
  induction h1 generalizing l3 with
  | nil =>
      intro h2
      cases h2
      exact .nil
  | cons hadd hfs ih =>
      intro h2
      cases h2 with
      | cons hadd2 hfs2 =>
          rename_i f add fs fs' add2 fs''
          have hres := @FramesExt.cons n f (add ++ add2) fs fs'' ?_ (ih hfs2)
          · simpa [List.append_assoc] using hres
          · intro i hi
            rcases List.mem_append.mp hi with h | h
            · exact hadd i h
            · exact Nat.le_trans hnm (hadd2 i h)

theorem framesExt_pushPatch (n i : Nat) (l : List (List Nat)) (hni : n ≤ i) :
    FramesExt n l (pushPatch l i) := by
  cases l with
  | nil => exact .nil
  | cons f fs => exact .cons (by simpa using hni) (framesExt_refl n fs)

/-- Everything a sub-compilation preserves about the chunk and the pool:
the chunk only grows, entries below the entry length are untouched (no
emit or patch ever writes there), and the constants pool is only
appended to. -/
def KeepsCore (s s' : CState) : Prop :=
  s.bytecode_chunk.length ≤ s'.bytecode_chunk.length ∧
  (∀ i, i < s.bytecode_chunk.length →
    s'.bytecode_chunk.get? i = s.bytecode_chunk.get? i) ∧
  s.constants <+: s'.constants

/-- `KeepsCore` plus patch-list integrity: the loop patch stacks keep
their frames, gaining only indices at or above the entry length. -/
def Keeps (s s' : CState) : Prop :=
  KeepsCore s s' ∧
  FramesExt s.bytecode_chunk.length s.loop_start_patches s'.loop_start_patches ∧
  FramesExt s.bytecode_chunk.length s.loop_end_patches s'.loop_end_patches

theorem keepsCore_refl (s : CState) : KeepsCore s s :=
  ⟨Nat.le_refl _, fun _ _ => rfl, List.prefix_refl _⟩

theorem keepsCore_trans {s1 s2 s3 : CState} (h1 : KeepsCore s1 s2)
    (h2 : KeepsCore s2 s3) : KeepsCore s1 s3 :=
  ⟨Nat.le_trans h1.1 h2.1,
   fun i hi => ((h2.2.1 i (Nat.lt_of_lt_of_le hi h1.1)).trans (h1.2.1 i hi)),
   h1.2.2.trans h2.2.2⟩

theorem keeps_refl (s : CState) : Keeps s s :=
  ⟨keepsCore_refl s, framesExt_refl _ _, framesExt_refl _ _⟩

theorem keeps_trans {s1 s2 s3 : CState} (h1 : Keeps s1 s2) (h2 : Keeps s2 s3) :
    Keeps s1 s3 :=
  ⟨keepsCore_trans h1.1 h2.1,
   framesExt_trans h1.1.1 h1.2.1 h2.2.1,
   framesExt_trans h1.1.1 h1.2.2 h2.2.2⟩

theorem keeps_of_parts (s s' : CState) (hc : s'.bytecode_chunk = s.bytecode_chunk)
    (hk : s.constants <+: s'.constants)
    (hs : s'.loop_start_patches = s.loop_start_patches)
    (he : s'.loop_end_patches = s.loop_end_patches) : Keeps s s' :=
  ⟨⟨by rw [hc], fun i _ => by rw [hc], hk⟩,
   by rw [hs]; exact framesExt_refl _ _,
   by rw [he]; exact framesExt_refl _ _⟩

theorem add_constant_extends (cs : List Value) (v : Value) :
    cs <+: (add_constant cs v).2 := by
  rw [add_constant_simple]
  cases cs.findIdx? (fun c => pyEq c v) with
  | some i => exact List.prefix_refl _
  | none => exact ⟨[v], rfl⟩

theorem keeps_addConst (s : CState) (v : Value) : Keeps s (addConst s v).2 :=
  keeps_of_parts s (addConst s v).2 rfl (add_constant_extends _ _) rfl rfl

theorem keeps_chunk_append (s : CState) (l : List Instruction) :
    Keeps s { s with bytecode_chunk := s.bytecode_chunk ++ l } := by
  refine ⟨⟨by simp, fun i hi => ?_, List.prefix_refl _⟩,
    framesExt_refl _ _, framesExt_refl _ _⟩
  simp [List.getElem?_append_left hi]

theorem keeps_emitOp (s : CState) (op : OpCode) (arg : Operand) :
    Keeps s (emitOp s op arg) :=
  keeps_chunk_append s [⟨op, arg⟩]

theorem keeps_append_one (s : CState) (ins : Instruction) :
    Keeps s { s with bytecode_chunk := s.bytecode_chunk ++ [ins] } :=
  keeps_chunk_append s [ins]

theorem keeps_constUpd_emit (s : CState) (v : Value) (op : OpCode) (arg : Operand) :
    Keeps s (emitOp { s with constants := (add_constant s.constants v).2 } op arg) :=
  keeps_trans (keeps_of_parts s { s with constants := (add_constant s.constants v).2 } rfl (add_constant_extends _ _) rfl rfl)
    (keeps_emitOp _ op arg)

theorem keeps_constUpd (s : CState) (v : Value) :
    Keeps s { s with constants := (add_constant s.constants v).2 } :=
  keeps_of_parts s { s with constants := (add_constant s.constants v).2 } rfl
    (add_constant_extends _ _) rfl rfl

theorem setOperand_parts (s : CState) (i target : Nat) :
    (setOperand s i target).bytecode_chunk.length = s.bytecode_chunk.length ∧
    (∀ j, j ≠ i → (setOperand s i target).bytecode_chunk.get? j =
      s.bytecode_chunk.get? j) ∧
    (setOperand s i target).constants = s.constants ∧
    (setOperand s i target).loop_start_patches = s.loop_start_patches ∧
    (setOperand s i target).loop_end_patches = s.loop_end_patches := by
  unfold setOperand
  cases hg : s.bytecode_chunk.get? i with
  | none => exact ⟨rfl, fun _ _ => rfl, rfl, rfl, rfl⟩
  | some ins =>
      refine ⟨by simp, fun j hj => ?_, rfl, rfl, rfl⟩
      simp [List.getElem?_set_ne (fun he => hj he.symm)]

theorem keeps_setOperand_ge {s s1 : CState} (h : Keeps s s1) (i target : Nat)
    (hi : s.bytecode_chunk.length ≤ i) : Keeps s (setOperand s1 i target) := by
  obtain ⟨hp1, hp2, hp3, hp4, hp5⟩ := setOperand_parts s1 i target
  have hlen := h.1.1
  refine ⟨⟨by omega, fun j hj => ?_, by rw [hp3]; exact h.1.2.2⟩,
    by rw [hp4]; exact h.2.1, by rw [hp5]; exact h.2.2⟩
  · rw [hp2 j (by omega), h.1.2.1 j hj]

theorem keeps_patchList_ge {s s1 : CState} (h : Keeps s s1) {idxs : List Nat}
    (hi : ∀ i ∈ idxs, s.bytecode_chunk.length ≤ i) (target : Nat) :
    Keeps s (patchList s1 idxs target) := by
  induction idxs generalizing s1 with
  | nil => exact h
  | cons i rest ih =>
      have h1 : Keeps s (setOperand s1 i target) :=
        keeps_setOperand_ge h i target (hi i (by simp))
      have h2 := ih h1 (fun j hj => hi j (by simp [hj]))
      simpa [patchList] using h2

theorem patch_jump_more {s s' : CState} {i : Nat} {t : Option Nat}
    (h : patch_jump s i t = .ok s') :
    s'.bytecode_chunk.length = s.bytecode_chunk.length ∧
    (∀ j, j ≠ i → s'.bytecode_chunk.get? j = s.bytecode_chunk.get? j) ∧
    s'.constants = s.constants ∧
    s'.loop_start_patches = s.loop_start_patches ∧
    s'.loop_end_patches = s.loop_end_patches := by
  unfold patch_jump at h
  cases hg : s.bytecode_chunk.get? i with
  | none => rw [hg] at h; cases h
  | some ins =>
      rw [hg] at h
      cases h
      refine ⟨by simp, fun j hj => ?_, rfl, rfl, rfl⟩
      simp [List.getElem?_set_ne (fun he => hj he.symm)]

theorem keeps_patch_ge {s s1 s2 : CState} {i : Nat} {t : Option Nat}
    (h : Keeps s s1) (hp : patch_jump s1 i t = .ok s2)
    (hi : s.bytecode_chunk.length ≤ i) : Keeps s s2 := by
  obtain ⟨hp1, hp2, hp3, hp4, hp5⟩ := patch_jump_more hp
  have hlen := h.1.1
  refine ⟨⟨by omega, fun j hj => ?_, by rw [hp3]; exact h.1.2.2⟩,
    by rw [hp4]; exact h.2.1, by rw [hp5]; exact h.2.2⟩
  · rw [hp2 j (by omega), h.1.2.1 j hj]

theorem keeps_defParams (ps : List String) :
    ∀ s : CState, Keeps s (defParams s ps) := by
  induction ps with
  | nil => intro s; exact keeps_refl s
  | cons p rest ih =>
      intro s
      have h1 : Keeps s (emitOp (addConst s (.str p)).2 .OP_DEF_LOCAL
          (.num (addConst s (.str p)).1)) :=
        keeps_trans (keeps_addConst s _) (keeps_emitOp _ _ _)
      exact keeps_trans h1 (by simpa [defParams] using ih _)


theorem emitOp_constants (s : CState) (op : OpCode) (arg : Operand) :
    (emitOp s op arg).constants = s.constants := rfl

theorem emitOp_start (s : CState) (op : OpCode) (arg : Operand) :
    (emitOp s op arg).loop_start_patches = s.loop_start_patches := rfl

theorem emitOp_end (s : CState) (op : OpCode) (arg : Operand) :
    (emitOp s op arg).loop_end_patches = s.loop_end_patches := rfl

theorem patchList_start (idxs : List Nat) (target : Nat) :
    ∀ s : CState, (patchList s idxs target).loop_start_patches = s.loop_start_patches := by
  induction idxs with
  | nil => intro s; rfl
  | cons i rest ih =>
      intro s
      have h := (setOperand_parts s i target).2.2.2.1
      simpa [patchList, h] using ih (setOperand s i target)

theorem patchList_end (idxs : List Nat) (target : Nat) :
    ∀ s : CState, (patchList s idxs target).loop_end_patches = s.loop_end_patches := by
  induction idxs with
  | nil => intro s; rfl
  | cons i rest ih =>
      intro s
      have h := (setOperand_parts s i target).2.2.2.2
      simpa [patchList, h] using ih (setOperand s i target)

theorem framesExt_cons_inv {n : Nat} {f : List Nat} {fs l' : List (List Nat)}
    (h : FramesExt n (f :: fs) l') :
    ∃ add fs', l' = (f ++ add) :: fs' ∧ (∀ i ∈ add, n ≤ i) ∧ FramesExt n fs fs' := by
  cases h
  exact ⟨_, _, rfl, by assumption, by assumption⟩

theorem keeps_depthUpd (s : CState) (d : Nat) : Keeps s { s with scope_depth := d } :=
  keeps_of_parts s { s with scope_depth := d } rfl (List.prefix_refl _) rfl rfl

theorem keeps_chunk_append_depth (s : CState) (l : List Instruction) (d : Nat) :
    Keeps s { s with bytecode_chunk := s.bytecode_chunk ++ l, scope_depth := d } := by
  refine ⟨⟨by simp, fun i hi => ?_, List.prefix_refl _⟩,
    framesExt_refl _ _, framesExt_refl _ _⟩
  simp [List.getElem?_append_left hi]

set_option maxHeartbeats 1600000 in
theorem keeps_main :
    ∀ n : Nat,
      (∀ a : Ast, sizeOf a ≤ n → ∀ s s', compileNode a s = .ok s' → Keeps s s') ∧
      (∀ l : List Ast, sizeOf l ≤ n → ∀ s s', compileStmts l s = .ok s' → Keeps s s') ∧
      (∀ l : List Ast, sizeOf l ≤ n → ∀ s s', compileMany l s = .ok s' → Keeps s s') ∧
      (∀ l : List (String × Ast), sizeOf l ≤ n → ∀ s s',
          compileKwValues l s = .ok s' → Keeps s s') := by
  intro n
  induction n using Nat.strong_induction_on with
  | _ n ih =>
    have IHa : ∀ a : Ast, sizeOf a < n → ∀ s s', compileNode a s = .ok s' → Keeps s s' :=
      fun a h => (ih (sizeOf a) h).1 a (Nat.le_refl _)
    have IHs : ∀ l : List Ast, sizeOf l < n → ∀ s s', compileStmts l s = .ok s' → Keeps s s' :=
      fun l h => (ih (sizeOf l) h).2.1 l (Nat.le_refl _)
    have IHm : ∀ l : List Ast, sizeOf l < n → ∀ s s', compileMany l s = .ok s' → Keeps s s' :=
      fun l h => (ih (sizeOf l) h).2.2.1 l (Nat.le_refl _)
    have IHk : ∀ l : List (String × Ast), sizeOf l < n → ∀ s s',
        compileKwValues l s = .ok s' → Keeps s s' :=
      fun l h => (ih (sizeOf l) h).2.2.2 l (Nat.le_refl _)
    refine ⟨?_, ?_, ?_, ?_⟩
    · intro a hsize s s' h
      cases a with
      | number v =>
          rw [compileNode_number] at h
          cases h
          exact keeps_trans (keeps_addConst s _) (keeps_emitOp _ _ _)
      | stringLit v =>
          rw [compileNode_stringLit] at h
          cases h
          exact keeps_trans (keeps_addConst s _) (keeps_emitOp _ _ _)
      | boolean b =>
          rw [compileNode_boolean] at h
          cases h
          cases b
          · exact keeps_emitOp _ _ _
          · exact keeps_emitOp _ _ _
      | unaryOp op e =>
          simp at hsize
          cases op
          · rw [compileNode_unary_minus, bind_ok_iff] at h
            obtain ⟨s1, h1, h⟩ := h
            cases h
            exact keeps_trans (IHa e (by omega) s s1 h1) (keeps_emitOp _ _ _)
          · rw [compileNode_unary_not, bind_ok_iff] at h
            obtain ⟨s1, h1, h⟩ := h
            cases h
            exact keeps_trans (IHa e (by omega) s s1 h1) (keeps_emitOp _ _ _)
      | binaryOp l op r =>
          simp at hsize
          rw [compileNode_binaryOp, bind_ok_iff] at h
          obtain ⟨s1, h1, h⟩ := h
          rw [bind_ok_iff] at h
          obtain ⟨s2, h2, h⟩ := h
          cases h
          exact keeps_trans (IHa l (by omega) s s1 h1)
            (keeps_trans (IHa r (by omega) s1 s2 h2) (keeps_emitOp _ _ _))
      | logicalOp l op r =>
          simp at hsize
          cases op
          · rw [compileNode_logical_and, bind_ok_iff] at h
            obtain ⟨s1, h1, h⟩ := h
            rw [bind_ok_iff] at h
            obtain ⟨s2, h2, h⟩ := h
            cases h
            exact keeps_trans (IHa l (by omega) s s1 h1)
              (keeps_trans (IHa r (by omega) s1 s2 h2) (keeps_emitOp _ _ _))
          · rw [compileNode_logical_or, bind_ok_iff] at h
            obtain ⟨s1, h1, h⟩ := h
            rw [bind_ok_iff] at h
            obtain ⟨s2, h2, h⟩ := h
            rw [bind_ok_iff] at h
            obtain ⟨s3, h3, h⟩ := h
            cases h
            exact keeps_trans (IHa l (by omega) s s1 h1)
              (keeps_trans (IHa l (by omega) s1 s2 h2)
                (keeps_trans (IHa r (by omega) s2 s3 h3) (keeps_emitOp _ _ _)))
      | comparisonOp l op r =>
          simp at hsize
          rw [compileNode_comparisonOp, bind_ok_iff] at h
          obtain ⟨s1, h1, h⟩ := h
          rw [bind_ok_iff] at h
          obtain ⟨s2, h2, h⟩ := h
          cases h
          exact keeps_trans (IHa l (by omega) s s1 h1)
            (keeps_trans (IHa r (by omega) s1 s2 h2) (keeps_emitOp _ _ _))
      | varDeclareStmt name init is_const =>
          simp at hsize
          cases init with
          | some e =>
              simp at hsize
              rw [compileNode_varDeclare_some, bind_ok_iff] at h
              obtain ⟨s1, h1, h⟩ := h
              have hs1 : Keeps s s1 := IHa e (by omega) s s1 h1
              simp only [addConst] at h
              split at h
              · cases h
                exact keeps_trans hs1 (keeps_constUpd_emit _ _ _ _)
              · cases h
                exact keeps_trans hs1
                  (keeps_trans (keeps_constUpd_emit _ _ _ _) (keeps_emitOp _ _ _))
          | none =>
              rw [compileNode_varDeclare_none] at h
              simp only [addConst] at h
              split at h
              · cases h
                exact keeps_trans (keeps_addConst s _)
                  (keeps_trans (keeps_emitOp _ _ _) (keeps_constUpd_emit _ _ _ _))
              · cases h
                exact keeps_trans (keeps_addConst s _)
                  (keeps_trans (keeps_emitOp _ _ _)
                    (keeps_trans (keeps_constUpd_emit _ _ _ _) (keeps_emitOp _ _ _)))
      | assignStmt name value =>
          simp at hsize
          rw [compileNode_assignStmt, bind_ok_iff] at h
          obtain ⟨s1, h1, h⟩ := h
          simp only [addConst] at h
          split at h
          · cases h
            exact keeps_trans (IHa value (by omega) s s1 h1) (keeps_constUpd_emit _ _ _ _)
          · cases h
            exact keeps_trans (IHa value (by omega) s s1 h1) (keeps_constUpd_emit _ _ _ _)
      | variableExpr name =>
          rw [compileNode_variableExpr] at h
          simp only [addConst] at h
          split at h
          · cases h
            exact keeps_constUpd_emit _ _ _ _
          · cases h
            exact keeps_constUpd_emit _ _ _ _
      | ifStmt cond then_branch else_branch =>
          simp at hsize
          rw [compileNode_ifStmt, bind_ok_iff] at h
          obtain ⟨s1, h1, h⟩ := h
          simp only [emit_instruction] at h
          rw [bind_ok_iff] at h
          obtain ⟨s3, h3, h⟩ := h
          have hcond := IHa cond (by omega) s s1 h1
          have hthen := IHa then_branch (by omega) _ s3 h3
          have base : Keeps s s3 :=
            keeps_trans hcond (keeps_trans
              (keeps_append_one s1 (Instruction.mk .OP_JUMP_IF_FALSE (.num 99999))) hthen)
          cases else_branch with
          | none => exact keeps_patch_ge base h hcond.1.1
          | some els =>
              simp at hsize
              simp only [emit_instruction] at h
              rw [bind_ok_iff] at h
              obtain ⟨s5, h5, h⟩ := h
              rw [bind_ok_iff] at h
              obtain ⟨s6, h6, h⟩ := h
              have hels := IHa els (by omega) s5 s6 h6
              have base5 : Keeps s s5 :=
                keeps_patch_ge
                  (keeps_trans base (keeps_append_one s3 (Instruction.mk .OP_JUMP (.num 99999))))
                  h5 hcond.1.1
              exact keeps_patch_ge (keeps_trans base5 hels) h base.1.1
      | block ht stmts =>
          simp at hsize
          rw [compileNode_block] at h
          cases ht with
          | false =>
              simp only [Bool.false_eq_true, if_false] at h
              exact IHs stmts (by omega) s s' h
          | true =>
              simp only [if_true] at h
              rw [bind_ok_iff] at h
              obtain ⟨s2, h2, h⟩ := h
              cases h
              have hs2 := IHs stmts (by omega) _ s2 h2
              refine keeps_trans (keeps_depthUpd s _)
                (keeps_trans (keeps_emitOp _ _ _)
                  (keeps_trans hs2 (keeps_trans (keeps_emitOp _ _ _)
                    (keeps_depthUpd _ _))))
      | whileStmt cond body =>
          simp at hsize
          rw [compileNode_whileStmt, bind_ok_iff] at h
          obtain ⟨s1, h1, h⟩ := h
          simp only [emit_instruction] at h
          rw [bind_ok_iff] at h
          obtain ⟨s3, h3, h⟩ := h
          rw [bind_ok_iff] at h
          obtain ⟨s6, h6, h⟩ := h
          cases h
          have hcond := IHa cond (by omega) _ s1 h1
          have hbody := IHa body (by omega) _ s3 h3
          have hsp3 : Keeps
              { s with
                  loop_level := s.loop_level + 1,
                  loop_start_patches := [] :: s.loop_start_patches,
                  loop_end_patches := [] :: s.loop_end_patches }
              s3 :=
            keeps_trans hcond (keeps_trans
              (keeps_append_one s1 (Instruction.mk .OP_JUMP_IF_FALSE (.num 99999))) hbody)
          obtain ⟨addS, fsS, heqS, haddS, hfsS⟩ := framesExt_cons_inv hsp3.2.1
          obtain ⟨addE, fsE, heqE, haddE, hfsE⟩ := framesExt_cons_inv hsp3.2.2
          have hi4 : ∀ i ∈ s3.loop_start_patches.headD [], s.bytecode_chunk.length ≤ i := by
            rw [heqS]
            simpa using haddS
          have k6 :=
            keeps_patch_ge
              (keeps_trans (keeps_patchList_ge hsp3 hi4 _) (keeps_emitOp _ _ _))
              h6 hcond.1.1
          have hends6 : s6.loop_end_patches = (addE) :: fsE := by
            have h1e := (patch_jump_more h6).2.2.2.2
            rw [h1e, emitOp_end, patchList_end, heqE]
            simp
          have hi7 : ∀ i ∈ s6.loop_end_patches.headD [], s.bytecode_chunk.length ≤ i := by
            rw [hends6]
            simpa using haddE
          have hstarts6 : s6.loop_start_patches = (addS) :: fsS := by
            have h1s := (patch_jump_more h6).2.2.2.1
            rw [h1s, emitOp_start, patchList_start, heqS]
            simp
          refine ⟨(keeps_patchList_ge k6 hi7 _).1, ?_, ?_⟩
          · rw [patchList_start, hstarts6]
            exact hfsS
          · rw [patchList_end, hends6]
            exact hfsE
      | forInStmt loop_variable iterable body =>
          simp at hsize
          rw [compileNode_forInStmt, bind_ok_iff] at h
          obtain ⟨s3, h3, h⟩ := h
          simp only [addConst, emit_instruction] at h
          rw [bind_ok_iff] at h
          obtain ⟨s11, h11, h⟩ := h
          rw [bind_ok_iff] at h
          obtain ⟨s15, h15, h⟩ := h
          cases h
          have hiter := IHa iterable (by omega) _ s3 h3
          have hbody := IHa body (by omega) _ s11 h11
          have hsp11 : Keeps
              { s with
                  loop_level := s.loop_level + 1,
                  loop_end_patches := [] :: s.loop_end_patches,
                  loop_start_patches := [] :: s.loop_start_patches }
              s11 :=
            keeps_trans (keeps_depthUpd _ _)
              (keeps_trans (keeps_emitOp _ _ _)
                (keeps_trans hiter
                  (keeps_trans (keeps_emitOp _ _ _)
                    (keeps_trans (keeps_constUpd _ _)
                      (keeps_trans (keeps_constUpd _ _)
                        (keeps_trans (keeps_emitOp _ _ _)
                          (keeps_trans (keeps_emitOp _ _ _)
                            (keeps_trans (keeps_append_one _
                                (Instruction.mk .OP_ITER_NEXT_OR_JUMP (.num 99999)))
                              (keeps_trans (keeps_emitOp _ _ _) hbody)))))))))
          obtain ⟨addS, fsS, heqS, haddS, hfsS⟩ := framesExt_cons_inv hsp11.2.1
          obtain ⟨addE, fsE, heqE, haddE, hfsE⟩ := framesExt_cons_inv hsp11.2.2
          have k15 : Keeps
              { s with
                  loop_level := s.loop_level + 1,
                  loop_end_patches := [] :: s.loop_end_patches,
                  loop_start_patches := [] :: s.loop_start_patches }
              s15 := by
            refine keeps_patch_ge (keeps_patchList_ge
              (keeps_trans hsp11
                (keeps_trans (keeps_emitOp _ _ _) (keeps_emitOp _ _ _))) ?_ _) h15 ?_
            · simp only [emitOp_end]
              rw [heqE]
              simpa using haddE
            · have hlen := hiter.1.1
              simp only [emitOp, emit_instruction, List.length_append, List.length_cons,
                List.length_nil] at hlen ⊢
              omega
          have hstart15 : s15.loop_start_patches = addS :: fsS := by
            have h1s := (patch_jump_more h15).2.2.2.1
            rw [h1s, patchList_start]
            simp only [emitOp_start]
            rw [heqS]
            simp
          have hend15 : s15.loop_end_patches = addE :: fsE := by
            have h1e := (patch_jump_more h15).2.2.2.2
            rw [h1e, patchList_end]
            simp only [emitOp_end]
            rw [heqE]
            simp
          have hi16 : ∀ i ∈ s15.loop_start_patches.headD [],
              s.bytecode_chunk.length ≤ i := by
            rw [hstart15]
            simpa using haddS
          refine ⟨(keeps_trans (keeps_patchList_ge k15 hi16 _) (keeps_emitOp _ _ _)).1,
            ?_, ?_⟩
          · simp only [emitOp_start, patchList_start]
            rw [hstart15]
            simpa using hfsS
          · simp only [emitOp_end, patchList_end]
            rw [hend15]
            simpa using hfsE
      | breakStmt =>
          rw [compileNode_breakStmt] at h
          split at h
          · cases h
          · cases h
            refine ⟨⟨by simp, fun i hi => ?_, List.prefix_refl _⟩,
              framesExt_refl _ _, ?_⟩
            · simp [List.getElem?_append_left hi]
            · exact framesExt_pushPatch _ _ _ (Nat.le_refl _)
      | continueStmt =>
          rw [compileNode_continueStmt] at h
          split at h
          · cases h
          · cases h
            refine ⟨⟨by simp, fun i hi => ?_, List.prefix_refl _⟩,
              ?_, framesExt_refl _ _⟩
            · simp [List.getElem?_append_left hi]
            · exact framesExt_pushPatch _ _ _ (Nat.le_refl _)
      | rangeSpecifier start stop step =>
          simp at hsize
          cases step with
          | some st =>
              simp at hsize
              rw [compileNode_rangeSpecifier_some, bind_ok_iff] at h
              obtain ⟨s1, h1, h⟩ := h
              rw [bind_ok_iff] at h
              obtain ⟨s2, h2, h⟩ := h
              rw [bind_ok_iff] at h
              obtain ⟨s3, h3, h⟩ := h
              cases h
              exact keeps_trans (IHa start (by omega) s s1 h1)
                (keeps_trans (IHa stop (by omega) s1 s2 h2)
                  (keeps_trans (IHa st (by omega) s2 s3 h3) (keeps_emitOp _ _ _)))
          | none =>
              rw [compileNode_rangeSpecifier_none, bind_ok_iff] at h
              obtain ⟨s1, h1, h⟩ := h
              rw [bind_ok_iff] at h
              obtain ⟨s2, h2, h⟩ := h
              cases h
              exact keeps_trans (IHa start (by omega) s s1 h1)
                (keeps_trans (IHa stop (by omega) s1 s2 h2)
                  (keeps_trans (keeps_addConst s2 _)
                    (keeps_trans (keeps_emitOp _ _ _) (keeps_emitOp _ _ _))))
      | arrayLiteral elements =>
          simp at hsize
          rw [compileNode_arrayLiteral, bind_ok_iff] at h
          obtain ⟨s1, h1, h⟩ := h
          cases h
          exact keeps_trans (IHm elements (by omega) s s1 h1) (keeps_emitOp _ _ _)
      | functionDefStmt name params body =>
          simp at hsize
          rw [compileNode_functionDefStmt] at h
          simp only [emit_instruction, addConst] at h
          rw [bind_ok_iff] at h
          obtain ⟨s5, h5, h⟩ := h
          rw [bind_ok_iff] at h
          obtain ⟨s11, h11, h⟩ := h
          have hbody := IHa body (by omega) _ s5 h5
          have base5 : Keeps s s5 :=
            keeps_trans (keeps_chunk_append_depth s [Instruction.mk .OP_JUMP (.num 99999)]
                (s.scope_depth + 1))
              (keeps_trans (keeps_emitOp _ _ _)
                (keeps_trans (keeps_defParams _ _) hbody))
          have base11 : Keeps s s11 :=
            keeps_patch_ge
              (keeps_trans base5
                (keeps_trans (keeps_emitOp _ _ _)
                  (keeps_trans (keeps_constUpd _ _)
                    (keeps_trans (keeps_emitOp _ _ _)
                      (keeps_trans (keeps_emitOp _ _ _) (keeps_depthUpd _ _))))))
              h11 (Nat.le_refl _)
          split at h
          · cases h
            exact keeps_trans base11
              (keeps_trans (keeps_constUpd _ _)
                (keeps_trans (keeps_emitOp _ _ _) (keeps_constUpd_emit _ _ _ _)))
          · cases h
            exact keeps_trans base11
              (keeps_trans (keeps_constUpd _ _)
                (keeps_trans (keeps_emitOp _ _ _) (keeps_constUpd_emit _ _ _ _)))
      | functionExpr params body =>
          simp at hsize
          rw [compileNode_functionExpr] at h
          simp only [emit_instruction, addConst] at h
          rw [bind_ok_iff] at h
          obtain ⟨s5, h5, h⟩ := h
          rw [bind_ok_iff] at h
          obtain ⟨s11, h11, h⟩ := h
          cases h
          have hbody := IHa body (by omega) _ s5 h5
          have base5 : Keeps s s5 :=
            keeps_trans (keeps_chunk_append_depth s [Instruction.mk .OP_JUMP (.num 99999)]
                (s.scope_depth + 1))
              (keeps_trans (keeps_emitOp _ _ _)
                (keeps_trans (keeps_defParams _ _) hbody))
          have base11 : Keeps s s11 :=
            keeps_patch_ge
              (keeps_trans base5
                (keeps_trans (keeps_emitOp _ _ _)
                  (keeps_trans (keeps_constUpd _ _)
                    (keeps_trans (keeps_emitOp _ _ _)
                      (keeps_trans (keeps_emitOp _ _ _) (keeps_depthUpd _ _))))))
              h11 (Nat.le_refl _)
          exact keeps_trans base11
            (keeps_trans (keeps_constUpd _ _)
              (keeps_emitOp _ _ _))
      | callExpr callee arguments keywords =>
          simp at hsize
          rw [compileNode_callExpr, bind_ok_iff] at h
          obtain ⟨s1, h1, h⟩ := h
          rw [bind_ok_iff] at h
          obtain ⟨s2, h2, h⟩ := h
          rw [bind_ok_iff] at h
          obtain ⟨s3, h3, h⟩ := h
          have base : Keeps s s3 :=
            keeps_trans (IHa callee (by omega) s s1 h1)
              (keeps_trans (IHm arguments (by omega) s1 s2 h2)
                (IHk keywords (by omega) s2 s3 h3))
          split at h
          · cases h
            exact keeps_trans base (keeps_emitOp _ _ _)
          · simp only [addConst] at h
            cases h
            exact keeps_trans base
              (keeps_trans (keeps_constUpd_emit _ _ _ _)
                (keeps_trans (keeps_emitOp _ _ _) (keeps_emitOp _ _ _)))
      | returnStmt value =>
          cases value with
          | some v =>
              simp at hsize
              rw [compileNode_returnStmt_some, bind_ok_iff] at h
              obtain ⟨s1, h1, h⟩ := h
              cases h
              exact keeps_trans (IHa v (by omega) s s1 h1) (keeps_emitOp _ _ _)
          | none =>
              rw [compileNode_returnStmt_none] at h
              cases h
              exact keeps_trans (keeps_addConst s _)
                (keeps_trans (keeps_emitOp _ _ _) (keeps_emitOp _ _ _))
      | indexExpr collection index =>
          simp at hsize
          rw [compileNode_indexExpr, bind_ok_iff] at h
          obtain ⟨s1, h1, h⟩ := h
          rw [bind_ok_iff] at h
          obtain ⟨s2, h2, h⟩ := h
          cases h
          exact keeps_trans (IHa collection (by omega) s s1 h1)
            (keeps_trans (IHa index (by omega) s1 s2 h2) (keeps_emitOp _ _ _))
      | assignIndexStmt collection index value =>
          simp at hsize
          rw [compileNode_assignIndexStmt, bind_ok_iff] at h
          obtain ⟨s1, h1, h⟩ := h
          rw [bind_ok_iff] at h
          obtain ⟨s2, h2, h⟩ := h
          rw [bind_ok_iff] at h
          obtain ⟨s3, h3, h⟩ := h
          cases h
          exact keeps_trans (IHa collection (by omega) s s1 h1)
            (keeps_trans (IHa index (by omega) s1 s2 h2)
              (keeps_trans (IHa value (by omega) s2 s3 h3) (keeps_emitOp _ _ _)))
      | dotExpr object attr =>
          simp at hsize
          rw [compileNode_dotExpr, bind_ok_iff] at h
          obtain ⟨s1, h1, h⟩ := h
          simp only [addConst] at h
          cases h
          exact keeps_trans (IHa object (by omega) s s1 h1) (keeps_constUpd_emit _ _ _ _)
    · intro l hsize s s' h
      cases l with
      | nil => rw [compileStmts_nil] at h; cases h; exact keeps_refl s
      | cons stmt rest =>
          simp at hsize
          rw [compileStmts_cons, bind_ok_iff] at h
          obtain ⟨s1, h1, h⟩ := h
          have hstep : Keeps s s1 := IHa stmt (by omega) s s1 h1
          have hrest := IHs rest (by omega) _ s' h
          cases hpop : stmt.isExpr with
          | false =>
              rw [hpop] at hrest
              simp at hrest
              exact keeps_trans hstep hrest
          | true =>
              rw [hpop] at hrest
              simp at hrest
              exact keeps_trans hstep (keeps_trans (keeps_emitOp _ _ _) hrest)
    · intro l hsize s s' h
      cases l with
      | nil => rw [compileMany_nil] at h; cases h; exact keeps_refl s
      | cons e rest =>
          simp at hsize
          rw [compileMany_cons, bind_ok_iff] at h
          obtain ⟨s1, h1, h⟩ := h
          exact keeps_trans (IHa e (by omega) s s1 h1) (IHm rest (by omega) s1 s' h)
    · intro l hsize s s' h
      cases l with
      | nil => rw [compileKwValues_nil] at h; cases h; exact keeps_refl s
      | cons kv rest =>
          obtain ⟨k, v⟩ := kv
          simp at hsize
          rw [compileKwValues_cons, bind_ok_iff] at h
          obtain ⟨s1, h1, h⟩ := h
          exact keeps_trans (IHa v (by omega) s s1 h1) (IHk rest (by omega) s1 s' h)

theorem compileNode_keeps {a : Ast} {s s' : CState} (h : compileNode a s = .ok s') :
    Keeps s s' :=
  (keeps_main (sizeOf a)).1 a (Nat.le_refl _) s s' h


/-- `Compiler.compile` as one bind: prelude and scope entry, the user
node, then the fixed epilogue. -/
theorem compile_def (node : Ast) :
    compile node =
      (compileNode node
        { emitOp (init_builtins emptyCState) .OP_ENTER_SCOPE .none with
            scope_depth := 1 }) >>= (fun s4 =>
        let s5 := emitOp s4 .OP_EXIT_SCOPE .none
        let s6 := { s5 with scope_depth := 0 }
        let s7 := emitOp { s6 with constants := (add_constant s6.constants Value.none).2 }
          .OP_CONST (.num (add_constant s6.constants Value.none).1)
        let s8 := emitOp s7 .OP_RETURN .none
        .ok (s8.bytecode_chunk, s8.constants)) := rfl

/-- The compiler state holding just the native prelude. -/
def preludeState : CState := init_builtins emptyCState

/-- A chunk is global-def-clean when its only `OP_DEF_GLOBAL`
instructions sit in the 12-instruction native prelude and it holds no
`OP_DEF_CONST_GLOBAL` at all. -/
def GoodChunk (chunk : List Instruction) : Prop :=
  ∀ i ins, chunk.get? i = some ins →
    (ins.opcode = .OP_DEF_GLOBAL → i < 12) ∧ ins.opcode ≠ .OP_DEF_CONST_GLOBAL

theorem compile_structure {node : Ast} {chunk : List Instruction} {consts : List Value}
    (h : compile node = .ok (chunk, consts)) :
    (∀ i, i < 13 → chunk[i]? =
      (preludeState.bytecode_chunk ++ [Instruction.mk .OP_ENTER_SCOPE .none])[i]?) ∧
    preludeState.constants <+: consts ∧
    GoodChunk chunk := by
  rw [compile_def, bind_ok_iff] at h
  obtain ⟨s4, h4, hfin⟩ := h
  have hK := compileNode_keeps h4
  have hS := compileNode_step1 h4
  simp only [Except.ok.injEq, Prod.mk.injEq] at hfin
  obtain ⟨hchunk, hconsts⟩ := hfin
  have hlen13 : ({ emitOp (init_builtins emptyCState) .OP_ENTER_SCOPE .none with
      scope_depth := 1 } : CState).bytecode_chunk.length = 13 := by decide
  have hi4len : 13 ≤ s4.bytecode_chunk.length := by
    have := hK.1.1
    rw [hlen13] at this
    exact this
  refine ⟨?_, ?_, ?_⟩
  · intro i hi
    have hpre := hK.1.2.1 i (by rw [hlen13]; omega)
    simp only [List.get?_eq_getElem?] at hpre
    rw [← hchunk]
    simp only [emitOp, emit_instruction]
    rw [List.getElem?_append_left (by simp; omega),
        List.getElem?_append_left (by simp; omega),
        List.getElem?_append_left (by omega)]
    exact hpre
  · rw [← hconsts]
    exact List.IsPrefix.trans hK.1.2.2 (add_constant_extends _ _)
  · intro i ins hg
    obtain ⟨new, hops, hgood⟩ := hS.2 (Nat.le_refl 1)
    have hops4 : s4.bytecode_chunk.map Instruction.opcode =
        ([.OP_CONST, .OP_DEF_GLOBAL, .OP_CONST, .OP_DEF_GLOBAL, .OP_CONST, .OP_DEF_GLOBAL,
          .OP_CONST, .OP_DEF_GLOBAL, .OP_CONST, .OP_DEF_GLOBAL, .OP_CONST, .OP_DEF_GLOBAL,
          .OP_ENTER_SCOPE] : List OpCode) ++ new := by
      have h2 : chunkOps ({ emitOp (init_builtins emptyCState) .OP_ENTER_SCOPE .none with
          scope_depth := 1 } : CState) =
          [.OP_CONST, .OP_DEF_GLOBAL, .OP_CONST, .OP_DEF_GLOBAL, .OP_CONST, .OP_DEF_GLOBAL,
           .OP_CONST, .OP_DEF_GLOBAL, .OP_CONST, .OP_DEF_GLOBAL, .OP_CONST, .OP_DEF_GLOBAL,
           .OP_ENTER_SCOPE] := by decide
      have h3 := hops
      rw [h2] at h3
      simpa [chunkOps] using h3
    have hops8 : chunk.map Instruction.opcode =
        ([.OP_CONST, .OP_DEF_GLOBAL, .OP_CONST, .OP_DEF_GLOBAL, .OP_CONST,
          .OP_DEF_GLOBAL, .OP_CONST, .OP_DEF_GLOBAL, .OP_CONST, .OP_DEF_GLOBAL,
          .OP_CONST, .OP_DEF_GLOBAL] : List OpCode) ++
        (OpCode.OP_ENTER_SCOPE :: (new ++ [.OP_EXIT_SCOPE, .OP_CONST, .OP_RETURN])) := by
      rw [← hchunk]
      simp only [emitOp, emit_instruction]
      simp [hops4]
    constructor
    · intro hop
      by_contra hlt
      push_neg at hlt
      have hmap : (chunk.map Instruction.opcode)[i]? = some OpCode.OP_DEF_GLOBAL := by
        simp only [List.getElem?_map]
        rw [show chunk[i]? = some ins from by simpa using hg]
        simp [hop]
      rw [hops8] at hmap
      rw [List.getElem?_append_right (by simp; omega)] at hmap
      have hmem := List.getElem?_mem hmap
      rcases List.mem_cons.mp hmem with h | h
      · cases h
      · rcases List.mem_append.mp h with h | h
        · have := hgood _ h
          simp [isGlobalDef] at this
        · simp at h
    · intro hop
      have hmap : (chunk.map Instruction.opcode)[i]? = some OpCode.OP_DEF_CONST_GLOBAL := by
        simp only [List.getElem?_map]
        rw [show chunk[i]? = some ins from by simpa using hg]
        simp [hop]
      have hmem := List.getElem?_mem (hops8 ▸ hmap)
      rcases List.mem_append.mp hmem with h | h
      · simp at h
      · rcases List.mem_cons.mp h with h | h
        · cases h
        · rcases List.mem_append.mp h with h | h
          · have := hgood _ h
            simp [isGlobalDef] at this
          · simp at h

/-- The state carried by a dispatch outcome. -/
def StepRes.st : StepRes → VmState
  | .next s => s
  | .done _ s => s

set_option maxHeartbeats 3200000 in
theorem step_effects (s0 : VmState) :
    (step s0).st.bytecode_chunk = s0.bytecode_chunk ∧
    (step s0).st.constants = s0.constants ∧
    ((step s0).st.globals = s0.globals ∨
      ∃ ins nm v b, s0.bytecode_chunk.get? s0.ip = some ins ∧
        (step s0).st.globals = setVar s0.globals nm v b ∧
        (((ins.opcode = .OP_DEF_GLOBAL ∨ ins.opcode = .OP_DEF_CONST_GLOBAL) ∧
            nameAt s0 ins.operand = some nm) ∨
         (ins.opcode = .OP_SET_GLOBAL ∧ ∃ var, lookupVar s0.globals nm = some var))) := by
  unfold step
  split
  · exact ⟨rfl, rfl, Or.inl rfl⟩
  · rename_i instr heq
    split
    all_goals dsimp only
    all_goals (try (repeat' split))
    all_goals
      first
        | exact ⟨rfl, rfl, Or.inl rfl⟩
        | (refine ⟨rfl, rfl, Or.inr ⟨instr, _, _, _, heq, rfl,
            Or.inl ⟨Or.inl ?_, ?_⟩⟩⟩ <;> assumption)
        | (refine ⟨rfl, rfl, Or.inr ⟨instr, _, _, _, heq, rfl,
            Or.inl ⟨Or.inr ?_, ?_⟩⟩⟩ <;> assumption)
        | (exact ⟨rfl, rfl, Or.inr ⟨instr, _, _, _, heq, rfl,
            Or.inr ⟨by assumption, _, by assumption⟩⟩⟩)



theorem setVar_keys_mem (g : Env) (nm : String) (h : nm ∈ g.map Prod.fst)
    (v : Value) (b : Bool) :
    (setVar g nm v b).map Prod.fst = g.map Prod.fst := by
  have hany : g.any (fun kv => kv.1 == nm) = true := by
    rw [List.any_eq_true]
    obtain ⟨kv, hkv, hfst⟩ := List.mem_map.mp h
    exact ⟨kv, hkv, by simp [hfst]⟩
  simp only [setVar, hany, if_true]
  rw [List.map_map]
  apply List.map_congr_left
  intro kv hkv
  by_cases hk : kv.1 == nm
  · simp only [Function.comp_apply, hk, if_true]
    exact (eq_of_beq hk).symm
  · have hne : kv.1 ≠ nm := by simpa using hk
    simp [hne]

theorem lookupVar_mem {g : Env} {nm : String} {var : Variable}
    (h : lookupVar g nm = some var) : nm ∈ g.map Prod.fst := by
  unfold lookupVar at h
  cases hf : g.find? (fun kv => kv.1 == nm) with
  | none => rw [hf] at h; cases h
  | some kv =>
      have hp := List.find?_some hf
      have hm := List.mem_of_find?_eq_some hf
      have : kv.1 = nm := eq_of_beq hp
      exact this ▸ List.mem_map_of_mem Prod.fst hm

/-- The `OP_DEF_GLOBAL` instructions of the 12-instruction prelude each
name a native-registry entry in the constants pool. -/
def PreludeNames (chunk : List Instruction) (consts : List Value) : Prop :=
  ∀ i ins, chunk.get? i = some ins → i < 12 → ins.opcode = .OP_DEF_GLOBAL →
    ∃ nm, (match ins.operand with
           | .num k => consts.get? k
           | _ => Option.none) = some (.str nm) ∧ nm ∈ builtinNames

theorem step_keys (s : VmState) (hgood : GoodChunk s.bytecode_chunk)
    (hpre : PreludeNames s.bytecode_chunk s.constants)
    (hkeys : s.globals.map Prod.fst = builtinNames) :
    (step s).st.globals.map Prod.fst = builtinNames := by
  obtain ⟨-, -, hg⟩ := step_effects s
  rcases hg with hg | ⟨ins, nm, v, b, hins, hset, hcase⟩
  · rw [hg, hkeys]
  · rw [hset]
    have hmem : nm ∈ s.globals.map Prod.fst := by
      rcases hcase with ⟨hop, hname⟩ | ⟨hop, var, hlk⟩
      · rcases hop with hop | hop
        · have hi12 := (hgood _ _ hins).1 hop
          obtain ⟨nm2, hn2, hb2⟩ := hpre _ _ hins hi12 hop
          have hca : constAt s ins.operand = some (.str nm2) := hn2
          unfold nameAt at hname
          rw [hca] at hname
          have : nm = nm2 := by
            simpa using hname.symm
          rw [hkeys, this]
          exact hb2
        · exact absurd hop (hgood _ _ hins).2
      · exact lookupVar_mem hlk
    rw [setVar_keys_mem _ _ hmem, hkeys]

theorem run_next {s s' : VmState} (h : step s = .next s') (n : Nat) :
    run (n + 1) s = run n s' := by
  simp [run, h]

theorem run_add (a b : Nat) (s : VmState) :
    run (a + b) s = (match run a s with
      | .fuel s' => run b s'
      | .fin r f => .fin r f) := by
  induction a generalizing s with
  | zero => simp [run]
  | succ k ihk =>
      cases hst : step s with
      | next s1 =>
          rw [Nat.succ_add, run_next hst, run_next hst, ihk]
      | done r f =>
          have h1 : run (k + 1 + b) s = .fin r f := by
            rw [Nat.succ_add]
            simp [run, hst]
          have h2 : run (k + 1) s = .fin r f := by
            simp [run, hst]
          rw [h1, h2]

theorem prefix_getElem {α : Type} {l1 l2 : List α} (h : l1 <+: l2) {i : Nat}
    (hi : i < l1.length) : l2[i]? = l1[i]? := by
  obtain ⟨t, rfl⟩ := h
  exact List.getElem?_append_left hi

theorem run_keys (chunk : List Instruction) (consts : List Value)
    (hgood : GoodChunk chunk) (hpre : PreludeNames chunk consts) :
    ∀ (m : Nat) (s : VmState), s.bytecode_chunk = chunk → s.constants = consts →
      s.globals.map Prod.fst = builtinNames →
      (∀ s', run m s = .fuel s' → s'.globals.map Prod.fst = builtinNames) ∧
      (∀ r f, run m s = .fin r f → f.globals.map Prod.fst = builtinNames) := by
  intro m
  induction m with
  | zero =>
      intro s h1 h2 h3
      refine ⟨fun s' hs => ?_, fun r f hf => by cases hf⟩
      cases hs
      exact h3
  | succ k ihk =>
      intro s h1 h2 h3
      have heff := step_effects s
      have hnext : (step s).st.globals.map Prod.fst = builtinNames :=
        step_keys s (h1 ▸ hgood) (by rw [h1, h2]; exact hpre) h3
      cases hstep : step s with
      | next s1 =>
          rw [hstep] at heff hnext
          simp only [StepRes.st] at heff hnext
          have hrec := ihk s1 (heff.1.trans h1) (heff.2.1.trans h2) hnext
          refine ⟨fun s' hs => ?_, fun r f hf => ?_⟩
          · rw [run_next hstep] at hs
            exact hrec.1 s' hs
          · rw [run_next hstep] at hf
            exact hrec.2 r f hf
      | done r0 f0 =>
          rw [hstep] at heff hnext
          simp only [StepRes.st] at heff hnext
          refine ⟨fun s' hs => ?_, fun r f hf => ?_⟩
          · simp [run, hstep] at hs
          · have : run (k + 1) s = .fin r0 f0 := by simp [run, hstep]
            rw [this] at hf
            cases hf
            exact hnext


/-- The globals dictionary once the native prelude has executed. -/
def preludeGlobals : Env :=
  [("echo", ⟨"echo", Value.fn "echo" (-1) Option.none (some "echo"), false⟩),
   ("len", ⟨"len", Value.fn "len" 1 Option.none (some "len"), false⟩),
   ("scan", ⟨"scan", Value.fn "scan" (-1) Option.none (some "scan"), false⟩),
   ("perf_counter", ⟨"perf_counter", Value.fn "perf_counter" 0 Option.none (some "perf_counter"), false⟩),
   ("importpy", ⟨"importpy", Value.fn "importpy" 1 Option.none (some "importpy"), false⟩),
   ("get_attr", ⟨"get_attr", Value.fn "get_attr" 2 Option.none (some "get_attr"), false⟩)]

theorem run12_prelude {node : Ast} {chunk : List Instruction} {consts : List Value}
    (h : compile node = .ok (chunk, consts)) :
    run 12 (initState chunk consts) = .fuel
      { bytecode_chunk := chunk, constants := consts, ip := 12, stack := [],
        globals := preludeGlobals, environments := [], frames := [] } := by
  obtain ⟨htake, hconsts, -⟩ := compile_structure h
  have hlenp : preludeState.constants.length = 12 := by decide
  have hc : ∀ j, j < 12 → consts[j]? = preludeState.constants[j]? :=
    fun j hj => prefix_getElem hconsts (by rw [hlenp]; omega)
  have h0 : chunk[0]? = some (Instruction.mk .OP_CONST (.num 0)) := by
    rw [htake 0 (by omega)]
    rfl
  have hc0 : consts[0]? = some (Value.fn "echo" (-1) Option.none (some "echo")) := by
    rw [hc 0 (by omega)]
    rfl
  have h1 : chunk[1]? = some (Instruction.mk .OP_DEF_GLOBAL (.num 1)) := by
    rw [htake 1 (by omega)]
    rfl
  have hc1 : consts[1]? = some (Value.str "echo") := by
    rw [hc 1 (by omega)]
    rfl
  have h2 : chunk[2]? = some (Instruction.mk .OP_CONST (.num 2)) := by
    rw [htake 2 (by omega)]
    rfl
  have hc2 : consts[2]? = some (Value.fn "len" 1 Option.none (some "len")) := by
    rw [hc 2 (by omega)]
    rfl
  have h3 : chunk[3]? = some (Instruction.mk .OP_DEF_GLOBAL (.num 3)) := by
    rw [htake 3 (by omega)]
    rfl
  have hc3 : consts[3]? = some (Value.str "len") := by
    rw [hc 3 (by omega)]
    rfl
  have h4 : chunk[4]? = some (Instruction.mk .OP_CONST (.num 4)) := by
    rw [htake 4 (by omega)]
    rfl
  have hc4 : consts[4]? = some (Value.fn "scan" (-1) Option.none (some "scan")) := by
    rw [hc 4 (by omega)]
    rfl
  have h5 : chunk[5]? = some (Instruction.mk .OP_DEF_GLOBAL (.num 5)) := by
    rw [htake 5 (by omega)]
    rfl
  have hc5 : consts[5]? = some (Value.str "scan") := by
    rw [hc 5 (by omega)]
    rfl
  have h6 : chunk[6]? = some (Instruction.mk .OP_CONST (.num 6)) := by
    rw [htake 6 (by omega)]
    rfl
  have hc6 : consts[6]? = some (Value.fn "perf_counter" 0 Option.none (some "perf_counter")) := by
    rw [hc 6 (by omega)]
    rfl
  have h7 : chunk[7]? = some (Instruction.mk .OP_DEF_GLOBAL (.num 7)) := by
    rw [htake 7 (by omega)]
    rfl
  have hc7 : consts[7]? = some (Value.str "perf_counter") := by
    rw [hc 7 (by omega)]
    rfl
  have h8 : chunk[8]? = some (Instruction.mk .OP_CONST (.num 8)) := by
    rw [htake 8 (by omega)]
    rfl
  have hc8 : consts[8]? = some (Value.fn "importpy" 1 Option.none (some "importpy")) := by
    rw [hc 8 (by omega)]
    rfl
  have h9 : chunk[9]? = some (Instruction.mk .OP_DEF_GLOBAL (.num 9)) := by
    rw [htake 9 (by omega)]
    rfl
  have hc9 : consts[9]? = some (Value.str "importpy") := by
    rw [hc 9 (by omega)]
    rfl
  have h10 : chunk[10]? = some (Instruction.mk .OP_CONST (.num 10)) := by
    rw [htake 10 (by omega)]
    rfl
  have hc10 : consts[10]? = some (Value.fn "get_attr" 2 Option.none (some "get_attr")) := by
    rw [hc 10 (by omega)]
    rfl
  have h11 : chunk[11]? = some (Instruction.mk .OP_DEF_GLOBAL (.num 11)) := by
    rw [htake 11 (by omega)]
    rfl
  have hc11 : consts[11]? = some (Value.str "get_attr") := by
    rw [hc 11 (by omega)]
    rfl
  have e0 : step
      (initState chunk consts) = .next
      { bytecode_chunk := chunk, constants := consts, ip := 1, stack := [Value.fn "echo" (-1) Option.none (some "echo")],
          globals := [],
          environments := [], frames := [] } := by
    simp only [step, initState]
    rw [List.get?_eq_getElem?]
    rw [h0]
    simp [constAt, nameAt, setVar, hc0]
  have e1 : step
      { bytecode_chunk := chunk, constants := consts, ip := 1, stack := [Value.fn "echo" (-1) Option.none (some "echo")],
          globals := [],
          environments := [], frames := [] } = .next
      { bytecode_chunk := chunk, constants := consts, ip := 2, stack := [],
          globals := [("echo", ⟨"echo", Value.fn "echo" (-1) Option.none (some "echo"), false⟩)],
          environments := [], frames := [] } := by
    simp only [step, initState]
    rw [List.get?_eq_getElem?]
    rw [h1]
    simp [constAt, nameAt, setVar, hc1]
  have e2 : step
      { bytecode_chunk := chunk, constants := consts, ip := 2, stack := [],
          globals := [("echo", ⟨"echo", Value.fn "echo" (-1) Option.none (some "echo"), false⟩)],
          environments := [], frames := [] } = .next
      { bytecode_chunk := chunk, constants := consts, ip := 3, stack := [Value.fn "len" 1 Option.none (some "len")],
          globals := [("echo", ⟨"echo", Value.fn "echo" (-1) Option.none (some "echo"), false⟩)],
          environments := [], frames := [] } := by
    simp only [step, initState]
    rw [List.get?_eq_getElem?]
    rw [h2]
    simp [constAt, nameAt, setVar, hc2]
  have e3 : step
      { bytecode_chunk := chunk, constants := consts, ip := 3, stack := [Value.fn "len" 1 Option.none (some "len")],
          globals := [("echo", ⟨"echo", Value.fn "echo" (-1) Option.none (some "echo"), false⟩)],
          environments := [], frames := [] } = .next
      { bytecode_chunk := chunk, constants := consts, ip := 4, stack := [],
          globals := [("echo", ⟨"echo", Value.fn "echo" (-1) Option.none (some "echo"), false⟩),
            ("len", ⟨"len", Value.fn "len" 1 Option.none (some "len"), false⟩)],
          environments := [], frames := [] } := by
    simp only [step, initState]
    rw [List.get?_eq_getElem?]
    rw [h3]
    simp [constAt, nameAt, setVar, hc3]
  have e4 : step
      { bytecode_chunk := chunk, constants := consts, ip := 4, stack := [],
          globals := [("echo", ⟨"echo", Value.fn "echo" (-1) Option.none (some "echo"), false⟩),
            ("len", ⟨"len", Value.fn "len" 1 Option.none (some "len"), false⟩)],
          environments := [], frames := [] } = .next
      { bytecode_chunk := chunk, constants := consts, ip := 5, stack := [Value.fn "scan" (-1) Option.none (some "scan")],
          globals := [("echo", ⟨"echo", Value.fn "echo" (-1) Option.none (some "echo"), false⟩),
            ("len", ⟨"len", Value.fn "len" 1 Option.none (some "len"), false⟩)],
          environments := [], frames := [] } := by
    simp only [step, initState]
    rw [List.get?_eq_getElem?]
    rw [h4]
    simp [constAt, nameAt, setVar, hc4]
  have e5 : step
      { bytecode_chunk := chunk, constants := consts, ip := 5, stack := [Value.fn "scan" (-1) Option.none (some "scan")],
          globals := [("echo", ⟨"echo", Value.fn "echo" (-1) Option.none (some "echo"), false⟩),
            ("len", ⟨"len", Value.fn "len" 1 Option.none (some "len"), false⟩)],
          environments := [], frames := [] } = .next
      { bytecode_chunk := chunk, constants := consts, ip := 6, stack := [],
          globals := [("echo", ⟨"echo", Value.fn "echo" (-1) Option.none (some "echo"), false⟩),
            ("len", ⟨"len", Value.fn "len" 1 Option.none (some "len"), false⟩),
            ("scan", ⟨"scan", Value.fn "scan" (-1) Option.none (some "scan"), false⟩)],
          environments := [], frames := [] } := by
    simp only [step, initState]
    rw [List.get?_eq_getElem?]
    rw [h5]
    simp [constAt, nameAt, setVar, hc5]
  have e6 : step
      { bytecode_chunk := chunk, constants := consts, ip := 6, stack := [],
          globals := [("echo", ⟨"echo", Value.fn "echo" (-1) Option.none (some "echo"), false⟩),
            ("len", ⟨"len", Value.fn "len" 1 Option.none (some "len"), false⟩),
            ("scan", ⟨"scan", Value.fn "scan" (-1) Option.none (some "scan"), false⟩)],
          environments := [], frames := [] } = .next
      { bytecode_chunk := chunk, constants := consts, ip := 7, stack := [Value.fn "perf_counter" 0 Option.none (some "perf_counter")],
          globals := [("echo", ⟨"echo", Value.fn "echo" (-1) Option.none (some "echo"), false⟩),
            ("len", ⟨"len", Value.fn "len" 1 Option.none (some "len"), false⟩),
            ("scan", ⟨"scan", Value.fn "scan" (-1) Option.none (some "scan"), false⟩)],
          environments := [], frames := [] } := by
    simp only [step, initState]
    rw [List.get?_eq_getElem?]
    rw [h6]
    simp [constAt, nameAt, setVar, hc6]
  have e7 : step
      { bytecode_chunk := chunk, constants := consts, ip := 7, stack := [Value.fn "perf_counter" 0 Option.none (some "perf_counter")],
          globals := [("echo", ⟨"echo", Value.fn "echo" (-1) Option.none (some "echo"), false⟩),
            ("len", ⟨"len", Value.fn "len" 1 Option.none (some "len"), false⟩),
            ("scan", ⟨"scan", Value.fn "scan" (-1) Option.none (some "scan"), false⟩)],
          environments := [], frames := [] } = .next
      { bytecode_chunk := chunk, constants := consts, ip := 8, stack := [],
          globals := [("echo", ⟨"echo", Value.fn "echo" (-1) Option.none (some "echo"), false⟩),
            ("len", ⟨"len", Value.fn "len" 1 Option.none (some "len"), false⟩),
            ("scan", ⟨"scan", Value.fn "scan" (-1) Option.none (some "scan"), false⟩),
            ("perf_counter", ⟨"perf_counter", Value.fn "perf_counter" 0 Option.none (some "perf_counter"), false⟩)],
          environments := [], frames := [] } := by
    simp only [step, initState]
    rw [List.get?_eq_getElem?]
    rw [h7]
    simp [constAt, nameAt, setVar, hc7]
  have e8 : step
      { bytecode_chunk := chunk, constants := consts, ip := 8, stack := [],
          globals := [("echo", ⟨"echo", Value.fn "echo" (-1) Option.none (some "echo"), false⟩),
            ("len", ⟨"len", Value.fn "len" 1 Option.none (some "len"), false⟩),
            ("scan", ⟨"scan", Value.fn "scan" (-1) Option.none (some "scan"), false⟩),
            ("perf_counter", ⟨"perf_counter", Value.fn "perf_counter" 0 Option.none (some "perf_counter"), false⟩)],
          environments := [], frames := [] } = .next
      { bytecode_chunk := chunk, constants := consts, ip := 9, stack := [Value.fn "importpy" 1 Option.none (some "importpy")],
          globals := [("echo", ⟨"echo", Value.fn "echo" (-1) Option.none (some "echo"), false⟩),
            ("len", ⟨"len", Value.fn "len" 1 Option.none (some "len"), false⟩),
            ("scan", ⟨"scan", Value.fn "scan" (-1) Option.none (some "scan"), false⟩),
            ("perf_counter", ⟨"perf_counter", Value.fn "perf_counter" 0 Option.none (some "perf_counter"), false⟩)],
          environments := [], frames := [] } := by
    simp only [step, initState]
    rw [List.get?_eq_getElem?]
    rw [h8]
    simp [constAt, nameAt, setVar, hc8]
  have e9 : step
      { bytecode_chunk := chunk, constants := consts, ip := 9, stack := [Value.fn "importpy" 1 Option.none (some "importpy")],
          globals := [("echo", ⟨"echo", Value.fn "echo" (-1) Option.none (some "echo"), false⟩),
            ("len", ⟨"len", Value.fn "len" 1 Option.none (some "len"), false⟩),
            ("scan", ⟨"scan", Value.fn "scan" (-1) Option.none (some "scan"), false⟩),
            ("perf_counter", ⟨"perf_counter", Value.fn "perf_counter" 0 Option.none (some "perf_counter"), false⟩)],
          environments := [], frames := [] } = .next
      { bytecode_chunk := chunk, constants := consts, ip := 10, stack := [],
          globals := [("echo", ⟨"echo", Value.fn "echo" (-1) Option.none (some "echo"), false⟩),
            ("len", ⟨"len", Value.fn "len" 1 Option.none (some "len"), false⟩),
            ("scan", ⟨"scan", Value.fn "scan" (-1) Option.none (some "scan"), false⟩),
            ("perf_counter", ⟨"perf_counter", Value.fn "perf_counter" 0 Option.none (some "perf_counter"), false⟩),
            ("importpy", ⟨"importpy", Value.fn "importpy" 1 Option.none (some "importpy"), false⟩)],
          environments := [], frames := [] } := by
    simp only [step, initState]
    rw [List.get?_eq_getElem?]
    rw [h9]
    simp [constAt, nameAt, setVar, hc9]
  have e10 : step
      { bytecode_chunk := chunk, constants := consts, ip := 10, stack := [],
          globals := [("echo", ⟨"echo", Value.fn "echo" (-1) Option.none (some "echo"), false⟩),
            ("len", ⟨"len", Value.fn "len" 1 Option.none (some "len"), false⟩),
            ("scan", ⟨"scan", Value.fn "scan" (-1) Option.none (some "scan"), false⟩),
            ("perf_counter", ⟨"perf_counter", Value.fn "perf_counter" 0 Option.none (some "perf_counter"), false⟩),
            ("importpy", ⟨"importpy", Value.fn "importpy" 1 Option.none (some "importpy"), false⟩)],
          environments := [], frames := [] } = .next
      { bytecode_chunk := chunk, constants := consts, ip := 11, stack := [Value.fn "get_attr" 2 Option.none (some "get_attr")],
          globals := [("echo", ⟨"echo", Value.fn "echo" (-1) Option.none (some "echo"), false⟩),
            ("len", ⟨"len", Value.fn "len" 1 Option.none (some "len"), false⟩),
            ("scan", ⟨"scan", Value.fn "scan" (-1) Option.none (some "scan"), false⟩),
            ("perf_counter", ⟨"perf_counter", Value.fn "perf_counter" 0 Option.none (some "perf_counter"), false⟩),
            ("importpy", ⟨"importpy", Value.fn "importpy" 1 Option.none (some "importpy"), false⟩)],
          environments := [], frames := [] } := by
    simp only [step, initState]
    rw [List.get?_eq_getElem?]
    rw [h10]
    simp [constAt, nameAt, setVar, hc10]
  have e11 : step
      { bytecode_chunk := chunk, constants := consts, ip := 11, stack := [Value.fn "get_attr" 2 Option.none (some "get_attr")],
          globals := [("echo", ⟨"echo", Value.fn "echo" (-1) Option.none (some "echo"), false⟩),
            ("len", ⟨"len", Value.fn "len" 1 Option.none (some "len"), false⟩),
            ("scan", ⟨"scan", Value.fn "scan" (-1) Option.none (some "scan"), false⟩),
            ("perf_counter", ⟨"perf_counter", Value.fn "perf_counter" 0 Option.none (some "perf_counter"), false⟩),
            ("importpy", ⟨"importpy", Value.fn "importpy" 1 Option.none (some "importpy"), false⟩)],
          environments := [], frames := [] } = .next
      { bytecode_chunk := chunk, constants := consts, ip := 12, stack := [],
          globals := [("echo", ⟨"echo", Value.fn "echo" (-1) Option.none (some "echo"), false⟩),
            ("len", ⟨"len", Value.fn "len" 1 Option.none (some "len"), false⟩),
            ("scan", ⟨"scan", Value.fn "scan" (-1) Option.none (some "scan"), false⟩),
            ("perf_counter", ⟨"perf_counter", Value.fn "perf_counter" 0 Option.none (some "perf_counter"), false⟩),
            ("importpy", ⟨"importpy", Value.fn "importpy" 1 Option.none (some "importpy"), false⟩),
            ("get_attr", ⟨"get_attr", Value.fn "get_attr" 2 Option.none (some "get_attr"), false⟩)],
          environments := [], frames := [] } := by
    simp only [step, initState]
    rw [List.get?_eq_getElem?]
    rw [h11]
    simp [constAt, nameAt, setVar, hc11]
  exact (run_next e0 11).trans ((run_next e1 10).trans ((run_next e2 9).trans ((run_next e3 8).trans ((run_next e4 7).trans ((run_next e5 6).trans ((run_next e6 5).trans ((run_next e7 4).trans ((run_next e8 3).trans ((run_next e9 2).trans ((run_next e10 1).trans ((run_next e11 0).trans rfl)))))))))))


theorem compile_preludeNames {node : Ast} {chunk : List Instruction}
    {consts : List Value} (h : compile node = .ok (chunk, consts)) :
    PreludeNames chunk consts := by
  obtain ⟨htake, hconsts, -⟩ := compile_structure h
  have hlenp : preludeState.constants.length = 12 := by decide
  have hc : ∀ j, j < 12 → consts[j]? = preludeState.constants[j]? :=
    fun j hj => prefix_getElem hconsts (by rw [hlenp]; omega)
  have hpl : preludeState.bytecode_chunk ++ [Instruction.mk .OP_ENTER_SCOPE .none] =
      [Instruction.mk .OP_CONST (.num 0), Instruction.mk .OP_DEF_GLOBAL (.num 1),
       Instruction.mk .OP_CONST (.num 2), Instruction.mk .OP_DEF_GLOBAL (.num 3),
       Instruction.mk .OP_CONST (.num 4), Instruction.mk .OP_DEF_GLOBAL (.num 5),
       Instruction.mk .OP_CONST (.num 6), Instruction.mk .OP_DEF_GLOBAL (.num 7),
       Instruction.mk .OP_CONST (.num 8), Instruction.mk .OP_DEF_GLOBAL (.num 9),
       Instruction.mk .OP_CONST (.num 10), Instruction.mk .OP_DEF_GLOBAL (.num 11),
       Instruction.mk .OP_ENTER_SCOPE .none] := by decide
  intro i ins hg hi12 hop
  have hg2 : chunk[i]? = some ins := by simpa using hg
  rw [htake i (by omega), hpl] at hg2
  interval_cases i
  · exfalso
    simp at hg2
    subst hg2
    simp at hop
  · simp at hg2
    subst hg2
    refine ⟨"echo", ?_, by decide⟩
    show consts.get? 1 = some (Value.str "echo")
    rw [List.get?_eq_getElem?, hc 1 (by omega)]
    rfl
  · exfalso
    simp at hg2
    subst hg2
    simp at hop
  · simp at hg2
    subst hg2
    refine ⟨"len", ?_, by decide⟩
    show consts.get? 3 = some (Value.str "len")
    rw [List.get?_eq_getElem?, hc 3 (by omega)]
    rfl
  · exfalso
    simp at hg2
    subst hg2
    simp at hop
  · simp at hg2
    subst hg2
    refine ⟨"scan", ?_, by decide⟩
    show consts.get? 5 = some (Value.str "scan")
    rw [List.get?_eq_getElem?, hc 5 (by omega)]
    rfl
  · exfalso
    simp at hg2
    subst hg2
    simp at hop
  · simp at hg2
    subst hg2
    refine ⟨"perf_counter", ?_, by decide⟩
    show consts.get? 7 = some (Value.str "perf_counter")
    rw [List.get?_eq_getElem?, hc 7 (by omega)]
    rfl
  · exfalso
    simp at hg2
    subst hg2
    simp at hop
  · simp at hg2
    subst hg2
    refine ⟨"importpy", ?_, by decide⟩
    show consts.get? 9 = some (Value.str "importpy")
    rw [List.get?_eq_getElem?, hc 9 (by omega)]
    rfl
  · exfalso
    simp at hg2
    subst hg2
    simp at hop
  · simp at hg2
    subst hg2
    refine ⟨"get_attr", ?_, by decide⟩
    show consts.get? 11 = some (Value.str "get_attr")
    rw [List.get?_eq_getElem?, hc 11 (by omega)]
    rfl


theorem compiled_run_keys {node : Ast} {chunk : List Instruction} {consts : List Value}
    (h : compile node = .ok (chunk, consts)) :
    (∀ m s', 12 ≤ m → run m (initState chunk consts) = .fuel s' →
      s'.globals.map Prod.fst = builtinNames) ∧
    (∀ m r f, run m (initState chunk consts) = .fin r f →
      f.globals.map Prod.fst = builtinNames) := by
  have hgood : GoodChunk chunk := (compile_structure h).2.2
  have hpre := compile_preludeNames h
  have h12 := run12_prelude h
  have hrk := run_keys chunk consts hgood hpre
  have hG : preludeGlobals.map Prod.fst = builtinNames := by decide
  constructor
  · intro m s' hm hrun
    have hdecomp := run_add 12 (m - 12) (initState chunk consts)
    rw [show 12 + (m - 12) = m from by omega] at hdecomp
    rw [hrun, h12] at hdecomp
    simp only [] at hdecomp
    exact (hrk (m - 12) _ rfl rfl hG).1 s' hdecomp.symm
  · intro m r f hrun
    rcases Nat.lt_or_ge m 12 with hm | hm
    · exfalso
      have hdecomp := run_add m (12 - m) (initState chunk consts)
      rw [show m + (12 - m) = 12 from by omega] at hdecomp
      rw [h12, hrun] at hdecomp
      simp at hdecomp
    · have hdecomp := run_add 12 (m - 12) (initState chunk consts)
      rw [show 12 + (m - 12) = m from by omega] at hdecomp
      rw [hrun, h12] at hdecomp
      simp only [] at hdecomp
      exact (hrk (m - 12) _ rfl rfl hG).2 r f hdecomp.symm

theorem varDeclare_local (name : String) (init : Ast) (is_const : Bool)
    (s s' : CState) (hd : 1 ≤ s.scope_depth)
    (h : compileNode (.varDeclareStmt name (some init) is_const) s = .ok s') :
    ∃ s1 idx, compileNode init s = .ok s1 ∧
      s'.bytecode_chunk = s1.bytecode_chunk ++
        [Instruction.mk (if is_const then .OP_DEF_CONST_LOCAL else .OP_DEF_LOCAL)
           (.num idx)] := by
  rw [compileNode_varDeclare_some, bind_ok_iff] at h
  obtain ⟨s1, h1, h⟩ := h
  have hd1 : 1 ≤ s1.scope_depth := by
    rw [compileNode_depth h1]
    exact hd
  simp only [addConst] at h
  split at h
  · cases h
    exact ⟨s1, (add_constant s1.constants (.str name)).1, h1, rfl⟩
  · rename_i hdep
    exfalso
    omega

theorem functionDef_local (name : String) (params : List String) (body : Ast)
    (s s' : CState) (hd : 1 ≤ s.scope_depth)
    (h : compileNode (.functionDefStmt name params body) s = .ok s') :
    ∃ pre idx, s'.bytecode_chunk = pre ++ [Instruction.mk .OP_DEF_LOCAL (.num idx)] := by
  rw [compileNode_functionDefStmt] at h
  simp only [emit_instruction, addConst] at h
  rw [bind_ok_iff] at h
  obtain ⟨s5, h5, h⟩ := h
  rw [bind_ok_iff] at h
  obtain ⟨s11, h11, h⟩ := h
  have hpj := patch_jump_parts h11
  split at h
  · cases h
    exact ⟨_, _, rfl⟩
  · rename_i hdep
    exfalso
    simp only [emitOp_depth, constUpd_depth, hpj.1, depthUpd_depth, chunkUpd_depth] at hdep
    omega


theorem compile_take13 {node : Ast} {chunk : List Instruction} {consts : List Value}
    (h : compile node = .ok (chunk, consts)) :
    chunk.take 13 =
      preludeState.bytecode_chunk ++ [Instruction.mk .OP_ENTER_SCOPE .none] := by
  obtain ⟨htake, -, -⟩ := compile_structure h
  have hlen : 13 ≤ chunk.length := by
    have h12 := htake 12 (by omega)
    have hs : chunk[12]? = some (Instruction.mk .OP_ENTER_SCOPE .none) := by
      rw [h12]
      rfl
    rw [List.getElem?_eq_some_iff] at hs
    obtain ⟨hlt, -⟩ := hs
    omega
  apply List.ext_getElem?
  intro i
  by_cases hi : i < 13
  · rw [List.getElem?_take_of_lt hi, htake i hi]
  · push_neg at hi
    rw [List.getElem?_eq_none (by simp; omega),
        List.getElem?_eq_none (by
          rw [show (preludeState.bytecode_chunk ++
            [Instruction.mk .OP_ENTER_SCOPE .none]).length = 13 from by decide]
          omega)]


/-- C9 (counterexample): the globals map does NOT contain exactly the
native-registry names at every point of a run — two dispatch steps into
any run of the S1 program only `echo` has been defined. -/
theorem claim9_counterexample :
    (midRun 2 s1prog).map (fun st => st.globals.map Prod.fst) = some ["echo"] ∧
    (["echo"] : List String) ≠ builtinNames := by
  refine ⟨by rfl, by decide⟩

/-- C9 (amended): every chunk produced by `Compiler.compile` defines user
variables and named functions only with local opcodes.  At scope depth at
least 1 — and `compile` passes the user AST to `_compile_node` at depth
exactly 1 — a `VarDeclareStmt` with initializer appends
`DEF_CONST_LOCAL`/`DEF_LOCAL` and a `FunctionDefStmt` ends with
`DEF_LOCAL`; the compiled chunk starts with the 12-instruction native
prelude followed by `OP_ENTER_SCOPE`, and its only `OP_DEF_GLOBAL`
instructions are the prelude initializers (with no `OP_DEF_CONST_GLOBAL`
anywhere); consequently, once the prelude has executed — from the 12th
dispatch step on, and at termination — the VM globals map contains
exactly the native-registry names. -/
theorem claim9_amended :
    (∀ (name : String) (init : Ast) (is_const : Bool) (s s' : CState),
      1 ≤ s.scope_depth →
      compileNode (.varDeclareStmt name (some init) is_const) s = .ok s' →
      ∃ s1 idx, compileNode init s = .ok s1 ∧
        s'.bytecode_chunk = s1.bytecode_chunk ++
          [Instruction.mk (if is_const then .OP_DEF_CONST_LOCAL else .OP_DEF_LOCAL)
             (.num idx)]) ∧
    (∀ (name : String) (params : List String) (body : Ast) (s s' : CState),
      1 ≤ s.scope_depth →
      compileNode (.functionDefStmt name params body) s = .ok s' →
      ∃ pre idx, s'.bytecode_chunk = pre ++ [Instruction.mk .OP_DEF_LOCAL (.num idx)]) ∧
    (∀ (node : Ast) (chunk : List Instruction) (consts : List Value),
      compile node = .ok (chunk, consts) →
      ({ emitOp (init_builtins emptyCState) .OP_ENTER_SCOPE .none with
          scope_depth := 1 } : CState).scope_depth = 1 ∧
      chunk.take 13 =
        preludeState.bytecode_chunk ++ [Instruction.mk .OP_ENTER_SCOPE .none] ∧
      GoodChunk chunk ∧
      (∀ m s', 12 ≤ m → run m (initState chunk consts) = .fuel s' →
        s'.globals.map Prod.fst = builtinNames) ∧
      (∀ m r f, run m (initState chunk consts) = .fin r f →
        f.globals.map Prod.fst = builtinNames)) :=
  ⟨varDeclare_local, functionDef_local,
   fun _ _ _ h => ⟨rfl, compile_take13 h, (compile_structure h).2.2,
     (compiled_run_keys h).1, (compiled_run_keys h).2⟩⟩

/-- The compiler state produced by compiling `let k = 7;` at scope
depth 1, used to instantiate the C9 amended theorem. -/
def c9ws : CState :=
  { bytecode_chunk := [Instruction.mk .OP_CONST (.num 0),
      Instruction.mk .OP_DEF_LOCAL (.num 1)],
    constants := [.int 7, .str "k"], scope_depth := 1, loop_level := 0,
    loop_start_patches := [], loop_end_patches := [] }

/-- C9 (witness): the local-definition clause applied to `let k = 7;`
compiled at scope depth 1 — the defining opcode is `OP_DEF_LOCAL`. -/
theorem claim9_witness :
    compileNode (.varDeclareStmt "k" (some (.number (.int 7))) false)
        { emptyCState with scope_depth := 1 } = .ok c9ws ∧
    ∃ s1 idx,
      compileNode (.number (.int 7)) { emptyCState with scope_depth := 1 } = .ok s1 ∧
      c9ws.bytecode_chunk = s1.bytecode_chunk ++
        [Instruction.mk .OP_DEF_LOCAL (.num idx)] :=
  ⟨rfl, claim9_amended.1 "k" (.number (.int 7)) false
    { emptyCState with scope_depth := 1 } c9ws (by decide) rfl⟩

/-- Only `None` compares `==`-equal to `None`. -/
theorem pyEq_none {c : Value} (h : pyEq c Value.none = true) : c = Value.none := by
  have hk : pyKey c = Key.none := pyKey_eq_of_pyEq h
  cases c <;> simp_all [pyKey]

/-- After interning `None`, the returned index holds `None` itself. -/
theorem add_constant_get_none (cs : List Value) :
    (add_constant cs Value.none).2[(add_constant cs Value.none).1]? =
      some Value.none := by
  rw [add_constant_simple]
  cases hidx : cs.findIdx? (fun c => pyEq c Value.none) with
  | some i =>
      simp only [hidx]
      obtain ⟨hlt, hp, -⟩ := List.findIdx?_eq_some_iff_getElem.mp hidx
      simp [List.getElem?_eq_getElem hlt, pyEq_none hp]
  | none =>
      simp only [hidx]
      rw [List.getElem?_append_right (Nat.le_refl _)]
      simp

/-- Every chunk `Compiler.compile` produces ends with the fixed epilogue
`OP_CONST idx; OP_RETURN`, whose constant is `None`. -/
theorem compile_epilogue {node : Ast} {chunk : List Instruction}
    {consts : List Value} (h : compile node = .ok (chunk, consts)) :
    ∃ pre idx, chunk = pre ++ [Instruction.mk .OP_CONST (.num idx),
        Instruction.mk .OP_RETURN .none] ∧
      consts[idx]? = some Value.none := by
  rw [compile_def, bind_ok_iff] at h
  obtain ⟨s4, h4, hfin⟩ := h
  simp only [Except.ok.injEq, Prod.mk.injEq] at hfin
  obtain ⟨hchunk, hconsts⟩ := hfin
  refine ⟨(emitOp s4 .OP_EXIT_SCOPE .none).bytecode_chunk,
    (add_constant (emitOp s4 .OP_EXIT_SCOPE .none).constants Value.none).1, ?_, ?_⟩
  · rw [← hchunk]
    simp [emitOp, emit_instruction]
  · rw [← hconsts]
    exact add_constant_get_none _

/-- C1 (amended): `interpret` on a compiled chunk does not return the
last expression statement's value: `visit_Block` pops every expression
statement's result, and every chunk `Compiler.compile` produces ends
with the fixed epilogue `OP_CONST idx; OP_RETURN` whose constant is
`None`.  In particular the S1 program (`let x = 2 + 3 * 4;` then the
expression statement `x`) returns `Ok(None)`, not `Ok(14)`: the 14 is
computed — after 20 dispatch steps it is the whole operand stack — and
the compiler-inserted `OP_POP` discards it at step 21. -/
theorem claim1_amended :
    (∀ (node : Ast) (chunk : List Instruction) (consts : List Value),
      compile node = .ok (chunk, consts) →
      ∃ pre idx, chunk = pre ++ [Instruction.mk .OP_CONST (.num idx),
          Instruction.mk .OP_RETURN .none] ∧
        consts[idx]? = some Value.none) ∧
    (compileRun 100 s1prog).map Prod.fst = some (RunEnd.ok Value.none) ∧
    (midRun 20 s1prog).map (fun st => st.stack) = some [Value.int 14] ∧
    (midRun 21 s1prog).map (fun st => st.stack) = some ([] : List Value) :=
  ⟨fun _ _ _ h => compile_epilogue h, by decide, by decide, by decide⟩

end Pyle
